import Mathlib

/-! ReFlex NVMe scheduler: device model, request cost, admission control and the token
scheduler.

A shallow embedding of `dp/drivers/nvmedev.c`.

* C integers are natural numbers or integers; every operation that can wrap in C is
  written with an explicit reduction (`u64`, `u32`, `i32`). The `long` credit of a tenant
  is an integer that the embedding does not wrap.
* C `double` values are modelled by `F64`: finite binary64 numbers with correct
  rounding to nearest, ties to even (exponent range not modelled).
* Global variables and per-core variables of admission control are fields of `State`;
  those of the scheduler are fields of `SchedState`, which holds a `State`. Every function
  takes the state and returns the new one, together with the requests it issues.
* Constants, tables and types that come from headers outside the file are fields of `Cfg`
  and `SchedCfg`; the values of `timer_now()` and `rdtsc()` are arguments.
* The software queue operations (`nvme_sw_queue_*`) are declared in a header outside the
  file; their definitions here follow the specification and say so.
* A loop that need not end (the round-robin advance) takes a bound on its iterations and
  returns `none` when the bound is reached.
* The queue objects live in memory pools outside the file. The pointer `nvme_swq` of a
  tenant descriptor is kept as a `swq_ptr`; `bsys_nvme_unregister_flow` returns `none`
  where the code dereferences a pointer that was never assigned or was already freed.
-/

namespace Reflex

/-! ## Machine integers -/

/-- Reduction of an integer to `unsigned long` (64 bits). -/
def u64 (n : Int) : Nat := (n % 18446744073709551616).toNat

/-- Reduction of an integer to `unsigned int` (32 bits). -/
def u32 (n : Int) : Nat := (n % 4294967296).toNat

/-- Reduction of an integer to `int` (32 bits, two's complement). Signed overflow is
undefined in C; the embedding wraps. -/
def i32 (n : Int) : Int := (n + 2147483648) % 4294967296 - 2147483648

/-- The C constant `UINT_MAX`. -/
def UINT_MAX : Nat := 4294967295

/-! ## Binary64 arithmetic -/

/-- Helper for `ilog2`: at most `fuel` halvings. -/
def ilog2Aux : Nat → Nat → Nat
  | 0, _ => 0
  | fuel + 1, n => if n < 2 then 0 else ilog2Aux fuel (n / 2) + 1

/-- Floor of the binary logarithm (0 at 0). -/
def ilog2 (n : Nat) : Nat := ilog2Aux n n

/-- A finite binary64 value `m * 2 ^ e`. Values produced by `F64.round` are canonical:
either `m = 0` and `e = 0`, or `2 ^ 52 ≤ |m| < 2 ^ 53`. -/
structure F64 where
  m : Int
  e : Int
deriving DecidableEq, Repr

/-- The binary64 number nearest to `n / d`, ties to even. -/
def F64.round (n : Int) (d : Nat) : F64 :=
  if n = 0 ∨ d = 0 then ⟨0, 0⟩ else
  let a : Nat := n.natAbs
  let e0 : Int := (ilog2 a : Int) - (ilog2 d : Int)
  let e : Int := if d * 2 ^ e0.toNat ≤ a * 2 ^ (-e0).toNat then e0 else e0 - 1
  let N : Nat := a * 2 ^ (52 - e).toNat
  let D : Nat := d * 2 ^ (e - 52).toNat
  let q : Nat := N / D
  let r : Nat := N % D
  let k : Nat :=
    if 2 * r < D then q else if D < 2 * r then q + 1 else if q % 2 = 0 then q else q + 1
  if k = 2 ^ 53 then ⟨Int.sign n * 2 ^ 52, e - 51⟩ else ⟨Int.sign n * k, e - 52⟩

/-- Numerator of the value as a fraction with denominator `F64.den`. -/
def F64.num (x : F64) : Int := x.m * 2 ^ x.e.toNat

/-- Denominator of the value, a power of two. -/
def F64.den (x : F64) : Nat := 2 ^ (-x.e).toNat

/-- The rational number a binary64 value stands for. -/
def F64.toRat (x : F64) : ℚ := (x.num : ℚ) / (x.den : ℚ)

/-- Conversion of an integer to `double`. -/
def F64.ofInt (n : Int) : F64 := F64.round n 1

/-- Sum in `double`. -/
def F64.add (x y : F64) : F64 := F64.round (x.num * y.den + y.num * x.den) (x.den * y.den)

/-- Difference in `double`. -/
def F64.sub (x y : F64) : F64 := F64.round (x.num * y.den - y.num * x.den) (x.den * y.den)

/-- Product in `double`. -/
def F64.mul (x y : F64) : F64 := F64.round (x.num * y.num) (x.den * y.den)

/-- Quotient in `double` (a zero divisor gives 0 here; the callers never divide by 0). -/
def F64.div (x y : F64) : F64 :=
  F64.round (Int.sign y.num * (x.num * y.den)) (x.den * y.num.natAbs)

/-- Truncation toward zero, the integer part of a `double`. -/
def F64.toInt (x : F64) : Int := Int.sign x.num * ((x.num.natAbs / x.den : Nat) : Int)

/-- The cast `(unsigned long) x`. Out of range the cast is undefined in C; the embedding
wraps. -/
def F64.toU64 (x : F64) : Nat := u64 x.toInt

/-- The `double` constant `0.5`. -/
def F64.half : F64 := F64.round 1 2

/-- The `double` constant `1E6`. -/
def F64.million : F64 := F64.ofInt 1000000

/-! ## Configuration -/

/-- Device model selector `nvme_dev_model`; `undefined_model` is any other value. -/
inductive DevModelKind where
  | DEFAULT_FLASH
  | FAKE_FLASH
  | FLASH_DEV_MODEL
  | undefined_model
deriving DecidableEq, Repr

/-- One calibration point of the table `dev_model`. -/
structure dev_model_entry where
  p95_tail_latency : Nat
  token_rate_limit : Nat
  token_rdonly_rate_limit : Nat
deriving DecidableEq, Repr

/-- Request kind of a command; `other` is any value that is neither read nor write. -/
inductive nvme_cmd where
  | NVME_CMD_READ
  | NVME_CMD_WRITE
  | other
deriving DecidableEq, Repr

/-- Compile-time constants and configuration tables declared outside `nvmedev.c`. -/
structure Cfg where
  MAX_NVME_FLOW_GROUPS : Nat
  NVME_READ_COST : Int
  NVME_WRITE_COST : Int
  nvme_dev_model : DevModelKind
  dev_model : List dev_model_entry

/-- The global `dev_model_size`. -/
def Cfg.dev_model_size (cfg : Cfg) : Nat := cfg.dev_model.length

/-- Array read `dev_model[i]`. -/
def Cfg.dev (cfg : Cfg) (i : Nat) : dev_model_entry := cfg.dev_model.getD i ⟨0, 0, 0⟩

/-- The rate column `find_token_limit_from_devmodel` reads: `token_rdonly_rate_limit` when
`global_readonly_flag` is set, `token_rate_limit` otherwise. -/
def dev_model_entry.rate (global_readonly_flag : Bool) (d : dev_model_entry) : Nat :=
  if global_readonly_flag then d.token_rdonly_rate_limit else d.token_rate_limit

/-! ## Request cost -/

/-- Source `nvme_compute_req_cost(req_type, req_len)`; `req_len` is a `size_t`. -/
def nvme_compute_req_cost (cfg : Cfg) (req_type : nvme_cmd) (req_len : Nat) : Int :=
  if req_len ≤ 0 then 0 else
  let len_scale_factor : Int :=
    if req_len > 4096 then i32 ((u64 ((req_len : Int) + 4096 - 1) / 4096 : Nat) : Int) else 1
  match req_type with
  | nvme_cmd.NVME_CMD_READ => i32 (cfg.NVME_READ_COST * len_scale_factor)
  | nvme_cmd.NVME_CMD_WRITE => i32 (cfg.NVME_WRITE_COST * len_scale_factor)
  | nvme_cmd.other => 1

/-- The constant `SLO_REQ_SIZE`. -/
def SLO_REQ_SIZE : Nat := 4096

/-- Source `scaled_IOPS(IOPS, rw_ratio_100)`. -/
def scaled_IOPS (cfg : Cfg) (IOPS : Nat) (rw_ratio_100 : Int) : Nat :=
  let rw_ratio : F64 := F64.div (F64.ofInt rw_ratio_100) (F64.ofInt 100)
  let rd : F64 := F64.mul (F64.mul (F64.ofInt IOPS) rw_ratio)
    (F64.ofInt (nvme_compute_req_cost cfg nvme_cmd.NVME_CMD_READ SLO_REQ_SIZE))
  let wr : F64 := F64.mul (F64.mul (F64.ofInt IOPS) (F64.sub (F64.ofInt 1) rw_ratio))
    (F64.ofInt (nvme_compute_req_cost cfg nvme_cmd.NVME_CMD_WRITE SLO_REQ_SIZE))
  F64.toU64 (F64.add (F64.add rd wr) F64.half)

/-! ## Device model -/

/-- The search loop of `find_token_limit_from_devmodel`: the value of `i` when the loop
ends, counted from the head of the remaining table. -/
def devmodel_scan : List dev_model_entry → Nat → Nat
  | [], _ => 0
  | d :: rest, lat_SLO => if lat_SLO < d.p95_tail_latency then 0 else devmodel_scan rest lat_SLO + 1

/-- The interpolation `y0 + ((y1 - y0) * (lat_SLO - x0) / (double) (x1 - x0))` cast to
`unsigned long`; the integer operands are `unsigned long`. -/
def interpolate (y0 y1 x0 x1 lat_SLO : Nat) : Nat :=
  let prod : Nat := u64 ((u64 ((y1 : Int) - y0) : Int) * (u64 ((lat_SLO : Int) - x0) : Int))
  let y : F64 := F64.add (F64.ofInt y0)
    (F64.div (F64.ofInt prod) (F64.ofInt (u64 ((x1 : Int) - x0))))
  F64.toU64 y

/-- Source `find_token_limit_from_devmodel(lat_SLO)`; it reads `global_readonly_flag`.
The two `assert(x1-x0 != 0)` are not part of the value; `devmodel_assert` states them. -/
def find_token_limit_from_devmodel (cfg : Cfg) (global_readonly_flag : Bool) (lat_SLO : Nat) :
    Nat :=
  let i := devmodel_scan cfg.dev_model lat_SLO
  if i > 0 then
    if global_readonly_flag then
      if i = cfg.dev_model_size then (cfg.dev (i - 1)).token_rdonly_rate_limit
      else interpolate (cfg.dev (i - 1)).token_rdonly_rate_limit (cfg.dev i).token_rdonly_rate_limit
        (cfg.dev (i - 1)).p95_tail_latency (cfg.dev i).p95_tail_latency lat_SLO
    else
      if i = cfg.dev_model_size then (cfg.dev (i - 1)).token_rate_limit
      else interpolate (cfg.dev (i - 1)).token_rate_limit (cfg.dev i).token_rate_limit
        (cfg.dev (i - 1)).p95_tail_latency (cfg.dev i).p95_tail_latency lat_SLO
  else if global_readonly_flag then (cfg.dev 0).token_rdonly_rate_limit
  else (cfg.dev 0).token_rate_limit

/-- The condition of the two `assert(x1-x0 != 0)` in `find_token_limit_from_devmodel`,
at the index the search loop ends with. -/
def devmodel_assert (cfg : Cfg) (lat_SLO : Nat) : Prop :=
  0 < devmodel_scan cfg.dev_model lat_SLO →
    devmodel_scan cfg.dev_model lat_SLO ≠ cfg.dev_model_size →
    u64 (((cfg.dev (devmodel_scan cfg.dev_model lat_SLO)).p95_tail_latency : Int)
      - (cfg.dev (devmodel_scan cfg.dev_model lat_SLO - 1)).p95_tail_latency) ≠ 0

/-- Source `lookup_device_token_rate(lat_SLO)`. -/
def lookup_device_token_rate (cfg : Cfg) (global_readonly_flag : Bool) (lat_SLO : Nat) : Nat :=
  match cfg.nvme_dev_model with
  | DevModelKind.DEFAULT_FLASH => UINT_MAX
  | DevModelKind.FAKE_FLASH => UINT_MAX
  | DevModelKind.FLASH_DEV_MODEL => find_token_limit_from_devmodel cfg global_readonly_flag lat_SLO
  | DevModelKind.undefined_model => UINT_MAX

/-! ## Tenant table and global admission state -/

/-- Request context `struct nvme_ctx`, reduced to the fields the scheduler reads. -/
structure nvme_ctx where
  cmd : nvme_cmd
  req_cost : Int
  cookie : Nat
deriving DecidableEq, Repr

/-- Per-tenant software queue `struct nvme_sw_queue`. -/
structure nvme_sw_queue where
  fg_handle : Nat
  queue : List nvme_ctx
  token_credit : Int
  saved_tokens : Nat
  total_token_demand : Nat
deriving DecidableEq, Repr

/-- Modelled from the spec: `nvme_sw_queue_init` (declared in `ix/nvme_sw_queue.h`, whose
source is absent) gives an empty queue with no credit, no saved tokens and no demand. -/
def nvme_sw_queue_init (fg_handle : Nat) : nvme_sw_queue := ⟨fg_handle, [], 0, 0, 0⟩

/-- The pointer field `nvme_swq` of a tenant descriptor. The queue objects live in per-core
memory pools outside the file, so the pointer is kept by the three cases the code can meet.
`null`: the field was never assigned (`nvme_fgs` is zero-initialised). `linked cpu`: the
field points to the queue that the latest registration of the slot allocated and linked on
the list of core `cpu`; `list_add` links at the head and only `list_del` on this pointer
unlinks a queue of the slot, so that queue is the first one on that list whose `fg_handle`
is the slot. `freed`: the queue the field points to was unlinked and returned to the
pool. -/
inductive swq_ptr where
  | null
  | linked (cpu : Nat)
  | freed
deriving DecidableEq, Repr

/-- Tenant descriptor `struct nvme_flow_group` (one slot of `nvme_fgs`). -/
structure nvme_flow_group where
  flow_group_id : Int
  cookie : Nat
  latency_us_SLO : Nat
  IOPS_SLO : Nat
  rw_ratio_SLO : Int
  scaled_IOPS_limit : Nat
  scaled_IOPuS_limit : F64
  tid : Nat
  latency_critical_flag : Bool
  conn_ref_count : Int
  nvme_swq : swq_ptr
deriving DecidableEq, Repr

/-- Per-core `struct nvme_tenant_mgmt`. -/
structure nvme_tenant_mgmt where
  tenant_swq : List nvme_sw_queue
  num_tenants : Int
  num_best_effort_tenants : Int
deriving DecidableEq, Repr

/-- The per-core variables `nvme_tenant_manager` and `roundrobin_start`. -/
structure PerCpu where
  nvme_tenant_manager : nvme_tenant_mgmt
  roundrobin_start : Int
deriving DecidableEq, Repr

/-- The file-scope variables of `nvmedev.c` that admission control reads and writes.
`global_be_token_rate_per_tenant` holds the `unsigned int` that `atomic_write` stores;
`percpu` gives each core its per-core variables. -/
structure State where
  nvme_fgs : Nat → nvme_flow_group
  nvme_fgs_bitmap : Nat → Bool
  global_token_rate : Nat
  global_LC_sum_token_rate : Nat
  global_num_best_effort_tenants : Nat
  global_num_lc_tenants : Nat
  global_be_token_rate_per_tenant : Nat
  global_lc_boost_no_BE : Nat
  global_readonly_flag : Bool
  percpu : Nat → PerCpu

/-- A zero-initialised slot of `nvme_fgs`. -/
def nvme_flow_group.zero : nvme_flow_group :=
  ⟨0, 0, 0, 0, 0, 0, ⟨0, 0⟩, 0, false, 0, swq_ptr.null⟩

/-- The state after initialisation: the static initialisers of the globals, an empty
bitmap (`bitmap_init`), empty per-core tenant lists (`init_nvme_request_cpu`). -/
def State.init : State where
  nvme_fgs := fun _ => nvme_flow_group.zero
  nvme_fgs_bitmap := fun _ => false
  global_token_rate := UINT_MAX
  global_LC_sum_token_rate := 0
  global_num_best_effort_tenants := 0
  global_num_lc_tenants := 0
  global_be_token_rate_per_tenant := 0
  global_lc_boost_no_BE := 0
  global_readonly_flag := true
  percpu := fun _ => ⟨⟨[], 0, 0⟩, 0⟩

/-- The errno constant `ENOMEM`. -/
def ENOMEM : Int := 12

/-- The search loop of `set_nvme_flow_group_id` over the remaining indices: the slot of a
matching registered tenant if the loop returns early, and the value of `next_avail`. -/
def set_nvme_flow_group_id_scan (s : State) (cpu_nr : Nat) (flow_group_id : Int) :
    List Nat → Nat → Option Nat × Nat
  | [], next_avail => (none, next_avail)
  | i :: rest, next_avail =>
    if s.nvme_fgs_bitmap i then
      if (s.nvme_fgs i).flow_group_id = flow_group_id ∧ (s.nvme_fgs i).tid = cpu_nr then
        (some i, next_avail)
      else set_nvme_flow_group_id_scan s cpu_nr flow_group_id rest next_avail
    else
      set_nvme_flow_group_id_scan s cpu_nr flow_group_id rest
        (if next_avail = 0 then i else next_avail)

/-- Source `set_nvme_flow_group_id(flow_group_id, fg_handle_to_set)` called on core
`cpu_nr` with `*fg_handle_to_set = fg_handle` on entry: the return value, the handle
on exit and the new state. -/
def set_nvme_flow_group_id (cfg : Cfg) (s : State) (cpu_nr : Nat) (flow_group_id : Int)
    (fg_handle : Nat) : Int × Nat × State :=
  match set_nvme_flow_group_id_scan s cpu_nr flow_group_id
      (List.range' 1 (cfg.MAX_NVME_FLOW_GROUPS - 1)) 0 with
  | (some i, _) => (1, i, s)
  | (none, next_avail) =>
    if next_avail = cfg.MAX_NVME_FLOW_GROUPS then (-ENOMEM, fg_handle, s)
    else (0, next_avail,
      { s with nvme_fgs_bitmap := Function.update s.nvme_fgs_bitmap next_avail true })

/-- The loop of `readjust_lc_tenant_token_limits` over the remaining indices, with the
counter `j`. -/
def readjust_loop : State → List Nat → Nat → State
  | s, [], _ => s
  | s, i :: rest, j =>
    if s.nvme_fgs_bitmap i ∧ (s.nvme_fgs i).latency_critical_flag then
      let fg := s.nvme_fgs i
      let boosted : Nat := u64 ((fg.scaled_IOPS_limit : Int) + s.global_lc_boost_no_BE)
      let fg1 : nvme_flow_group :=
        { fg with scaled_IOPuS_limit := F64.div (F64.ofInt boosted) F64.million }
      let s1 : State := { s with nvme_fgs := Function.update s.nvme_fgs i fg1 }
      if j + 1 = s.global_num_lc_tenants then s1 else readjust_loop s1 rest (j + 1)
    else readjust_loop s rest j

/-- Source `readjust_lc_tenant_token_limits()`. -/
def readjust_lc_tenant_token_limits (cfg : Cfg) (s : State) : State :=
  readjust_loop s (List.range cfg.MAX_NVME_FLOW_GROUPS) 0

/-- Return value of `recalculate_weights_add`: `1`, or `-RET_CANTMEETSLO` (a negative
status code). -/
inductive weights_ret where
  | one
  | neg_RET_CANTMEETSLO
deriving DecidableEq, Repr

/-- The local `be_token_rate_per_tenant` (an `unsigned int`) that both
`recalculate_weights_add` and `recalculate_weights_remove` compute from the globals. -/
def be_token_rate_per_tenant (s : State) : Nat :=
  if s.global_num_best_effort_tenants ≠ 0 then
    u32 ((u64 ((s.global_token_rate : Int) - s.global_LC_sum_token_rate)
      / s.global_num_best_effort_tenants : Nat) : Int)
  else 0

/-- The local `lc_token_rate_boost_when_no_BE` (an `unsigned long`) that both
`recalculate_weights_add` and `recalculate_weights_remove` compute from the globals. -/
def lc_token_rate_boost_when_no_BE (s : State) : Nat :=
  if s.global_num_best_effort_tenants ≠ 0 then 0
  else if s.global_num_lc_tenants ≠ 0 then
    u64 ((s.global_token_rate : Int) - s.global_LC_sum_token_rate) / s.global_num_lc_tenants
  else 0

/-- The tail shared by both branches of `recalculate_weights_add` (source lines 605-624):
recompute the best-effort share and the boost, and readjust the tenants if the boost
changed. -/
def recalculate_weights_add_tail (cfg : Cfg) (s : State) : State :=
  let s1 : State := { s with global_be_token_rate_per_tenant := be_token_rate_per_tenant s }
  if lc_token_rate_boost_when_no_BE s ≠ s1.global_lc_boost_no_BE then
    readjust_lc_tenant_token_limits cfg
      { s1 with global_lc_boost_no_BE := lc_token_rate_boost_when_no_BE s }
  else s1

/-- Source `recalculate_weights_add(new_flow_group_idx)`. -/
def recalculate_weights_add (cfg : Cfg) (s : State) (new_flow_group_idx : Nat) :
    weights_ret × State :=
  let fg := s.nvme_fgs new_flow_group_idx
  if fg.latency_critical_flag then
    let new_global_LC_sum_token_rate : Nat :=
      u64 ((s.global_LC_sum_token_rate : Int) + fg.scaled_IOPS_limit)
    let s1 : State :=
      if fg.rw_ratio_SLO < 100 then { s with global_readonly_flag := false } else s
    let looked : Nat := lookup_device_token_rate cfg s1.global_readonly_flag fg.latency_us_SLO
    let new_global_token_rate : Nat :=
      if looked > s1.global_token_rate then s1.global_token_rate else looked
    if new_global_LC_sum_token_rate > new_global_token_rate then
      (weights_ret.neg_RET_CANTMEETSLO, s1)
    else
      (weights_ret.one, recalculate_weights_add_tail cfg
        { s1 with
          global_token_rate := new_global_token_rate
          global_LC_sum_token_rate := new_global_LC_sum_token_rate
          global_num_lc_tenants := u64 ((s1.global_num_lc_tenants : Int) + 1) })
  else
    (weights_ret.one, recalculate_weights_add_tail cfg
      { s with
        global_num_best_effort_tenants := u64 ((s.global_num_best_effort_tenants : Int) + 1)
        global_readonly_flag := false })

/-- The scan of `recalculate_weights_remove` over the remaining indices: the strictest
latency SLO and the read-only flag found so far. -/
def remove_scan (s : State) (flow_group_idx : Nat) : List Nat → Nat × Bool → Nat × Bool
  | [], acc => acc
  | i :: rest, (strictest_latency_SLO, readonly) =>
    if s.nvme_fgs_bitmap i ∧ i ≠ flow_group_idx ∧ (s.nvme_fgs i).latency_critical_flag then
      remove_scan s flow_group_idx rest
        (if (s.nvme_fgs i).latency_us_SLO < strictest_latency_SLO
          then (s.nvme_fgs i).latency_us_SLO else strictest_latency_SLO,
         if (s.nvme_fgs i).rw_ratio_SLO < 100 then false else readonly)
    else remove_scan s flow_group_idx rest (strictest_latency_SLO, readonly)

/-- The tail shared by both branches of `recalculate_weights_remove` (source lines
662-683). -/
def recalculate_weights_remove_tail (cfg : Cfg) (s : State) : State :=
  let s0 : State :=
    if s.global_num_best_effort_tenants ≠ 0 then { s with global_readonly_flag := false } else s
  let s1 : State := { s0 with global_be_token_rate_per_tenant := be_token_rate_per_tenant s }
  if lc_token_rate_boost_when_no_BE s ≠ s1.global_lc_boost_no_BE then
    readjust_lc_tenant_token_limits cfg
      { s1 with global_lc_boost_no_BE := lc_token_rate_boost_when_no_BE s }
  else s1

/-- Source `recalculate_weights_remove(flow_group_idx)` (it always returns 1). -/
def recalculate_weights_remove (cfg : Cfg) (s : State) (flow_group_idx : Nat) : State :=
  let fg := s.nvme_fgs flow_group_idx
  if fg.latency_critical_flag then
    let found := remove_scan s flow_group_idx (List.range cfg.MAX_NVME_FLOW_GROUPS)
      (UINT_MAX, true)
    let lowered : Nat := u64 ((s.global_LC_sum_token_rate : Int) - fg.scaled_IOPS_limit)
    recalculate_weights_remove_tail cfg
      { s with
        global_readonly_flag := found.2
        global_LC_sum_token_rate := lowered
        global_token_rate := lookup_device_token_rate cfg found.2 found.1
        global_num_lc_tenants := u64 ((s.global_num_lc_tenants : Int) - 1) }
  else
    recalculate_weights_remove_tail cfg
      { s with
        global_num_best_effort_tenants := u64 ((s.global_num_best_effort_tenants : Int) - 1) }

/-- Status returned by the `bsys_nvme_*` calls modelled here: `RET_OK`,
`-RET_CANTMEETSLO`, `-RET_NOMEM`. -/
inductive Status where
  | RET_OK
  | RET_CANTMEETSLO
  | RET_NOMEM
deriving DecidableEq, Repr

/-- Source `bsys_nvme_register_flow(flow_group_id, cookie, latency_us_SLO, IOPS_SLO,
rw_ratio_SLO)` called on core `cpu_nr`. `swq_alloc` tells whether `alloc_local_nvme_swq`
returns a queue (the per-core memory pool is outside the embedding). `list_add` links the
new queue at the head of the core's list, and `nvme_fg->nvme_swq` then points to it. The
upcall `usys_nvme_registered_flow` has no effect on the state. -/
def bsys_nvme_register_flow (cfg : Cfg) (s : State) (cpu_nr : Nat) (flow_group_id : Int)
    (cookie : Nat) (latency_us_SLO : Nat) (IOPS_SLO : Nat) (rw_ratio_SLO : Int)
    (swq_alloc : Bool) : Status × State :=
  match set_nvme_flow_group_id cfg s cpu_nr flow_group_id 0 with
  | (already_registered_flow, fg_handle, s1) =>
    let fg0 := s1.nvme_fgs fg_handle
    let fg1 : nvme_flow_group :=
      { fg0 with
        flow_group_id := flow_group_id
        cookie := cookie
        latency_us_SLO := latency_us_SLO
        IOPS_SLO := IOPS_SLO
        rw_ratio_SLO := rw_ratio_SLO
        scaled_IOPS_limit := scaled_IOPS cfg IOPS_SLO rw_ratio_SLO
        tid := cpu_nr }
    let fg2 : nvme_flow_group :=
      if already_registered_flow = 1
          ∧ fg1.scaled_IOPS_limit ≠ scaled_IOPS cfg IOPS_SLO rw_ratio_SLO then
        { fg1 with scaled_IOPuS_limit := F64.div (F64.ofInt fg1.scaled_IOPS_limit) F64.million }
      else fg1
    let fg3 : nvme_flow_group :=
      { fg2 with latency_critical_flag := if latency_us_SLO = 0 then false else true }
    if already_registered_flow = 0 then
      let fg4 : nvme_flow_group :=
        { fg3 with scaled_IOPuS_limit := F64.div (F64.ofInt fg3.scaled_IOPS_limit) F64.million }
      let s2 : State := { s1 with nvme_fgs := Function.update s1.nvme_fgs fg_handle fg4 }
      match recalculate_weights_add cfg s2 fg_handle with
      | (weights_ret.neg_RET_CANTMEETSLO, s3) => (Status.RET_CANTMEETSLO, s3)
      | (weights_ret.one, s3) =>
        if swq_alloc = false then (Status.RET_NOMEM, s3)
        else
          let pc := s3.percpu cpu_nr
          let mgr := pc.nvme_tenant_manager
          let mgr1 : nvme_tenant_mgmt :=
            { tenant_swq := nvme_sw_queue_init fg_handle :: mgr.tenant_swq
              num_tenants := mgr.num_tenants + 1
              num_best_effort_tenants :=
                if latency_us_SLO = 0 then mgr.num_best_effort_tenants + 1
                else mgr.num_best_effort_tenants }
          let fgr := s3.nvme_fgs fg_handle
          let fg5 : nvme_flow_group :=
            { fgr with nvme_swq := swq_ptr.linked cpu_nr, conn_ref_count := 0 + 1 }
          let pc1 : PerCpu := { nvme_tenant_manager := mgr1, roundrobin_start := 0 }
          (Status.RET_OK,
            { s3 with
              nvme_fgs := Function.update s3.nvme_fgs fg_handle fg5
              percpu := Function.update s3.percpu cpu_nr pc1 })
    else
      let fg5 : nvme_flow_group := { fg3 with conn_ref_count := fg3.conn_ref_count + 1 }
      (Status.RET_OK, { s1 with nvme_fgs := Function.update s1.nvme_fgs fg_handle fg5 })

/-- The list after `list_del` of the queue that a `linked` pointer of slot `fg_handle`
refers to: the first queue whose `fg_handle` is the slot is unlinked, every other queue
stays, also a further queue of the same slot. -/
def list_del_swq (fg_handle : Nat) : List nvme_sw_queue → List nvme_sw_queue
  | [] => []
  | q :: rest =>
    if q.fg_handle = fg_handle then rest else q :: list_del_swq fg_handle rest

/-- Source `bsys_nvme_unregister_flow(fg_handle)` called on core `cpu_nr`: the new state
when the call returns (it then returns `RET_OK`). When `conn_ref_count` reaches 0 the code
dereferences `nvme_fgs[fg_handle].nvme_swq` for `list_del` and hands it to
`free_local_nvme_swq`: with a pointer that was never assigned the call does not return
(null dereference), and with a pointer to a queue already returned to the pool its effect
is not defined by the file; both give `none`. The counters lowered are those of the
calling core; the queue unlinked is on the list of the core that linked it. -/
def bsys_nvme_unregister_flow (cfg : Cfg) (s : State) (cpu_nr : Nat) (fg_handle : Nat) :
    Option State :=
  let fg := s.nvme_fgs fg_handle
  let fg1 : nvme_flow_group := { fg with conn_ref_count := fg.conn_ref_count - 1 }
  let s1 : State := { s with nvme_fgs := Function.update s.nvme_fgs fg_handle fg1 }
  if fg1.conn_ref_count = 0 then
    match fg1.nvme_swq with
    | swq_ptr.linked cpu =>
      let pc0 := s1.percpu cpu
      let mgr0 := pc0.nvme_tenant_manager
      let mgr0u : nvme_tenant_mgmt :=
        { mgr0 with tenant_swq := list_del_swq fg_handle mgr0.tenant_swq }
      let unlinked : Nat → PerCpu :=
        Function.update s1.percpu cpu { pc0 with nvme_tenant_manager := mgr0u }
      let pc := unlinked cpu_nr
      let mgr := pc.nvme_tenant_manager
      let mgr1 : nvme_tenant_mgmt :=
        { mgr with
          num_best_effort_tenants :=
            if fg1.latency_critical_flag then mgr.num_best_effort_tenants
            else mgr.num_best_effort_tenants - 1
          num_tenants := mgr.num_tenants - 1 }
      let pc1 : PerCpu := { pc with nvme_tenant_manager := mgr1 }
      let fg2 : nvme_flow_group := { fg1 with nvme_swq := swq_ptr.freed }
      let s2 : State :=
        { s1 with
          nvme_fgs := Function.update s.nvme_fgs fg_handle fg2
          percpu := Function.update unlinked cpu_nr pc1 }
      let s3 := recalculate_weights_remove cfg s2 fg_handle
      some { s3 with nvme_fgs_bitmap := Function.update s3.nvme_fgs_bitmap fg_handle false }
    | swq_ptr.null => none
    | swq_ptr.freed => none
  else some s1


/-- The handle that `bsys_nvme_register_flow` passes to the upcall
`usys_nvme_registered_flow` when it returns `RET_OK`: the local `fg_handle` after the
call of `set_nvme_flow_group_id`. -/
def bsys_nvme_register_flow_handle (cfg : Cfg) (s : State) (cpu_nr : Nat)
    (flow_group_id : Int) : Nat :=
  (set_nvme_flow_group_id cfg s cpu_nr flow_group_id 0).2.1

/-! ## Completion callbacks -/

/-- Status argument of the upcalls `usys_nvme_written` and `usys_nvme_response`: `RET_OK`
or `-RET_FAULT`. -/
inductive upcall_status where
  | RET_OK
  | neg_RET_FAULT
deriving DecidableEq, Repr

/-- What a completion callback does, in order: a `log_info` line, an upcall with its
cookie and status, the release of the request context. -/
inductive cb_action where
  | log_info
  | usys_nvme_written (cookie : Nat) (status : upcall_status)
  | usys_nvme_response (cookie : Nat) (status : upcall_status)
  | free_local_nvme_ctx (n_ctx : nvme_ctx)
deriving DecidableEq, Repr

/-- Source `nvme_write_cb(ctx, completion)`; `cpl_is_error` is the value of
`spdk_nvme_cpl_is_error(completion)`. -/
def nvme_write_cb (n_ctx : nvme_ctx) (cpl_is_error : Bool) : List cb_action :=
  (if cpl_is_error then [cb_action.log_info] else []) ++
    [cb_action.usys_nvme_written n_ctx.cookie upcall_status.RET_OK,
     cb_action.free_local_nvme_ctx n_ctx]

/-- Source `nvme_read_cb(ctx, completion)`; `cpl_is_error` is the value of
`spdk_nvme_cpl_is_error(completion)`. The buffer argument of the upcall is left out. -/
def nvme_read_cb (n_ctx : nvme_ctx) (cpl_is_error : Bool) : List cb_action :=
  (if cpl_is_error then [cb_action.log_info] else []) ++
    [cb_action.usys_nvme_response n_ctx.cookie upcall_status.RET_OK,
     cb_action.free_local_nvme_ctx n_ctx]

/-! ## Software queues -/

/-- Modelled from the spec: `nvme_sw_queue_isempty` (its source, `ix/nvme_sw_queue.h`, is
absent) tells whether the queue holds no request. -/
def nvme_sw_queue_isempty (q : nvme_sw_queue) : Bool := q.queue.isEmpty

/-- Modelled from the spec: `nvme_sw_queue_push_back` appends the request and adds its cost
to `total_token_demand` (the capacity limit of the queue is left out). -/
def nvme_sw_queue_push_back (q : nvme_sw_queue) (ctx : nvme_ctx) : nvme_sw_queue :=
  { q with
    queue := q.queue ++ [ctx]
    total_token_demand := u64 ((q.total_token_demand : Int) + ctx.req_cost) }

/-- Modelled from the spec: `nvme_sw_queue_pop_front` removes the head request and
subtracts its cost from `total_token_demand`. -/
def nvme_sw_queue_pop_front (q : nvme_sw_queue) : Option (nvme_ctx × nvme_sw_queue) :=
  match q.queue with
  | [] => none
  | ctx :: rest =>
    some (ctx,
      { q with
        queue := rest
        total_token_demand := u64 ((q.total_token_demand : Int) - ctx.req_cost) })

/-- Modelled from the spec: `nvme_sw_queue_peak_head_cost` is the cost of the head request
(0 here for an empty queue; the callers test for emptiness first). -/
def nvme_sw_queue_peak_head_cost (q : nvme_sw_queue) : Int :=
  match q.queue with
  | [] => 0
  | ctx :: _ => ctx.req_cost

/-- Modelled from the spec: `nvme_sw_queue_take_saved_tokens` returns `saved_tokens` and
sets it to zero. -/
def nvme_sw_queue_take_saved_tokens (q : nvme_sw_queue) : Nat × nvme_sw_queue :=
  (q.saved_tokens, { q with saved_tokens := 0 })

/-- Modelled from the spec: `nvme_sw_queue_save_tokens(q, tokens)` stores
`min(tokens, total_token_demand)` in `saved_tokens` and returns it if the queue is not
empty, and returns 0 otherwise. -/
def nvme_sw_queue_save_tokens (q : nvme_sw_queue) (tokens : Nat) : Nat × nvme_sw_queue :=
  if nvme_sw_queue_isempty q then (0, q)
  else (min tokens q.total_token_demand,
    { q with saved_tokens := min tokens q.total_token_demand })

/-! ## Scheduler state -/

/-- The per-core scheduler variables `last_sched_time`, `last_sched_time_be`,
`local_extra_demand` and `local_leftover_tokens` (all `unsigned long`). -/
structure SchedPerCpu where
  last_sched_time : Nat
  last_sched_time_be : Nat
  local_extra_demand : Nat
  local_leftover_tokens : Nat
deriving DecidableEq, Repr

/-- The state the scheduler works on: the admission state `adm` (tenant table, per-core
tenant lists, best-effort share), the per-core scheduler variables, the shared bucket
`global_leftover_tokens`, the array `scheduled_bit_vector` and `TOKEN_DEFICIT_LIMIT`. -/
structure SchedState where
  adm : State
  sched : Nat → SchedPerCpu
  global_leftover_tokens : Nat
  scheduled_bit_vector : Nat → Int
  TOKEN_DEFICIT_LIMIT : Int

/-- Values the scheduler reads from outside the file: the number of active cores
`cpus_active` and the timer constant `cycles_per_us`. -/
structure SchedCfg where
  cpus_active : Nat
  cycles_per_us : Int
deriving DecidableEq, Repr

/-- The scheduler state after initialisation: the static initialisers, with
`TOKEN_DEFICIT_LIMIT` as `set_token_deficit_limit` leaves it. -/
def SchedState.init (cfg : Cfg) : SchedState where
  adm := State.init
  sched := fun _ => ⟨0, 0, 0, 0⟩
  global_leftover_tokens := 0
  scheduled_bit_vector := fun _ => 0
  TOKEN_DEFICIT_LIMIT := 100 * cfg.NVME_WRITE_COST

/-- The `double` constant `TOKEN_FRAC_GIVEAWAY`, the binary64 number nearest to 0.9. -/
def TOKEN_FRAC_GIVEAWAY : F64 := F64.round 9 10

/-- Sequential reading of `try_acquire_global_tokens(token_demand)` with the bucket at
`avail_tokens`: no other core writes the bucket between the read and the compare-and-swap,
so the first compare-and-swap succeeds. The value returned and the new bucket level. -/
def try_acquire_global_tokens (avail_tokens : Nat) (token_demand : Nat) : Nat × Nat :=
  if token_demand > avail_tokens then (avail_tokens, 0)
  else (token_demand, avail_tokens - token_demand)

/-! ## Subround 1: latency-critical tenants -/

/-- The `double` local `token_increment` of `nvme_sched_subround1`:
`(scaled_IOPuS_limit * time_delta) + 0.5`. -/
def subround1_token_increment (scaled_IOPuS_limit : F64) (time_delta : Nat) : F64 :=
  F64.add (F64.mul scaled_IOPuS_limit (F64.ofInt time_delta)) F64.half

/-- The drain loop of `nvme_sched_subround1` (source lines 1172-1177) run for at most
`fuel` iterations: the requests issued, in order, and the queue afterwards. Every iteration
removes a request, so `fuel = q.queue.length` lets the loop run until its condition fails.
`token_credit` is a `long`; the embedding does not wrap it. -/
def subround1_drain (TOKEN_DEFICIT_LIMIT : Int) :
    Nat → nvme_sw_queue → List nvme_ctx × nvme_sw_queue
  | 0, q => ([], q)
  | fuel + 1, q =>
    if nvme_sw_queue_isempty q = false ∧ q.token_credit > -TOKEN_DEFICIT_LIMIT then
      match nvme_sw_queue_pop_front q with
      | none => ([], q)
      | some (ctx, q1) =>
        let r := subround1_drain TOKEN_DEFICIT_LIMIT fuel
          { q1 with token_credit := q1.token_credit - ctx.req_cost }
        (ctx :: r.1, r.2)
    else ([], q)

/-- The donation step of `nvme_sched_subround1` (source lines 1191-1195) for a tenant
with queue `q` and the running `local_leftover`: the queue and `local_leftover`
afterwards. -/
def subround1_donate (token_increment : F64) (q : nvme_sw_queue) (local_leftover : Nat) :
    nvme_sw_queue × Nat :=
  let POS_LIMIT : Int := (F64.mul (F64.ofInt 3) token_increment).toInt
  if q.token_credit > POS_LIMIT then
    let given : F64 := F64.mul (F64.ofInt q.token_credit) TOKEN_FRAC_GIVEAWAY
    ({ q with token_credit := (F64.sub (F64.ofInt q.token_credit) given).toInt },
      (F64.add (F64.ofInt local_leftover) given).toU64)
  else (q, local_leftover)

/-- The body of the loop of `nvme_sched_subround1` for a latency-critical tenant (source
lines 1161-1195): the requests issued, the queue and `local_leftover` afterwards. -/
def subround1_lc (TOKEN_DEFICIT_LIMIT : Int) (scaled_IOPuS_limit : F64) (time_delta : Nat)
    (q : nvme_sw_queue) (local_leftover : Nat) : List nvme_ctx × nvme_sw_queue × Nat :=
  let token_increment := subround1_token_increment scaled_IOPuS_limit time_delta
  let q1 : nvme_sw_queue := { q with token_credit := q.token_credit + token_increment.toInt }
  let r := subround1_drain TOKEN_DEFICIT_LIMIT q1.queue.length q1
  let d := subround1_donate token_increment r.2 local_leftover
  (r.1, d.1, d.2)

/-- Result of the loop of `nvme_sched_subround1`: the requests issued, the tenant list
afterwards, and the locals `local_leftover` and `local_demand`. -/
structure subround1_result where
  issued : List nvme_ctx
  tenant_swq : List nvme_sw_queue
  local_leftover : Nat
  local_demand : Nat
deriving DecidableEq, Repr

/-- The loop of `nvme_sched_subround1` over the remaining tenants of the core (source
lines 1154-1200). -/
def subround1_loop (s : State) (TOKEN_DEFICIT_LIMIT : Int) (time_delta : Nat) :
    List nvme_sw_queue → Nat → Nat → subround1_result
  | [], local_leftover, local_demand => ⟨[], [], local_leftover, local_demand⟩
  | q :: rest, local_leftover, local_demand =>
    if (s.nvme_fgs q.fg_handle).latency_critical_flag then
      let r := subround1_lc TOKEN_DEFICIT_LIMIT (s.nvme_fgs q.fg_handle).scaled_IOPuS_limit
        time_delta q local_leftover
      let t := subround1_loop s TOKEN_DEFICIT_LIMIT time_delta rest r.2.2 local_demand
      ⟨r.1 ++ t.issued, r.2.1 :: t.tenant_swq, t.local_leftover, t.local_demand⟩
    else
      let t := subround1_loop s TOKEN_DEFICIT_LIMIT time_delta rest local_leftover
        (u64 ((local_demand : Int) + u64 ((q.total_token_demand : Int) - q.saved_tokens)))
      ⟨t.issued, q :: t.tenant_swq, t.local_leftover, t.local_demand⟩

/-- Source `nvme_sched_subround1()` on core `cpu_nr`, with `now` the value of
`timer_now()`: the new state and the requests passed to `issue_nvme_req`, in order. -/
def nvme_sched_subround1 (sc : SchedState) (cpu_nr : Nat) (now : Nat) :
    SchedState × List nvme_ctx :=
  let v := sc.sched cpu_nr
  let time_delta : Nat := u64 ((now : Int) - v.last_sched_time)
  let pc := sc.adm.percpu cpu_nr
  let mgr := pc.nvme_tenant_manager
  let r := subround1_loop sc.adm sc.TOKEN_DEFICIT_LIMIT time_delta mgr.tenant_swq 0 0
  let mgr1 : nvme_tenant_mgmt := { mgr with tenant_swq := r.tenant_swq }
  let pc1 : PerCpu := { pc with nvme_tenant_manager := mgr1 }
  let adm1 : State := { sc.adm with percpu := Function.update sc.adm.percpu cpu_nr pc1 }
  let v1 : SchedPerCpu :=
    { v with
      last_sched_time := now
      local_extra_demand := r.local_demand
      local_leftover_tokens := r.local_leftover }
  ({ sc with adm := adm1, sched := Function.update sc.sched cpu_nr v1 }, r.issued)


/-! ## Subround 2: best-effort tenants -/

/-- The `double` local `token_increment` of `nvme_sched_subround2`:
`(atomic_read(&global_be_token_rate_per_tenant) * time_delta_cycles) / (double)
(cycles_per_us * 1E6)`. `atomic_read` is taken to return the stored value; the product is
an `unsigned long`. -/
def subround2_token_increment (scfg : SchedCfg) (global_be_token_rate_per_tenant : Nat)
    (time_delta_cycles : Nat) : F64 :=
  F64.div (F64.ofInt (u64 ((global_be_token_rate_per_tenant : Int) * time_delta_cycles)))
    (F64.mul (F64.ofInt scfg.cycles_per_us) F64.million)

/-- The drain loop of `nvme_sched_subround2` (source lines 1267-1272) run for at most
`fuel` iterations, with `be_tokens` (an `unsigned long`): the requests issued, in order,
the queue and `be_tokens` afterwards. The comparison and the subtraction convert the cost
to `unsigned long`. -/
def subround2_drain : Nat → nvme_sw_queue → Nat → List nvme_ctx × nvme_sw_queue × Nat
  | 0, q, be_tokens => ([], q, be_tokens)
  | fuel + 1, q, be_tokens =>
    if nvme_sw_queue_isempty q = false ∧ u64 (nvme_sw_queue_peak_head_cost q) ≤ be_tokens then
      match nvme_sw_queue_pop_front q with
      | none => ([], q, be_tokens)
      | some (ctx, q1) =>
        let r := subround2_drain fuel q1 (u64 ((be_tokens : Int) - ctx.req_cost))
        (ctx :: r.1, r.2.1, r.2.2)
    else ([], q, be_tokens)

/-- The body of both loops of `nvme_sched_subround2` for a best-effort tenant (source lines
1263-1275), with `increment` the value of `(long) (token_increment + 0.5)`: the requests
issued, the queue and `be_tokens` afterwards. -/
def subround2_be (increment : Int) (q : nvme_sw_queue) (be_tokens : Nat) :
    List nvme_ctx × nvme_sw_queue × Nat :=
  let t := nvme_sw_queue_take_saved_tokens q
  let b1 : Nat := u64 ((be_tokens : Int) + t.1)
  let b2 : Nat := u64 ((b1 : Int) + increment)
  let d := subround2_drain t.2.queue.length t.2 b2
  let sv := nvme_sw_queue_save_tokens d.2.1 d.2.2
  (d.1, sv.2, u64 ((d.2.2 : Int) - sv.1))

/-- Result of a loop of `nvme_sched_subround2`: the requests issued, the tenant list and
`be_tokens` afterwards, and the handles of the tenants served, in the order served. -/
structure subround2_result where
  issued : List nvme_ctx
  tenant_swq : List nvme_sw_queue
  be_tokens : Nat
  served : List Nat
deriving DecidableEq, Repr

/-- A loop of `nvme_sched_subround2` over the remaining tenants of the core, the next one
at index `i`: the best-effort tenants at the indices selected by `selected` are served.
The first loop (source lines 1256-1278) selects the indices that are not below
`roundrobin_start`, the second (lines 1280-1303) those below it. -/
def subround2_loop (s : State) (increment : Int) (selected : Int → Bool) :
    List nvme_sw_queue → Int → Nat → subround2_result
  | [], _, be_tokens => ⟨[], [], be_tokens, []⟩
  | q :: rest, i, be_tokens =>
    if selected i = true ∧ (s.nvme_fgs q.fg_handle).latency_critical_flag = false then
      let r := subround2_be increment q be_tokens
      let t := subround2_loop s increment selected rest (i + 1) r.2.2
      ⟨r.1 ++ t.issued, r.2.1 :: t.tenant_swq, t.be_tokens, q.fg_handle :: t.served⟩
    else
      let t := subround2_loop s increment selected rest (i + 1) be_tokens
      ⟨t.issued, q :: t.tenant_swq, t.be_tokens, t.served⟩

/-- The inner loop of the round-robin advance (source lines 1309-1319) over the remaining
tenants, the next one at index `i`: the value of `done` afterwards. -/
def roundrobin_scan (s : State) (roundrobin_start : Int) : List nvme_sw_queue → Int → Bool
  | [], _ => false
  | q :: rest, i =>
    if i ≠ roundrobin_start then roundrobin_scan s roundrobin_start rest (i + 1)
    else !(s.nvme_fgs q.fg_handle).latency_critical_flag

/-- The `while (1)` loop of the round-robin advance (source lines 1307-1323) run for at
most `fuel` iterations: the final `roundrobin_start`, or `none` when the loop has not
reached its `break` (or divides by `num_tenants = 0`). -/
def roundrobin_advance (s : State) (tenant_swq : List nvme_sw_queue) (num_tenants : Int) :
    Nat → Int → Option Int
  | 0, _ => none
  | fuel + 1, roundrobin_start =>
    if num_tenants = 0 then none
    else if roundrobin_scan s (Int.tmod (roundrobin_start + 1) num_tenants) tenant_swq 0 then
      some (Int.tmod (roundrobin_start + 1) num_tenants)
    else roundrobin_advance s tenant_swq num_tenants fuel
      (Int.tmod (roundrobin_start + 1) num_tenants)

/-- The value of `(long) (token_increment + 0.5)` that the loops of `nvme_sched_subround2`
add to `be_tokens` for every best-effort tenant they serve, on core `cpu_nr` with `now` the
value of `rdtsc()`. -/
def subround2_increment (scfg : SchedCfg) (sc : SchedState) (cpu_nr : Nat) (now : Nat) : Int :=
  (F64.add (subround2_token_increment scfg sc.adm.global_be_token_rate_per_tenant
    (u64 ((now : Int) - (sc.sched cpu_nr).last_sched_time_be))) F64.half).toInt

/-- The first loop of `nvme_sched_subround2` (source lines 1256-1278) on core `cpu_nr`,
entered with `be_tokens`: it serves the best-effort tenants at the indices from
`roundrobin_start` on. -/
def subround2_first_loop (scfg : SchedCfg) (sc : SchedState) (cpu_nr : Nat) (now : Nat)
    (be_tokens : Nat) : subround2_result :=
  subround2_loop sc.adm (subround2_increment scfg sc cpu_nr now)
    (fun i => decide (¬ i < (sc.adm.percpu cpu_nr).roundrobin_start))
    ((sc.adm.percpu cpu_nr).nvme_tenant_manager).tenant_swq 0 be_tokens

/-- The second loop of `nvme_sched_subround2` (source lines 1280-1303) on core `cpu_nr`,
run on the tenant list and the `be_tokens` the first loop left: it serves the best-effort
tenants at the indices below `roundrobin_start`. -/
def subround2_second_loop (scfg : SchedCfg) (sc : SchedState) (cpu_nr : Nat) (now : Nat)
    (be_tokens : Nat) : subround2_result :=
  subround2_loop sc.adm (subround2_increment scfg sc cpu_nr now)
    (fun j => decide (j < (sc.adm.percpu cpu_nr).roundrobin_start))
    (subround2_first_loop scfg sc cpu_nr now be_tokens).tenant_swq 0
    (subround2_first_loop scfg sc cpu_nr now be_tokens).be_tokens

/-- The part of `nvme_sched_subround2` after the comparison of leftover and demand (source
lines 1250-1328) on core `cpu_nr`, entered with `be_tokens`; `now` is the value of
`rdtsc()` and `fuel` bounds the iterations of the round-robin advance. -/
def subround2_serve (scfg : SchedCfg) (fuel : Nat) (sc : SchedState) (cpu_nr : Nat)
    (now : Nat) (be_tokens : Nat) : Option (SchedState × List nvme_ctx) :=
  let v := sc.sched cpu_nr
  let v1 : SchedPerCpu := { v with last_sched_time_be := now }
  let pc := sc.adm.percpu cpu_nr
  let mgr := pc.nvme_tenant_manager
  let r1 := subround2_first_loop scfg sc cpu_nr now be_tokens
  let r2 := subround2_second_loop scfg sc cpu_nr now be_tokens
  let mgr1 : nvme_tenant_mgmt := { mgr with tenant_swq := r2.tenant_swq }
  let start : Option Int :=
    if mgr.num_best_effort_tenants > 0 then
      roundrobin_advance sc.adm r2.tenant_swq mgr.num_tenants fuel pc.roundrobin_start
    else some pc.roundrobin_start
  match start with
  | none => none
  | some rr =>
    let pc1 : PerCpu := { nvme_tenant_manager := mgr1, roundrobin_start := rr }
    let adm1 : State := { sc.adm with percpu := Function.update sc.adm.percpu cpu_nr pc1 }
    let pool : Nat :=
      if r2.be_tokens > 0 then u64 ((sc.global_leftover_tokens : Int) + r2.be_tokens)
      else sc.global_leftover_tokens
    some ({ sc with
            adm := adm1
            sched := Function.update sc.sched cpu_nr v1
            global_leftover_tokens := pool },
      r1.issued ++ r2.issued)

/-- The best-effort tenants among the queues `l`, in list order. -/
def best_effort_swq (s : State) (l : List nvme_sw_queue) : List nvme_sw_queue :=
  l.filter (fun q => decide ((s.nvme_fgs q.fg_handle).latency_critical_flag = false))

/-- The handles of the best-effort tenants among `l` that a loop of `nvme_sched_subround2`
selects, the head of `l` being at index `i`. -/
def subround2_selected (s : State) (selected : Int → Bool) : List nvme_sw_queue → Int → List Nat
  | [], _ => []
  | q :: rest, i =>
    if selected i = true ∧ (s.nvme_fgs q.fg_handle).latency_critical_flag = false then
      q.fg_handle :: subround2_selected s selected rest (i + 1)
    else subround2_selected s selected rest (i + 1)

/-- Source `nvme_sched_subround2()` on core `cpu_nr`, with `now` the value of `rdtsc()`:
the new state and the requests passed to `issue_nvme_req`, in order; `none` when the
round-robin advance has not ended within `fuel` iterations. -/
def nvme_sched_subround2 (scfg : SchedCfg) (fuel : Nat) (sc : SchedState) (cpu_nr : Nat)
    (now : Nat) : Option (SchedState × List nvme_ctx) :=
  let local_leftover := (sc.sched cpu_nr).local_leftover_tokens
  let local_demand := (sc.sched cpu_nr).local_extra_demand
  if local_leftover > 0 ∧ local_demand = 0 then
    some ({ sc with
            global_leftover_tokens := u64 ((sc.global_leftover_tokens : Int) + local_leftover) },
      [])
  else if local_leftover < local_demand then
    let a := try_acquire_global_tokens sc.global_leftover_tokens (local_demand - local_leftover)
    subround2_serve scfg fuel { sc with global_leftover_tokens := a.2 } cpu_nr now
      (u64 ((local_leftover : Int) + a.1))
  else subround2_serve scfg fuel sc cpu_nr now local_leftover

/-! ## The scheduling round -/

/-- Source `update_scheduled_bitvector()` on core `cpu_nr`. -/
def update_scheduled_bitvector (scfg : SchedCfg) (sc : SchedState) (cpu_nr : Nat) :
    SchedState :=
  let v : Nat → Int :=
    Function.update sc.scheduled_bit_vector cpu_nr (i32 (sc.scheduled_bit_vector cpu_nr + 1))
  if (List.range scfg.cpus_active).all (fun i => decide (v i ≠ 0)) then
    { sc with
      global_leftover_tokens := 0
      scheduled_bit_vector := fun i => if i < scfg.cpus_active then 0 else v i }
  else { sc with scheduled_bit_vector := v }

/-- Source `nvme_sched()` on core `cpu_nr` (built without `NO_SCHED`), with `now` the value
of `timer_now()` and `now_cycles` the value of `rdtsc()`: the new state and the requests
passed to `issue_nvme_req`, in order. -/
def nvme_sched (scfg : SchedCfg) (fuel : Nat) (sc : SchedState) (cpu_nr : Nat) (now : Nat)
    (now_cycles : Nat) : Option (SchedState × List nvme_ctx) :=
  if ((sc.adm.percpu cpu_nr).nvme_tenant_manager).num_tenants = 0 then
    let v1 : SchedPerCpu :=
      { sc.sched cpu_nr with last_sched_time := now, last_sched_time_be := now_cycles }
    some (update_scheduled_bitvector scfg
      { sc with sched := Function.update sc.sched cpu_nr v1 } cpu_nr, [])
  else
    let r1 := nvme_sched_subround1 sc cpu_nr now
    match nvme_sched_subround2 scfg fuel r1.1 cpu_nr now_cycles with
    | none => none
    | some (sc2, issued2) =>
      let v3 : SchedPerCpu :=
        { sc2.sched cpu_nr with local_leftover_tokens := 0, local_extra_demand := 0 }
      some (update_scheduled_bitvector scfg
        { sc2 with sched := Function.update sc2.sched cpu_nr v3 } cpu_nr, r1.2 ++ issued2)

/-- The queue of a latency-critical tenant over a sequence of scheduling rounds. A round is
given by the tenant's rate, the elapsed time, the requests enqueued since the previous round
and the value of `local_leftover` when the tenant is reached: the requests are appended
(`nvme_sw_queue_push_back`), then the body of `nvme_sched_subround1` runs for the tenant. -/
def subround1_lc_rounds (TOKEN_DEFICIT_LIMIT : Int) :
    List (F64 × Nat × List nvme_ctx × Nat) → nvme_sw_queue → nvme_sw_queue
  | [], q => q
  | (scaled_IOPuS_limit, time_delta, arrivals, local_leftover) :: rest, q =>
    subround1_lc_rounds TOKEN_DEFICIT_LIMIT rest
      (subround1_lc TOKEN_DEFICIT_LIMIT scaled_IOPuS_limit time_delta
        (arrivals.foldl nvme_sw_queue_push_back q) local_leftover).2.1

/-! ## Concrete configurations used to evaluate the code -/

/-- A configuration with 8 slots, read cost 1, write cost 10 and no device limit
(`DEFAULT_FLASH`). -/
def Scenario.cfg_flat : Cfg := ⟨8, 1, 10, DevModelKind.DEFAULT_FLASH, []⟩

/-- A configuration with 8 slots, read cost 1, write cost 10 and a two-point calibration
table: at 100 us, 300000 tokens/s mixed and 500000 read-only; at 1000 us, 450000 mixed and
600000 read-only. -/
def Scenario.cfg_table : Cfg :=
  ⟨8, 1, 10, DevModelKind.FLASH_DEV_MODEL, [⟨100, 300000, 500000⟩, ⟨1000, 450000, 600000⟩]⟩

/-- The table of `Scenario.cfg_table` with read cost 3 and write cost 30. -/
def Scenario.cfg_cost3 : Cfg :=
  ⟨8, 3, 30, DevModelKind.FLASH_DEV_MODEL, [⟨100, 300000, 500000⟩, ⟨1000, 450000, 600000⟩]⟩

/-- The state after `bsys_nvme_register_flow` on core 0 (cookie 0, queue allocation
succeeding). -/
def Scenario.register (cfg : Cfg) (s : State) (flow_group_id : Int) (latency_us_SLO : Nat)
    (IOPS_SLO : Nat) (rw_ratio_SLO : Int) : State :=
  (bsys_nvme_register_flow cfg s 0 flow_group_id 0 latency_us_SLO IOPS_SLO rw_ratio_SLO true).2

/-- The state after the unregistration of the tenant in slot `fg_handle`, called on core 0
(`s` itself where the call does not return). -/
def Scenario.unregister (cfg : Cfg) (s : State) (fg_handle : Nat) : State :=
  (bsys_nvme_unregister_flow cfg s 0 fg_handle).getD s

/-- One read-only latency-critical tenant (flow 1: 50 us, 100000 IOPS, 100% reads, so
300000 tokens/s at read cost 3), admitted at the read-only rate 500000. -/
def Scenario.one_lc : State := Scenario.register Scenario.cfg_cost3 State.init 1 50 100000 100

/-- Three accepted latency-critical tenants: flow 1 (50 us, 400000 IOPS, 100% reads),
flow 2 (50 us, 0 IOPS, 100% reads) and flow 3 (2000 us, 0 IOPS, 50% reads), in slots 1, 2
and 3. -/
def Scenario.three_lc : State :=
  Scenario.register Scenario.cfg_table
    (Scenario.register Scenario.cfg_table
      (Scenario.register Scenario.cfg_table State.init 1 50 400000 100) 2 50 0 100) 3 2000 0 50

/-- The tenants of `Scenario.three_lc`, then the tenant in slot 2 unregistered. -/
def Scenario.three_lc_minus_one : State :=
  Scenario.unregister Scenario.cfg_table Scenario.three_lc 2

/-- The tenants of `Scenario.three_lc`, a best-effort tenant (flow 4, slot 4), then the
tenant in slot 2 unregistered. -/
def Scenario.three_lc_be_minus_one : State :=
  Scenario.unregister Scenario.cfg_table
    (Scenario.register Scenario.cfg_table Scenario.three_lc 4 0 0 0) 2

/-- Two latency-critical tenants (flow 1: 1000 IOPS, slot 1; flow 2: 2000 IOPS, slot 2;
both 50 us, 100% reads). -/
def Scenario.two_lc : State :=
  Scenario.register Scenario.cfg_flat
    (Scenario.register Scenario.cfg_flat State.init 1 50 1000 100) 2 50 2000 100

/-- The tenants of `Scenario.two_lc`, then the tenant in slot 1 unregistered. -/
def Scenario.two_lc_minus_first : State :=
  Scenario.unregister Scenario.cfg_flat Scenario.two_lc 1

/-- One best-effort tenant (flow 1, slot 1) registered and unregistered again. -/
def Scenario.be_in_out : State :=
  Scenario.unregister Scenario.cfg_flat (Scenario.register Scenario.cfg_flat State.init 1 0 0 0) 1

/-- Flow 1 registered on core 0 with 1000 IOPS, then registered again on core 0 with 2000
IOPS (both 50 us, 100% reads). -/
def Scenario.registered_twice : State :=
  Scenario.register Scenario.cfg_flat
    (Scenario.register Scenario.cfg_flat State.init 1 50 1000 100) 1 50 2000 100

/-- Two read-only latency-critical tenants (flows 1 and 2: 50 us, 1000 IOPS, slots 1 and
2) and a best-effort tenant (flow 3, slot 3), then the tenant in slot 1 unregistered. -/
def Scenario.lc_removed_beside_be : State :=
  Scenario.unregister Scenario.cfg_table
    (Scenario.register Scenario.cfg_table
      (Scenario.register Scenario.cfg_table
        (Scenario.register Scenario.cfg_table State.init 1 50 1000 100) 2 50 1000 100) 3 0 0 0) 1

/-- A state whose slots all hold a read-only latency-critical tenant of 1000 tokens/s with
a 100 us SLO; the globals are those of `State.init`. -/
def Scenario.lc_slots : State :=
  { State.init with
    nvme_fgs := fun _ => ⟨1, 0, 100, 1000, 100, 1000, ⟨0, 0⟩, 0, true, 0, swq_ptr.null⟩ }

/-- A configuration with 3 slots (the search covers slots 1 and 2), read cost 1, write cost
10 and no device limit. -/
def Scenario.cfg_small : Cfg := ⟨3, 1, 10, DevModelKind.DEFAULT_FLASH, []⟩

/-- Two best-effort tenants (flows 1 and 2) registered under `Scenario.cfg_small`: slots 1
and 2 are occupied, so the searched range holds no free slot. -/
def Scenario.full_table : State :=
  Scenario.register Scenario.cfg_small
    (Scenario.register Scenario.cfg_small State.init 1 0 0 0) 2 0 0 0

/-- The state of `Scenario.full_table` after flow 3 registers as a best-effort tenant. -/
def Scenario.full_table_plus_one : State :=
  Scenario.register Scenario.cfg_small Scenario.full_table 3 0 0 0

/-- A write request of cost 10 (one 4 KiB write under `Scenario.cfg_flat`). -/
def Scenario.write_req (cookie : Nat) : nvme_ctx := ⟨nvme_cmd.NVME_CMD_WRITE, 10, cookie⟩

/-- The state `s` with the queue of the tenant `q.fg_handle` on core `cpu_nr` replaced by
`q`. -/
def Scenario.set_swq (s : State) (cpu_nr : Nat) (q : nvme_sw_queue) : State :=
  let pc := s.percpu cpu_nr
  let mgr := pc.nvme_tenant_manager
  let l := mgr.tenant_swq.map (fun p => if p.fg_handle = q.fg_handle then q else p)
  let mgr1 : nvme_tenant_mgmt := { mgr with tenant_swq := l }
  let pc1 : PerCpu := { pc with nvme_tenant_manager := mgr1 }
  { s with percpu := Function.update s.percpu cpu_nr pc1 }

/-- A latency-critical tenant (flow 1: 50 us, 1000 IOPS, 100% reads, slot 1) registered on
core 0 and a best-effort tenant (flow 2, slot 2) registered on core 1. -/
def Scenario.lc_and_be : State :=
  (bsys_nvme_register_flow Scenario.cfg_flat
    (bsys_nvme_register_flow Scenario.cfg_flat State.init 0 1 0 50 1000 100 true).2
    1 2 0 0 0 0 true).2

/-- The queue of the best-effort tenant of `Scenario.lc_and_be` after three write requests
of cost 10 were enqueued. -/
def Scenario.three_writes : nvme_sw_queue :=
  nvme_sw_queue_push_back (nvme_sw_queue_push_back (nvme_sw_queue_push_back
    (nvme_sw_queue_init 2) (Scenario.write_req 1)) (Scenario.write_req 2)) (Scenario.write_req 3)

/-- The tenants of `Scenario.lc_and_be` before a scheduling round: the latency-critical
tenant on core 0 is idle with a credit of 1000 tokens, the best-effort tenant on core 1 has
three write requests queued; the bucket is empty and no core has scheduled yet. -/
def Scenario.donor : SchedState :=
  { SchedState.init Scenario.cfg_flat with
    adm := Scenario.set_swq
      (Scenario.set_swq Scenario.lc_and_be 0 { nvme_sw_queue_init 1 with token_credit := 1000 })
      1 Scenario.three_writes }

/-- Two active cores, 2400 cycles per microsecond. -/
def Scenario.two_cores : SchedCfg := ⟨2, 2400⟩

/-- The calls of `nvme_sched` by the cores listed, in order, each at time 0 (so that no
tenant receives a rate increment): the final state and the requests each call issued. -/
def Scenario.run : SchedState → List Nat → Option (SchedState × List (List nvme_ctx))
  | sc, [] => some (sc, [])
  | sc, c :: rest =>
    match nvme_sched Scenario.two_cores 8 sc c 0 0 with
    | none => none
    | some (sc1, issued) =>
      match Scenario.run sc1 rest with
      | none => none
      | some (sc2, l) => some (sc2, issued :: l)

/-- The state of `Scenario.donor` with 900 tokens in the bucket, and on every core a
recorded demand of 30 tokens and no leftover. -/
def Scenario.demand_30 : SchedState :=
  { Scenario.donor with
    global_leftover_tokens := 900
    sched := fun _ => ⟨0, 0, 30, 0⟩ }

/-- The state of `Scenario.donor` with the latency-critical tenant on core 0 at a credit of
-999 tokens (the limit is 1000) and one write request of cost 10 queued. -/
def Scenario.near_limit_swq : nvme_sw_queue :=
  { nvme_sw_queue_push_back (nvme_sw_queue_init 1) (Scenario.write_req 1) with
    token_credit := -999 }

/-- The state of `Scenario.donor` with the queue of the latency-critical tenant replaced by
`Scenario.near_limit_swq`. -/
def Scenario.near_limit : SchedState :=
  { Scenario.donor with adm := Scenario.set_swq Scenario.donor.adm 0 Scenario.near_limit_swq }

/-- What the scenarios observe of a run: the bucket, the credits of the tenants of core 0,
the queue lengths of the tenants of core 1, and the number of requests each call issued. -/
def Scenario.observe (r : Option (SchedState × List (List nvme_ctx))) :
    Option (Nat × List Int × List Nat × List Nat) :=
  r.map (fun p =>
    (p.1.global_leftover_tokens,
     ((p.1.adm.percpu 0).nvme_tenant_manager).tenant_swq.map (fun q => q.token_credit),
     ((p.1.adm.percpu 1).nvme_tenant_manager).tenant_swq.map (fun q => q.queue.length),
     p.2.map List.length))

/-- The state of `Scenario.donor` after core 1 has completed a call of `nvme_sched`. -/
def Scenario.donor_after_be_core : SchedState :=
  ((nvme_sched Scenario.two_cores 8 Scenario.donor 1 0 0).map (fun p => p.1)).getD Scenario.donor

/-- Flow 1 registered on core 0 as a best-effort tenant (latency SLO 0); it takes slot 1. -/
def Scenario.one_be : State := Scenario.register Scenario.cfg_flat State.init 1 0 0 0

/-- The tenant of `Scenario.one_be` registered again on core 0, now with a latency SLO of
50 us (1000 IOPS, 100% reads). -/
def Scenario.be_registered_as_lc : State :=
  Scenario.register Scenario.cfg_flat Scenario.one_be 1 50 1000 100

/-- The scheduler state after initialisation with the tenants of
`Scenario.be_registered_as_lc`. -/
def Scenario.be_registered_as_lc_sched : SchedState :=
  { SchedState.init Scenario.cfg_flat with adm := Scenario.be_registered_as_lc }

/-- One read-only latency-critical tenant of 2048 tokens/s (flow 1: 50 us, 2048 IOPS, 100%
reads, read cost 1) registered on core 0 under `Scenario.cfg_flat`. -/
def Scenario.lc_2048 : State := Scenario.register Scenario.cfg_flat State.init 1 50 2048 100

/-- The state of `Scenario.lc_2048` at the moment a registration of flow 2 with
`IOPS_SLO = 2 ^ 64 - 2048` (50 us, 100% reads) calls `recalculate_weights_add(2)`: slot 2 is
marked and holds the record of the new tenant, whose `scaled_IOPS_limit` is
`2 ^ 64 - 2048`. -/
def Scenario.huge_lc_pending : State :=
  { Scenario.lc_2048 with
    nvme_fgs_bitmap := Function.update Scenario.lc_2048.nvme_fgs_bitmap 2 true
    nvme_fgs := Function.update Scenario.lc_2048.nvme_fgs 2
      ⟨2, 0, 50, 18446744073709549568, 100, 18446744073709549568,
        F64.div (F64.ofInt 18446744073709549568) F64.million, 0, true, 0, swq_ptr.null⟩ }

/-- A calibration table with two points, `(0 us, 0, 0)` and
`(8388610 us, 4294967290, 4294967290)`: strictly increasing latencies, non-decreasing
rates, every entry below `2 ^ 32`. -/
def Scenario.cfg_wide_table : Cfg :=
  ⟨8, 1, 10, DevModelKind.FLASH_DEV_MODEL, [⟨0, 0, 0⟩, ⟨8388610, 4294967290, 4294967290⟩]⟩

/-- The state of `Scenario.full_table_plus_one` (flow 3 holds slot 0 on core 0) after
flow 3 registers again on core 0 with the same parameters. -/
def Scenario.slot_zero_twice : State :=
  Scenario.register Scenario.cfg_small Scenario.full_table_plus_one 3 0 0 0

/-! ## Binary64 arithmetic: rounding lemmas -/

theorem ilog2Aux_spec : ∀ (fuel n : Nat), n ≤ fuel → 0 < n →
    2 ^ ilog2Aux fuel n ≤ n ∧ n < 2 ^ (ilog2Aux fuel n + 1)
  | 0, n, h, hn => by omega
  | fuel + 1, n, h, hn => by
    unfold ilog2Aux
    by_cases h2 : n < 2
    · simp only [h2, if_true]
      constructor <;> simp <;> omega
    · simp only [h2, if_false]
      have ih := ilog2Aux_spec fuel (n / 2) (by omega) (by omega)
      obtain ⟨ih1, ih2⟩ := ih
      constructor
      · rw [pow_succ]; omega
      · rw [pow_succ]; omega

theorem ilog2_spec (n : Nat) (hn : 0 < n) : 2 ^ ilog2 n ≤ n ∧ n < 2 ^ (ilog2 n + 1) :=
  ilog2Aux_spec n n le_rfl hn

theorem two_zpow_split (z : Int) : (2 : ℚ) ^ z = (2 : ℚ) ^ z.toNat / (2 : ℚ) ^ (-z).toNat := by
  rcases le_total 0 z with h | h
  · have h1 : (-z).toNat = 0 := by omega
    rw [h1, pow_zero, div_one, ← zpow_natCast, Int.toNat_of_nonneg h]
  · have h1 : z.toNat = 0 := by omega
    have h2 : ((-z).toNat : Int) = -z := Int.toNat_of_nonneg (by omega)
    rw [h1, pow_zero, one_div, ← zpow_natCast, h2, zpow_neg, inv_inv]

theorem F64.toRat_mk (m e : Int) : F64.toRat ⟨m, e⟩ = (m : ℚ) * (2 : ℚ) ^ e := by
  unfold F64.toRat F64.num F64.den
  rw [two_zpow_split e]
  push_cast
  ring

theorem F64.round_spec (n d : Nat) (hn : 0 < n) (hd : 0 < d) :
    ∃ (e : Int) (k : Nat), (F64.round (n : Int) d).toRat = (k : ℚ) * (2 : ℚ) ^ (e - 52) ∧
      0 ≤ (F64.round (n : Int) d).m ∧
      (2 : ℚ) ^ e ≤ (n : ℚ) / d ∧
      n * 2 ^ (52 - e).toNat / (d * 2 ^ (e - 52).toNat) ≤ k ∧
      k ≤ n * 2 ^ (52 - e).toNat / (d * 2 ^ (e - 52).toNat) + 1 ∧
      (n * 2 ^ (52 - e).toNat % (d * 2 ^ (e - 52).toNat) = 0 →
        k = n * 2 ^ (52 - e).toNat / (d * 2 ^ (e - 52).toNat)) := by
  have hn0 : ¬ ((n : Int) = 0 ∨ d = 0) := by omega
  have hsign : Int.sign (n : Int) = 1 := Int.sign_eq_one_of_pos (by omega)
  have hdq : (0 : ℚ) < d := by exact_mod_cast hd
  have hnq : (0 : ℚ) < n := by exact_mod_cast hn
  obtain ⟨ha1, ha2⟩ := ilog2_spec n hn
  obtain ⟨hd1, hd2⟩ := ilog2_spec d hd
  -- the exponent
  obtain ⟨e, he, hle⟩ : ∃ e : Int,
      e = (if d * 2 ^ ((ilog2 n : Int) - (ilog2 d : Int)).toNat
            ≤ n * 2 ^ (-((ilog2 n : Int) - (ilog2 d : Int))).toNat
          then (ilog2 n : Int) - (ilog2 d : Int) else (ilog2 n : Int) - (ilog2 d : Int) - 1) ∧
      (2 : ℚ) ^ e ≤ (n : ℚ) / d := by
    refine ⟨_, rfl, ?_⟩
    split_ifs with ht
    · rw [two_zpow_split, div_le_div_iff₀ (by positivity) hdq]
      have : ((d * 2 ^ ((ilog2 n : Int) - (ilog2 d : Int)).toNat : Nat) : ℚ)
          ≤ ((n * 2 ^ (-((ilog2 n : Int) - (ilog2 d : Int))).toNat : Nat) : ℚ) := by
        exact_mod_cast ht
      push_cast at this
      linarith
    · have h1 : (2 : ℚ) ^ (ilog2 n) ≤ n := by exact_mod_cast ha1
      have h2 : (d : ℚ) ≤ 2 ^ (ilog2 d + 1) := by exact_mod_cast hd2.le
      have h3 : (2 : ℚ) ^ ((ilog2 n : Int) - (ilog2 d : Int) - 1)
          = (2 : ℚ) ^ (ilog2 n) / 2 ^ (ilog2 d + 1) := by
        rw [show (ilog2 n : Int) - (ilog2 d : Int) - 1 = (ilog2 n : Int) - ((ilog2 d + 1 : Nat) : Int)
          by push_cast; ring]
        rw [zpow_sub₀ (by norm_num), zpow_natCast, zpow_natCast]
      rw [h3]
      exact div_le_div₀ (by positivity) h1 hdq h2
  -- the significand
  set N := n * 2 ^ (52 - e).toNat with hN
  set D := d * 2 ^ (e - 52).toNat with hD
  obtain ⟨k, hk, hk1, hk2, hk3⟩ : ∃ k : Nat,
      k = (if 2 * (N % D) < D then N / D else if D < 2 * (N % D) then N / D + 1
        else if N / D % 2 = 0 then N / D else N / D + 1) ∧
      N / D ≤ k ∧ k ≤ N / D + 1 ∧ (N % D = 0 → k = N / D) := by
    have hDpos : 0 < D := by positivity
    refine ⟨_, rfl, ?_, ?_, ?_⟩
    · split_ifs <;> omega
    · split_ifs <;> omega
    · intro h0
      rw [h0]
      simp [hDpos]
  refine ⟨e, k, ?_, ?_, hle, hk1, hk2, hk3⟩
  · unfold F64.round
    rw [if_neg hn0]
    simp only [Int.natAbs_ofNat, hsign, one_mul]
    rw [← he, ← hN, ← hD, ← hk]
    split_ifs with h53
    · rw [F64.toRat_mk, h53]
      rw [show e - 51 = (e - 52) + 1 by ring, zpow_add₀ (by norm_num)]
      push_cast
      ring
    · rw [F64.toRat_mk]
      push_cast
      ring
  · unfold F64.round
    rw [if_neg hn0]
    simp only [Int.natAbs_ofNat, hsign, one_mul]
    rw [← he, ← hN, ← hD, ← hk]
    split_ifs
    · show (0 : Int) ≤ 2 ^ 52
      positivity
    · show (0 : Int) ≤ (k : Int)
      positivity

theorem F64.round_bracket (n d : Nat) (hd : 0 < d) (g A B : Nat) (hB : B < 2 ^ 53)
    (hlo : (A : ℚ) / 2 ^ g ≤ (n : ℚ) / d) (hhi : (n : ℚ) / d ≤ (B : ℚ) / 2 ^ g) :
    (A : ℚ) / 2 ^ g ≤ (F64.round (n : Int) d).toRat ∧
      (F64.round (n : Int) d).toRat ≤ (B : ℚ) / 2 ^ g ∧ 0 ≤ (F64.round (n : Int) d).m := by
  have hdq : (0 : ℚ) < d := by exact_mod_cast hd
  have hgq : (0 : ℚ) < 2 ^ g := by positivity
  rcases Nat.eq_zero_or_pos n with h0 | hn
  · subst h0
    have hr : F64.round ((0 : Nat) : Int) d = ⟨0, 0⟩ := by
      unfold F64.round
      simp
    rw [hr, F64.toRat_mk]
    simp only [Nat.cast_zero, zero_div, Int.cast_zero, zero_mul] at hlo hhi ⊢
    exact ⟨hlo, hhi, le_refl _⟩
  · obtain ⟨e, k, hval, hm, hle, hk1, hk2, hk3⟩ := F64.round_spec n d hn hd
    -- the exponent is small enough for the grid
    have he : e ≤ 52 - (g : Int) := by
      by_contra hcon
      have h1 : (53 : Int) - g ≤ e := by omega
      have h2 : (2 : ℚ) ^ ((53 : Int) - g) ≤ (2 : ℚ) ^ e := zpow_le_zpow_right₀ (by norm_num) h1
      have h3 : (2 : ℚ) ^ ((53 : Int) - g) = 2 ^ 53 / 2 ^ g := by
        rw [zpow_sub₀ (by norm_num)]
        norm_cast
      have h4 : (B : ℚ) < 2 ^ 53 := by exact_mod_cast hB
      have h5 : (B : ℚ) / 2 ^ g < 2 ^ 53 / 2 ^ g := div_lt_div_of_pos_right h4 hgq
      linarith
    obtain ⟨sh, hsh⟩ : ∃ sh : Nat, (52 - e) = ((g + sh : Nat) : Int) :=
      ⟨(52 - e - g).toNat, by push_cast; omega⟩
    have e1 : (52 - e).toNat = g + sh := by omega
    have e2 : (e - 52).toNat = 0 := by omega
    rw [e1, e2, pow_zero, mul_one] at hk1 hk2 hk3
    have hpow : (2 : ℚ) ^ (e - 52) = 1 / (2 ^ g * 2 ^ sh) := by
      rw [show e - 52 = -((g + sh : Nat) : Int) by omega, zpow_neg, zpow_natCast, pow_add, one_div]
    -- integer forms of the bounds
    have hloN : A * d ≤ n * 2 ^ g := by
      rw [div_le_div_iff₀ hgq hdq] at hlo
      exact_mod_cast hlo
    have hhiN : n * 2 ^ g ≤ B * d := by
      rw [div_le_div_iff₀ hdq hgq] at hhi
      exact_mod_cast hhi
    have hA : A * 2 ^ sh ≤ k := by
      refine le_trans ?_ hk1
      rw [Nat.le_div_iff_mul_le hd]
      calc A * 2 ^ sh * d = (A * d) * 2 ^ sh := by ring
        _ ≤ (n * 2 ^ g) * 2 ^ sh := Nat.mul_le_mul_right _ hloN
        _ = n * 2 ^ (g + sh) := by ring
    have hBk : k ≤ B * 2 ^ sh := by
      have hle2 : n * 2 ^ (g + sh) ≤ (B * 2 ^ sh) * d := by
        calc n * 2 ^ (g + sh) = (n * 2 ^ g) * 2 ^ sh := by ring
          _ ≤ (B * d) * 2 ^ sh := Nat.mul_le_mul_right _ hhiN
          _ = (B * 2 ^ sh) * d := by ring
      have hq : n * 2 ^ (g + sh) / d ≤ B * 2 ^ sh := Nat.div_le_of_le_mul (by rw [Nat.mul_comm d]; exact hle2)
      rcases Nat.eq_zero_or_pos (n * 2 ^ (g + sh) % d) with hr | hr
      · rw [hk3 hr]; exact hq
      · have hlt : n * 2 ^ (g + sh) / d < B * 2 ^ sh := by
          rcases Nat.lt_or_ge (n * 2 ^ (g + sh) / d) (B * 2 ^ sh) with h | h
          · exact h
          · exfalso
            have hdm := Nat.div_add_mod (n * 2 ^ (g + sh)) d
            have : d * (B * 2 ^ sh) ≤ d * (n * 2 ^ (g + sh) / d) := Nat.mul_le_mul_left _ h
            have hc : (B * 2 ^ sh) * d = d * (B * 2 ^ sh) := by ring
            omega
        omega
    have hAq : (A : ℚ) * 2 ^ sh ≤ k := by exact_mod_cast hA
    have hBq : (k : ℚ) ≤ B * 2 ^ sh := by exact_mod_cast hBk
    have hsq : (0 : ℚ) < 2 ^ sh := by positivity
    rw [hval, hpow]
    refine ⟨?_, ?_, hm⟩
    · rw [div_le_iff₀ hgq]
      have : (k : ℚ) * (1 / (2 ^ g * 2 ^ sh)) * 2 ^ g = k / 2 ^ sh := by
        field_simp
        ring
      rw [this, le_div_iff₀ hsq]
      exact hAq
    · rw [le_div_iff₀ hgq]
      have : (k : ℚ) * (1 / (2 ^ g * 2 ^ sh)) * 2 ^ g = k / 2 ^ sh := by
        field_simp
        ring
      rw [this, div_le_iff₀ hsq]
      exact hBq

theorem F64.den_pos (x : F64) : 0 < x.den := by
  unfold F64.den
  positivity

theorem F64.num_nonneg (x : F64) (h : 0 ≤ x.m) : 0 ≤ x.num := by
  unfold F64.num
  positivity

theorem F64.num_pos_of_toRat_pos (x : F64) (h : 0 < x.toRat) : 0 < x.num := by
  unfold F64.toRat at h
  have hd : (0 : ℚ) < (x.den : ℚ) := by exact_mod_cast x.den_pos
  have : (0 : ℚ) < (x.num : ℚ) := by
    by_contra hc
    push_neg at hc
    have := div_nonpos_of_nonpos_of_nonneg hc hd.le
    linarith
  exact_mod_cast this

theorem F64.ofInt_exact (P : Nat) (hP : P < 2 ^ 53) :
    (F64.ofInt (P : Int)).toRat = P ∧ 0 ≤ (F64.ofInt (P : Int)).m := by
  have h := F64.round_bracket P 1 Nat.one_pos 0 P P hP (by simp) (by simp)
  simp only [pow_zero, div_one] at h
  exact ⟨le_antisymm h.2.1 h.1, h.2.2⟩

theorem F64.div_bracket (x y : F64) (hx : 0 ≤ x.m) (hy : 0 < y.toRat) (g A B : Nat)
    (hB : B < 2 ^ 53) (hlo : (A : ℚ) / 2 ^ g ≤ x.toRat / y.toRat)
    (hhi : x.toRat / y.toRat ≤ (B : ℚ) / 2 ^ g) :
    (A : ℚ) / 2 ^ g ≤ (F64.div x y).toRat ∧ (F64.div x y).toRat ≤ (B : ℚ) / 2 ^ g ∧
      0 ≤ (F64.div x y).m := by
  have hyn : 0 < y.num := F64.num_pos_of_toRat_pos y hy
  have hxn : 0 ≤ x.num := F64.num_nonneg x hx
  obtain ⟨a, ha⟩ : ∃ a : Nat, x.num = (a : Int) := ⟨x.num.toNat, (Int.toNat_of_nonneg hxn).symm⟩
  obtain ⟨b, hb⟩ : ∃ b : Nat, y.num = (b : Int) := ⟨y.num.toNat, (Int.toNat_of_nonneg hyn.le).symm⟩
  have hbpos : 0 < b := by omega
  have hsign : Int.sign y.num = 1 := Int.sign_eq_one_of_pos hyn
  have hn : Int.sign y.num * (x.num * y.den) = ((a * y.den : Nat) : Int) := by
    rw [hsign, one_mul, ha]
    push_cast
    rfl
  have hnat : y.num.natAbs = b := by rw [hb]; exact Int.natAbs_ofNat b
  have hdpos : 0 < x.den * b := Nat.mul_pos x.den_pos hbpos
  have hxd : (0 : ℚ) < (x.den : ℚ) := by exact_mod_cast x.den_pos
  have hyd : (0 : ℚ) < (y.den : ℚ) := by exact_mod_cast y.den_pos
  have hbq : (0 : ℚ) < (b : ℚ) := by exact_mod_cast hbpos
  have hfrac : ((a * y.den : Nat) : ℚ) / ((x.den * b : Nat) : ℚ) = x.toRat / y.toRat := by
    unfold F64.toRat
    rw [ha, hb]
    push_cast
    field_simp
  unfold F64.div
  rw [hn, hnat]
  exact F64.round_bracket _ _ hdpos g A B hB (by rw [hfrac]; exact hlo) (by rw [hfrac]; exact hhi)

theorem F64.add_bracket (x y : F64) (hx : 0 ≤ x.m) (hy : 0 ≤ y.m) (g A B : Nat)
    (hB : B < 2 ^ 53) (hlo : (A : ℚ) / 2 ^ g ≤ x.toRat + y.toRat)
    (hhi : x.toRat + y.toRat ≤ (B : ℚ) / 2 ^ g) :
    (A : ℚ) / 2 ^ g ≤ (F64.add x y).toRat ∧ (F64.add x y).toRat ≤ (B : ℚ) / 2 ^ g ∧
      0 ≤ (F64.add x y).m := by
  have hxn : 0 ≤ x.num := F64.num_nonneg x hx
  have hyn : 0 ≤ y.num := F64.num_nonneg y hy
  obtain ⟨a, ha⟩ : ∃ a : Nat, x.num = (a : Int) := ⟨x.num.toNat, (Int.toNat_of_nonneg hxn).symm⟩
  obtain ⟨b, hb⟩ : ∃ b : Nat, y.num = (b : Int) := ⟨y.num.toNat, (Int.toNat_of_nonneg hyn).symm⟩
  have hn : x.num * y.den + y.num * x.den = ((a * y.den + b * x.den : Nat) : Int) := by
    rw [ha, hb]
    push_cast
    rfl
  have hdpos : 0 < x.den * y.den := Nat.mul_pos x.den_pos y.den_pos
  have hxd : (0 : ℚ) < (x.den : ℚ) := by exact_mod_cast x.den_pos
  have hyd : (0 : ℚ) < (y.den : ℚ) := by exact_mod_cast y.den_pos
  have hfrac : ((a * y.den + b * x.den : Nat) : ℚ) / ((x.den * y.den : Nat) : ℚ)
      = x.toRat + y.toRat := by
    unfold F64.toRat
    rw [ha, hb]
    push_cast
    field_simp
  unfold F64.add
  rw [hn]
  exact F64.round_bracket _ _ hdpos g A B hB (by rw [hfrac]; exact hlo) (by rw [hfrac]; exact hhi)

theorem F64.toInt_of_bracket (x : F64) (hx : 0 ≤ x.m) (Y : Nat) (h1 : (Y : ℚ) ≤ x.toRat)
    (h2 : x.toRat < (Y : ℚ) + 1) : x.toInt = (Y : Int) := by
  have hxn : 0 ≤ x.num := F64.num_nonneg x hx
  have hxd : (0 : ℚ) < (x.den : ℚ) := by exact_mod_cast x.den_pos
  obtain ⟨a, ha⟩ : ∃ a : Nat, x.num = (a : Int) := ⟨x.num.toNat, (Int.toNat_of_nonneg hxn).symm⟩
  unfold F64.toRat at h1 h2
  rw [ha] at h1 h2
  rw [le_div_iff₀ hxd] at h1
  rw [div_lt_iff₀ hxd] at h2
  have h1n : Y * x.den ≤ a := by exact_mod_cast h1
  have h2n : a < (Y + 1) * x.den := by exact_mod_cast h2
  have hq : a / x.den = Y := by
    apply Nat.div_eq_of_lt_le
    · exact h1n
    · exact h2n
  unfold F64.toInt
  rw [ha]
  simp only [Int.natAbs_ofNat, hq]
  rcases Nat.eq_zero_or_pos a with h0 | hp
  · subst h0
    have : Y = 0 := by
      rcases Nat.eq_zero_or_pos Y with h | h
      · exact h
      · have := Nat.mul_pos h x.den_pos
        omega
    subst this
    simp
  · rw [Int.sign_eq_one_of_pos (by exact_mod_cast hp), one_mul]

/-! ## Device model -/

theorem u64_of_lt (n : Nat) (h : n < 2 ^ 64) : u64 (n : Int) = n := by
  unfold u64
  norm_num at h
  omega

theorem u64_sub_of_le (a b : Nat) (hab : b ≤ a) (h : a < 2 ^ 64) :
    u64 ((a : Int) - b) = a - b := by
  unfold u64
  norm_num at h
  omega

theorem interpolate_exact (a b : Nat) (hab : a + b ≤ 53) (y0 y1 x0 x1 lat : Nat)
    (hy : y0 ≤ y1) (hy1 : y1 < 2 ^ b) (hx0 : x0 ≤ lat) (hx1 : lat < x1) (hxb : x1 < 2 ^ a) :
    interpolate y0 y1 x0 x1 lat = y0 + (y1 - y0) * (lat - x0) / (x1 - x0) := by
  have hpa : 2 ^ a ≤ 2 ^ 53 := Nat.pow_le_pow_right (by norm_num) (by omega)
  have hpb : 2 ^ b ≤ 2 ^ 53 := Nat.pow_le_pow_right (by norm_num) (by omega)
  have hpab : 2 ^ b * 2 ^ a ≤ 2 ^ 53 := by
    rw [← pow_add]
    exact Nat.pow_le_pow_right (by norm_num) (by omega)
  have h5364 : (2 : Nat) ^ 53 < 2 ^ 64 := by norm_num
  obtain ⟨Dy, hDy⟩ : ∃ Dy, Dy = y1 - y0 := ⟨_, rfl⟩
  obtain ⟨Dx, hDx⟩ : ∃ Dx, Dx = lat - x0 := ⟨_, rfl⟩
  obtain ⟨Q, hQ⟩ : ∃ Q, Q = x1 - x0 := ⟨_, rfl⟩
  have hQpos : 0 < Q := by omega
  have hDxQ : Dx < Q := by omega
  have hQa : Q < 2 ^ a := by omega
  have hDyb : Dy < 2 ^ b := by omega
  have hP : Dy * Dx < 2 ^ 53 := by
    have : Dy * Dx < 2 ^ b * 2 ^ a := by
      rcases Nat.eq_zero_or_pos Dy with h | h
      · rw [h, zero_mul]; positivity
      · calc Dy * Dx < Dy * 2 ^ a := Nat.mul_lt_mul_of_pos_left (by omega) h
          _ ≤ 2 ^ b * 2 ^ a := Nat.mul_le_mul_right _ hDyb.le
    omega
  obtain ⟨k, hk⟩ : ∃ k, k = Dy * Dx / Q := ⟨_, rfl⟩
  have hkQ : k * Q ≤ Dy * Dx := by rw [hk]; exact Nat.div_mul_le_self _ _
  have hkQ1 : Dy * Dx < (k + 1) * Q := by
    rw [hk]
    have := Nat.lt_succ_iff.mpr (le_refl (Dy * Dx / Q))
    exact (Nat.div_lt_iff_lt_mul hQpos).mp this
  have hkDy : k ≤ Dy := by
    rw [hk]
    apply Nat.div_le_of_le_mul
    calc Dy * Dx ≤ Dy * Q := Nat.mul_le_mul_left _ hDxQ.le
      _ = Q * Dy := Nat.mul_comm _ _
  -- unsigned long operands
  have e1 : u64 ((y1 : Int) - y0) = Dy := by rw [hDy]; exact u64_sub_of_le _ _ hy (by omega)
  have e2 : u64 ((lat : Int) - x0) = Dx := by rw [hDx]; exact u64_sub_of_le _ _ hx0 (by omega)
  have e3 : u64 ((x1 : Int) - x0) = Q := by rw [hQ]; exact u64_sub_of_le _ _ (by omega) (by omega)
  have e4 : u64 (((Dy : Nat) : Int) * ((Dx : Nat) : Int)) = Dy * Dx := by
    have := u64_of_lt (Dy * Dx) (by omega)
    push_cast at this
    exact this
  unfold interpolate
  simp only [e1, e2, e3, e4]
  -- conversions are exact
  obtain ⟨hPv, hPm⟩ := F64.ofInt_exact (Dy * Dx) hP
  obtain ⟨hQv, hQm⟩ := F64.ofInt_exact Q (by omega)
  obtain ⟨hYv, hYm⟩ := F64.ofInt_exact y0 (by omega)
  have hQq : (0 : ℚ) < (Q : ℚ) := by exact_mod_cast hQpos
  have hgq : (0 : ℚ) < (2 : ℚ) ^ a := by positivity
  have hQaq : (Q : ℚ) ≤ 2 ^ a := by exact_mod_cast hQa.le
  -- the quotient
  have hquot : ((Dy * Dx : Nat) : ℚ) / (Q : ℚ) = (F64.ofInt ((Dy * Dx : Nat) : Int)).toRat
      / (F64.ofInt (Q : Int)).toRat := by rw [hPv, hQv]
  have hk1 : (k : ℚ) * Q ≤ ((Dy * Dx : Nat) : ℚ) := by exact_mod_cast hkQ
  have hk2 : ((Dy * Dx : Nat) : ℚ) + 1 ≤ ((k : ℚ) + 1) * Q := by exact_mod_cast hkQ1
  have hB1 : (k + 1) * 2 ^ a - 1 < 2 ^ 53 := by
    have : (k + 1) * 2 ^ a ≤ 2 ^ b * 2 ^ a := Nat.mul_le_mul_right _ (by omega)
    have : 0 < (k + 1) * 2 ^ a := by positivity
    omega
  have hBq : (((k + 1) * 2 ^ a - 1 : Nat) : ℚ) = ((k : ℚ) + 1) * 2 ^ a - 1 := by
    have : 1 ≤ (k + 1) * 2 ^ a := by
      have : 0 < (k + 1) * 2 ^ a := by positivity
      omega
    rw [Nat.cast_sub this]
    push_cast
    ring
  have hdiv := F64.div_bracket (F64.ofInt ((Dy * Dx : Nat) : Int)) (F64.ofInt (Q : Int)) hPm
    (by rw [hQv]; exact hQq) a (k * 2 ^ a) ((k + 1) * 2 ^ a - 1) hB1
    (by
      rw [← hquot]
      push_cast
      rw [mul_div_assoc, div_self hgq.ne', mul_one, le_div_iff₀ hQq]
      exact_mod_cast hk1)
    (by
      rw [← hquot, hBq, div_le_div_iff₀ hQq hgq]
      nlinarith)
  obtain ⟨hF1, hF2, hFm⟩ := hdiv
  set F := F64.div (F64.ofInt ((Dy * Dx : Nat) : Int)) (F64.ofInt (Q : Int)) with hFdef
  have hF1' : (k : ℚ) ≤ F.toRat := by
    have : ((k * 2 ^ a : Nat) : ℚ) / 2 ^ a = k := by
      push_cast
      rw [mul_div_assoc, div_self hgq.ne', mul_one]
    rw [this] at hF1
    exact hF1
  -- the sum
  have hB2 : (y0 + k + 1) * 2 ^ a - 1 < 2 ^ 53 := by
    have : (y0 + k + 1) * 2 ^ a ≤ 2 ^ b * 2 ^ a := Nat.mul_le_mul_right _ (by omega)
    have : 0 < (y0 + k + 1) * 2 ^ a := by positivity
    omega
  have hBq2 : (((y0 + k + 1) * 2 ^ a - 1 : Nat) : ℚ) = ((y0 : ℚ) + k + 1) * 2 ^ a - 1 := by
    have : 1 ≤ (y0 + k + 1) * 2 ^ a := by
      have : 0 < (y0 + k + 1) * 2 ^ a := by positivity
      omega
    rw [Nat.cast_sub this]
    push_cast
    ring
  have hF2' : F.toRat ≤ ((k : ℚ) + 1) - 1 / 2 ^ a := by
    rw [hBq] at hF2
    have : (((k : ℚ) + 1) * 2 ^ a - 1) / 2 ^ a = ((k : ℚ) + 1) - 1 / 2 ^ a := by
      field_simp
    rw [this] at hF2
    exact hF2
  have hadd := F64.add_bracket (F64.ofInt (y0 : Int)) F hYm hFm a ((y0 + k) * 2 ^ a)
    ((y0 + k + 1) * 2 ^ a - 1) hB2
    (by
      rw [hYv]
      push_cast
      rw [mul_div_assoc, div_self hgq.ne', mul_one]
      linarith)
    (by
      rw [hYv, hBq2]
      have : (((y0 : ℚ) + k + 1) * 2 ^ a - 1) / 2 ^ a = ((y0 : ℚ) + k + 1) - 1 / 2 ^ a := by
        field_simp
      rw [this]
      linarith)
  obtain ⟨hS1, hS2, hSm⟩ := hadd
  have hS1' : ((y0 + k : Nat) : ℚ) ≤ (F64.add (F64.ofInt (y0 : Int)) F).toRat := by
    have : (((y0 + k) * 2 ^ a : Nat) : ℚ) / 2 ^ a = ((y0 + k : Nat) : ℚ) := by
      push_cast
      rw [mul_div_assoc, div_self hgq.ne', mul_one]
    rw [this] at hS1
    exact hS1
  have hS2' : (F64.add (F64.ofInt (y0 : Int)) F).toRat < ((y0 + k : Nat) : ℚ) + 1 := by
    rw [hBq2] at hS2
    have : (((y0 : ℚ) + k + 1) * 2 ^ a - 1) / 2 ^ a = ((y0 : ℚ) + k + 1) - 1 / 2 ^ a := by
      field_simp
    rw [this] at hS2
    have hpos : (0 : ℚ) < 1 / 2 ^ a := by positivity
    push_cast
    linarith
  have hti := F64.toInt_of_bracket _ hSm (y0 + k) hS1' hS2'
  unfold F64.toU64
  rw [hti, u64_of_lt _ (by omega), hk, hDy, hDx, hQ]

theorem devmodel_scan_eq (l : List dev_model_entry) (slo : Nat) :
    ∀ i : Nat, i ≤ l.length → (∀ j, j < i → (l.getD j ⟨0, 0, 0⟩).p95_tail_latency ≤ slo) →
      (i < l.length → slo < (l.getD i ⟨0, 0, 0⟩).p95_tail_latency) → devmodel_scan l slo = i := by
  induction l with
  | nil =>
    intro i hi _ _
    simp only [List.length_nil, Nat.le_zero] at hi
    rw [hi]
    rfl
  | cons d rest ih =>
    intro i hi hbefore hat
    unfold devmodel_scan
    by_cases hlt : slo < d.p95_tail_latency
    · rw [if_pos hlt]
      rcases Nat.eq_zero_or_pos i with h0 | hp
      · exact h0.symm
      · have := hbefore 0 hp
        simp only [List.getD_cons_zero] at this
        omega
    · rw [if_neg hlt]
      rcases Nat.eq_zero_or_pos i with h0 | hp
      · subst h0
        have := hat (by simp)
        simp only [List.getD_cons_zero] at this
        omega
      · obtain ⟨i', rfl⟩ : ∃ i', i = i' + 1 := ⟨i - 1, by omega⟩
        rw [ih i' (by simpa using hi)
          (fun j hj => by simpa using hbefore (j + 1) (by omega))
          (fun h => by simpa using hat (by simpa using h))]

theorem Cfg.dev_rel (cfg : Cfg) (R : dev_model_entry → dev_model_entry → Prop)
    (h : cfg.dev_model.Pairwise R) (j k : Nat) (hjk : j < k) (hk : k < cfg.dev_model_size) :
    R (cfg.dev j) (cfg.dev k) := by
  unfold Cfg.dev_model_size at hk
  unfold Cfg.dev
  rw [List.getD_eq_getElem _ _ (by omega), List.getD_eq_getElem _ _ hk]
  exact List.pairwise_iff_getElem.mp h j k (by omega) hk hjk

theorem Cfg.dev_mem (cfg : Cfg) (j : Nat) (hj : j < cfg.dev_model_size) :
    cfg.dev j ∈ cfg.dev_model := by
  unfold Cfg.dev_model_size at hj
  unfold Cfg.dev
  rw [List.getD_eq_getElem _ _ hj]
  exact List.getElem_mem hj

theorem find_token_limit_at_index (cfg : Cfg) (flag : Bool) (a b : Nat) (hab : a + b ≤ 53)
    (hsorted : cfg.dev_model.Pairwise (fun p q => p.p95_tail_latency < q.p95_tail_latency ∧
      p.token_rate_limit ≤ q.token_rate_limit ∧
      p.token_rdonly_rate_limit ≤ q.token_rdonly_rate_limit))
    (hbound : ∀ d ∈ cfg.dev_model, d.p95_tail_latency < 2 ^ a ∧ d.token_rate_limit < 2 ^ b ∧
      d.token_rdonly_rate_limit < 2 ^ b)
    (slo i : Nat) (hi : i ≤ cfg.dev_model_size)
    (hbefore : ∀ j, j < i → (cfg.dev j).p95_tail_latency ≤ slo)
    (hat : i < cfg.dev_model_size → slo < (cfg.dev i).p95_tail_latency) :
    find_token_limit_from_devmodel cfg flag slo =
      if i = 0 then (cfg.dev 0).rate flag
      else if i = cfg.dev_model_size then (cfg.dev (cfg.dev_model_size - 1)).rate flag
      else (cfg.dev (i - 1)).rate flag
        + ((cfg.dev i).rate flag - (cfg.dev (i - 1)).rate flag)
          * (slo - (cfg.dev (i - 1)).p95_tail_latency)
          / ((cfg.dev i).p95_tail_latency - (cfg.dev (i - 1)).p95_tail_latency) := by
  have hscan : devmodel_scan cfg.dev_model slo = i := devmodel_scan_eq cfg.dev_model slo i hi hbefore hat
  unfold find_token_limit_from_devmodel
  simp only [hscan]
  rcases Nat.eq_zero_or_pos i with h0 | hp
  · subst h0
    cases flag <;> simp [dev_model_entry.rate]
  · have hi0 : i ≠ 0 := by omega
    have hgt : i > 0 := hp
    simp only [hgt, if_true, hi0, if_false]
    by_cases hsz : i = cfg.dev_model_size
    · simp only [hsz, if_true]
      cases flag <;> simp [dev_model_entry.rate]
    · simp only [hsz, if_false]
      have hlt : i < cfg.dev_model_size := by omega
      have hrel := Cfg.dev_rel cfg _ hsorted (i - 1) i (by omega) hlt
      have hb1 := hbound _ (Cfg.dev_mem cfg i hlt)
      have hx0 := hbefore (i - 1) (by omega)
      have hx1 := hat hlt
      cases flag
      · simp only [dev_model_entry.rate, Bool.false_eq_true, if_false]
        exact interpolate_exact a b hab _ _ _ _ _ hrel.2.1 hb1.2.1 hx0 hx1 hb1.1
      · simp only [dev_model_entry.rate, if_true]
        exact interpolate_exact a b hab _ _ _ _ _ hrel.2.2 hb1.2.2 hx0 hx1 hb1.1

theorem devmodel_scan_props (l : List dev_model_entry) (slo : Nat) :
    devmodel_scan l slo ≤ l.length ∧
      (∀ j, j < devmodel_scan l slo → (l.getD j ⟨0, 0, 0⟩).p95_tail_latency ≤ slo) ∧
      (devmodel_scan l slo < l.length →
        slo < (l.getD (devmodel_scan l slo) ⟨0, 0, 0⟩).p95_tail_latency) := by
  induction l with
  | nil => simp [devmodel_scan]
  | cons d rest ih =>
    unfold devmodel_scan
    by_cases hlt : slo < d.p95_tail_latency
    · simp [hlt]
    · simp only [hlt, if_false, List.length_cons, List.getD_cons_succ]
      obtain ⟨h1, h2, h3⟩ := ih
      refine ⟨by omega, ?_, fun h => h3 (by omega)⟩
      intro j hj
      rcases Nat.eq_zero_or_pos j with h0 | hp
      · subst h0
        simp only [List.getD_cons_zero]
        omega
      · obtain ⟨j', rfl⟩ : ∃ j', j = j' + 1 := ⟨j - 1, by omega⟩
        simp only [List.getD_cons_succ]
        exact h2 j' (by omega)

/-- The two `assert(x1-x0 != 0)` of `find_token_limit_from_devmodel` never fail, for any
table whose latencies fit in 64 bits (sorted or not). -/
theorem devmodel_assert_holds (cfg : Cfg) (lat_SLO : Nat)
    (h64 : ∀ d ∈ cfg.dev_model, d.p95_tail_latency < 2 ^ 64) : devmodel_assert cfg lat_SLO := by
  intro hpos hne
  obtain ⟨h1, h2, h3⟩ := devmodel_scan_props cfg.dev_model lat_SLO
  have hlt : devmodel_scan cfg.dev_model lat_SLO < cfg.dev_model.length := by
    unfold Cfg.dev_model_size at hne
    omega
  have hx1 := h3 hlt
  have hx0 := h2 (devmodel_scan cfg.dev_model lat_SLO - 1) (by omega)
  have hb := h64 _ (Cfg.dev_mem cfg _ hlt)
  unfold Cfg.dev at hb ⊢
  rw [u64_sub_of_le _ _ (by omega) hb]
  omega

/-- C5. On a non-empty calibration table with strictly increasing p95 latencies and
non-decreasing rates (latencies below `2 ^ a`, rates below `2 ^ b`, `a + b ≤ 53`, so that
the `double` arithmetic is exact enough), for `i` the smallest index whose latency exceeds
`slo` (`i = dev_model_size` if none) `find_token_limit_from_devmodel` returns the rate of
`dev_model[0]` when `i = 0`, of the last point when `i = dev_model_size`, and otherwise
the truncated linear interpolation between points `i - 1` and `i`, in the read-only
column when `global_readonly_flag` is set and in the mixed column otherwise; at a
calibration latency it returns that point's rate. -/
theorem find_token_limit_from_devmodel_interpolates (cfg : Cfg) (flag : Bool) (a b : Nat)
    (hab : a + b ≤ 53) (_hne : cfg.dev_model ≠ [])
    (hsorted : cfg.dev_model.Pairwise (fun p q => p.p95_tail_latency < q.p95_tail_latency ∧
      p.token_rate_limit ≤ q.token_rate_limit ∧
      p.token_rdonly_rate_limit ≤ q.token_rdonly_rate_limit))
    (hbound : ∀ d ∈ cfg.dev_model, d.p95_tail_latency < 2 ^ a ∧ d.token_rate_limit < 2 ^ b ∧
      d.token_rdonly_rate_limit < 2 ^ b) :
    (∀ slo i : Nat, i ≤ cfg.dev_model_size →
      (∀ j, j < i → (cfg.dev j).p95_tail_latency ≤ slo) →
      (i < cfg.dev_model_size → slo < (cfg.dev i).p95_tail_latency) →
      find_token_limit_from_devmodel cfg flag slo =
        if i = 0 then (cfg.dev 0).rate flag
        else if i = cfg.dev_model_size then (cfg.dev (cfg.dev_model_size - 1)).rate flag
        else (cfg.dev (i - 1)).rate flag
          + ((cfg.dev i).rate flag - (cfg.dev (i - 1)).rate flag)
            * (slo - (cfg.dev (i - 1)).p95_tail_latency)
            / ((cfg.dev i).p95_tail_latency - (cfg.dev (i - 1)).p95_tail_latency)) ∧
    (∀ j : Nat, j < cfg.dev_model_size →
      find_token_limit_from_devmodel cfg flag (cfg.dev j).p95_tail_latency
        = (cfg.dev j).rate flag) := by
  refine ⟨fun slo i hi hbefore hat =>
    find_token_limit_at_index cfg flag a b hab hsorted hbound slo i hi hbefore hat, ?_⟩
  intro j hj
  have hbefore : ∀ j', j' < j + 1 →
      (cfg.dev j').p95_tail_latency ≤ (cfg.dev j).p95_tail_latency := by
    intro j' hj'
    rcases Nat.lt_or_ge j' j with h | h
    · exact (Cfg.dev_rel cfg _ hsorted j' j h hj).1.le
    · have : j' = j := by omega
      rw [this]
  have hat : j + 1 < cfg.dev_model_size →
      (cfg.dev j).p95_tail_latency < (cfg.dev (j + 1)).p95_tail_latency :=
    fun h => (Cfg.dev_rel cfg _ hsorted j (j + 1) (by omega) h).1
  rw [find_token_limit_at_index cfg flag a b hab hsorted hbound _ (j + 1) (by omega) hbefore hat]
  by_cases hsz : j + 1 = cfg.dev_model_size
  · rw [if_neg (by omega), if_pos hsz]
    have : cfg.dev_model_size - 1 = j := by omega
    rw [this]
  · rw [if_neg (by omega), if_neg hsz]
    simp

/-- The two-point table of `Scenario.cfg_table`: at 550 us the read-only rate is
interpolated to 550000. -/
theorem find_token_limit_from_devmodel_interpolates_witness :
    ((21 + 32 ≤ 53) ∧ Scenario.cfg_table.dev_model ≠ [] ∧
      Scenario.cfg_table.dev_model.Pairwise
        (fun p q => p.p95_tail_latency < q.p95_tail_latency ∧
          p.token_rate_limit ≤ q.token_rate_limit ∧
          p.token_rdonly_rate_limit ≤ q.token_rdonly_rate_limit) ∧
      (∀ d ∈ Scenario.cfg_table.dev_model, d.p95_tail_latency < 2 ^ 21 ∧
        d.token_rate_limit < 2 ^ 32 ∧ d.token_rdonly_rate_limit < 2 ^ 32)) ∧
    find_token_limit_from_devmodel Scenario.cfg_table true 550 = 550000 :=
  ⟨⟨by decide, by decide, by decide, by decide⟩,
    ((find_token_limit_from_devmodel_interpolates Scenario.cfg_table true 21 32 (by decide)
      (by decide) (by decide) (by decide)).1 550 1 (by decide)
      (by decide) (by decide)).trans (by decide)⟩

/-! ## Request cost -/

theorem ceil_div_4096 (bytes : Nat) : ⌈(bytes : ℚ) / 4096⌉₊ = (bytes + 4095) / 4096 := by
  apply le_antisymm
  · rw [Nat.ceil_le, div_le_iff₀ (by norm_num)]
    have : bytes ≤ (bytes + 4095) / 4096 * 4096 := by omega
    exact_mod_cast this
  · by_contra hcon
    push_neg at hcon
    have h1 : ((bytes : ℚ) / 4096) ≤ (⌈(bytes : ℚ) / 4096⌉₊ : ℚ) := Nat.le_ceil _
    rw [div_le_iff₀ (by norm_num)] at h1
    have h2 : bytes ≤ ⌈(bytes : ℚ) / 4096⌉₊ * 4096 := by exact_mod_cast h1
    omega

theorem i32_of_range (n : Int) (h0 : -2147483648 ≤ n) (h1 : n < 2147483648) : i32 n = n := by
  unfold i32
  omega

theorem u64_of_lt_lit (n : Nat) (h : n < 18446744073709551616) : u64 (n : Int) = n := by
  unfold u64
  omega

theorem req_cost_body (base : Int) (bytes : Nat) (hbase : 0 ≤ base)
    (hfit : base * ((max 1 ((bytes + 4095) / 4096) : Nat) : Int) < 2147483648) :
    (if bytes ≤ 0 then (0 : Int) else
      i32 (base * (if bytes > 4096
        then i32 ((u64 ((bytes : Int) + 4096 - 1) / 4096 : Nat) : Int) else 1)))
      = if bytes = 0 then 0 else base * ((max 1 ((bytes + 4095) / 4096) : Nat) : Int) := by
  by_cases hz : bytes = 0
  · simp [hz]
  · have hz' : ¬ bytes ≤ 0 := by omega
    rw [if_neg hz', if_neg hz]
    by_cases hbig : bytes > 4096
    · rw [if_pos hbig]
      have hmax : max 1 ((bytes + 4095) / 4096) = (bytes + 4095) / 4096 := by omega
      rw [hmax] at hfit ⊢
      rcases eq_or_lt_of_le hbase with hb0 | hbpos
      · rw [← hb0]
        simp [i32]
      · obtain ⟨c, hc⟩ : ∃ c : Nat, c = (bytes + 4095) / 4096 := ⟨_, rfl⟩
        rw [← hc] at hfit ⊢
        have hclt : (c : Int) < 2147483648 := by
          by_contra hcon
          push_neg at hcon
          have : (1 : Int) * 2147483648 ≤ base * (c : Int) :=
            mul_le_mul (by omega) hcon (by norm_num) hbase
          omega
        have hu : u64 ((bytes : Int) + 4096 - 1) = bytes + 4095 := by
          unfold u64
          omega
        rw [hu, ← hc, i32_of_range _ (by omega) hclt]
        have hnn : 0 ≤ base * (c : Int) := mul_nonneg hbase (by omega)
        exact i32_of_range _ (by omega) hfit
    · rw [if_neg hbig]
      have hmax : max 1 ((bytes + 4095) / 4096) = 1 := by omega
      rw [hmax] at hfit ⊢
      simp only [Nat.cast_one, mul_one] at hfit ⊢
      exact i32_of_range _ (by omega) hfit

theorem nvme_compute_req_cost_formula (cfg : Cfg) (op : nvme_cmd) (base : Int) (bytes : Nat)
    (hop : (op = nvme_cmd.NVME_CMD_READ ∧ base = cfg.NVME_READ_COST) ∨
      (op = nvme_cmd.NVME_CMD_WRITE ∧ base = cfg.NVME_WRITE_COST))
    (hbase : 0 ≤ base)
    (hfit : base * ((max 1 ⌈(bytes : ℚ) / 4096⌉₊ : Nat) : Int) < 2147483648) :
    nvme_compute_req_cost cfg op bytes
      = if bytes = 0 then 0 else base * ((max 1 ⌈(bytes : ℚ) / 4096⌉₊ : Nat) : Int) := by
  rw [ceil_div_4096] at hfit ⊢
  rw [← req_cost_body base bytes hbase hfit]
  unfold nvme_compute_req_cost
  rcases hop with ⟨h1, h2⟩ | ⟨h1, h2⟩
  · subst h1 h2
    split_ifs <;> rfl
  · subst h1 h2
    split_ifs <;> rfl

/-- C4. With non-negative base costs `NVME_READ_COST` and `NVME_WRITE_COST`, for `READ`
and `WRITE` and every byte length whose cost fits the `int` result,
`nvme_compute_req_cost` is `base * max 1 ⌈bytes / 4096⌉` for `bytes > 0` and 0 for
`bytes = 0`; in particular `cost(READ, 4096) = base_read`,
`cost(READ, 4097) = 2 * base_read` and `cost(WRITE, 16384) = 4 * base_write`. -/
theorem nvme_compute_req_cost_eq (cfg : Cfg) (hr : 0 ≤ cfg.NVME_READ_COST)
    (hw : 0 ≤ cfg.NVME_WRITE_COST) :
    (∀ (op : nvme_cmd) (base : Int) (bytes : Nat),
      ((op = nvme_cmd.NVME_CMD_READ ∧ base = cfg.NVME_READ_COST) ∨
        (op = nvme_cmd.NVME_CMD_WRITE ∧ base = cfg.NVME_WRITE_COST)) →
      base * ((max 1 ⌈(bytes : ℚ) / 4096⌉₊ : Nat) : Int) < 2147483648 →
      nvme_compute_req_cost cfg op bytes
        = if bytes = 0 then 0 else base * ((max 1 ⌈(bytes : ℚ) / 4096⌉₊ : Nat) : Int)) ∧
    (cfg.NVME_READ_COST < 2147483648 →
      nvme_compute_req_cost cfg nvme_cmd.NVME_CMD_READ 4096 = cfg.NVME_READ_COST) ∧
    (2 * cfg.NVME_READ_COST < 2147483648 →
      nvme_compute_req_cost cfg nvme_cmd.NVME_CMD_READ 4097 = 2 * cfg.NVME_READ_COST) ∧
    (4 * cfg.NVME_WRITE_COST < 2147483648 →
      nvme_compute_req_cost cfg nvme_cmd.NVME_CMD_WRITE 16384 = 4 * cfg.NVME_WRITE_COST) := by
  have c1 : max 1 ⌈((4096 : Nat) : ℚ) / 4096⌉₊ = 1 := by rw [ceil_div_4096]; decide
  have c2 : max 1 ⌈((4097 : Nat) : ℚ) / 4096⌉₊ = 2 := by rw [ceil_div_4096]; decide
  have c3 : max 1 ⌈((16384 : Nat) : ℚ) / 4096⌉₊ = 4 := by rw [ceil_div_4096]; decide
  refine ⟨?_, ?_, ?_, ?_⟩
  · intro op base bytes hop hfit
    have hbase : 0 ≤ base := by
      rcases hop with ⟨_, h⟩ | ⟨_, h⟩ <;> rw [h] <;> assumption
    exact nvme_compute_req_cost_formula cfg op base bytes hop hbase hfit
  · intro h
    have := nvme_compute_req_cost_formula cfg nvme_cmd.NVME_CMD_READ _ 4096
      (Or.inl ⟨rfl, rfl⟩) hr (by rw [c1]; simpa using h)
    rw [c1] at this
    simpa using this
  · intro h
    have := nvme_compute_req_cost_formula cfg nvme_cmd.NVME_CMD_READ _ 4097
      (Or.inl ⟨rfl, rfl⟩) hr (by rw [c2]; push_cast; omega)
    rw [c2] at this
    rw [this, if_neg (by decide)]
    push_cast
    ring
  · intro h
    have := nvme_compute_req_cost_formula cfg nvme_cmd.NVME_CMD_WRITE _ 16384
      (Or.inr ⟨rfl, rfl⟩) hw (by rw [c3]; push_cast; omega)
    rw [c3] at this
    rw [this, if_neg (by decide)]
    push_cast
    ring

/-- The cost scaling scenario at read cost 10 and write cost 20: a 4097-byte read
costs 20. -/
theorem nvme_compute_req_cost_eq_witness :
    ((0 : Int) ≤ (⟨4, 10, 20, DevModelKind.DEFAULT_FLASH, []⟩ : Cfg).NVME_READ_COST ∧
      (0 : Int) ≤ (⟨4, 10, 20, DevModelKind.DEFAULT_FLASH, []⟩ : Cfg).NVME_WRITE_COST) ∧
    nvme_compute_req_cost ⟨4, 10, 20, DevModelKind.DEFAULT_FLASH, []⟩ nvme_cmd.NVME_CMD_READ 4097
      = 2 * 10 :=
  ⟨⟨by decide, by decide⟩,
    (nvme_compute_req_cost_eq ⟨4, 10, 20, DevModelKind.DEFAULT_FLASH, []⟩ (by decide)
      (by decide)).2.2.1 (by decide)⟩

/-! ## Admission control: frame lemmas -/

theorem readjust_loop_frame (l : List Nat) : ∀ (s : State) (j : Nat),
    (readjust_loop s l j).nvme_fgs_bitmap = s.nvme_fgs_bitmap ∧
    (readjust_loop s l j).global_token_rate = s.global_token_rate ∧
    (readjust_loop s l j).global_LC_sum_token_rate = s.global_LC_sum_token_rate ∧
    (readjust_loop s l j).global_num_best_effort_tenants = s.global_num_best_effort_tenants ∧
    (readjust_loop s l j).global_num_lc_tenants = s.global_num_lc_tenants ∧
    (readjust_loop s l j).global_be_token_rate_per_tenant = s.global_be_token_rate_per_tenant ∧
    (readjust_loop s l j).global_lc_boost_no_BE = s.global_lc_boost_no_BE ∧
    (readjust_loop s l j).global_readonly_flag = s.global_readonly_flag ∧
    (readjust_loop s l j).percpu = s.percpu := by
  induction l with
  | nil => intro s j; simp [readjust_loop]
  | cons i rest ih =>
    intro s j
    unfold readjust_loop
    split_ifs with h1 h2
    · simp
    · simpa using ih _ (j + 1)
    · exact ih s j

theorem recalculate_weights_add_tail_frame (cfg : Cfg) (s : State) :
    (recalculate_weights_add_tail cfg s).nvme_fgs_bitmap = s.nvme_fgs_bitmap ∧
    (recalculate_weights_add_tail cfg s).global_token_rate = s.global_token_rate ∧
    (recalculate_weights_add_tail cfg s).global_LC_sum_token_rate = s.global_LC_sum_token_rate ∧
    (recalculate_weights_add_tail cfg s).global_num_best_effort_tenants
      = s.global_num_best_effort_tenants ∧
    (recalculate_weights_add_tail cfg s).global_num_lc_tenants = s.global_num_lc_tenants ∧
    (recalculate_weights_add_tail cfg s).global_readonly_flag = s.global_readonly_flag ∧
    (recalculate_weights_add_tail cfg s).percpu = s.percpu := by
  unfold recalculate_weights_add_tail readjust_lc_tenant_token_limits
  simp only
  split_ifs with h
  · obtain ⟨h1, h2, h3, h4, h5, _, _, h8, h9⟩ := readjust_loop_frame
      (List.range cfg.MAX_NVME_FLOW_GROUPS)
      { s with
        global_be_token_rate_per_tenant := be_token_rate_per_tenant s
        global_lc_boost_no_BE := lc_token_rate_boost_when_no_BE s } 0
    exact ⟨h1, h2, h3, h4, h5, h8, h9⟩
  · simp

/-- For every state and every slot holding a latency-critical tenant `t`,
`recalculate_weights_add` returns `-RET_CANTMEETSLO` exactly when
`global_LC_sum_token_rate + t.scaled_IOPS_limit` (an `unsigned long` sum) exceeds the
minimum of `global_token_rate` and `lookup_device_token_rate(t.latency_us_SLO)` (looked up
with the read-only flag the add leaves: cleared when `t.rw_ratio_SLO < 100`); otherwise
it returns 1 and commits that minimum, that sum and `global_num_lc_tenants + 1`. -/
theorem recalculate_weights_add_lc_u64 (cfg : Cfg) (s : State) (idx : Nat)
    (hlc : (s.nvme_fgs idx).latency_critical_flag = true) :
    ((recalculate_weights_add cfg s idx).1 = weights_ret.neg_RET_CANTMEETSLO ↔
      u64 ((s.global_LC_sum_token_rate : Int) + (s.nvme_fgs idx).scaled_IOPS_limit)
        > min s.global_token_rate
            (lookup_device_token_rate cfg
              (s.global_readonly_flag && decide (¬ (s.nvme_fgs idx).rw_ratio_SLO < 100))
              (s.nvme_fgs idx).latency_us_SLO)) ∧
    (¬ u64 ((s.global_LC_sum_token_rate : Int) + (s.nvme_fgs idx).scaled_IOPS_limit)
        > min s.global_token_rate
            (lookup_device_token_rate cfg
              (s.global_readonly_flag && decide (¬ (s.nvme_fgs idx).rw_ratio_SLO < 100))
              (s.nvme_fgs idx).latency_us_SLO) →
      (recalculate_weights_add cfg s idx).1 = weights_ret.one ∧
      (recalculate_weights_add cfg s idx).2.global_token_rate
        = min s.global_token_rate
            (lookup_device_token_rate cfg
              (s.global_readonly_flag && decide (¬ (s.nvme_fgs idx).rw_ratio_SLO < 100))
              (s.nvme_fgs idx).latency_us_SLO) ∧
      (recalculate_weights_add cfg s idx).2.global_LC_sum_token_rate
        = u64 ((s.global_LC_sum_token_rate : Int) + (s.nvme_fgs idx).scaled_IOPS_limit) ∧
      (recalculate_weights_add cfg s idx).2.global_num_lc_tenants
        = u64 ((s.global_num_lc_tenants : Int) + 1)) := by
  have hflag : (if (s.nvme_fgs idx).rw_ratio_SLO < 100
        then ({ s with global_readonly_flag := false } : State) else s).global_readonly_flag
      = (s.global_readonly_flag && decide (¬ (s.nvme_fgs idx).rw_ratio_SLO < 100)) := by
    split_ifs with h <;> simp [h]
  have hrate : (if (s.nvme_fgs idx).rw_ratio_SLO < 100
        then ({ s with global_readonly_flag := false } : State) else s).global_token_rate
      = s.global_token_rate := by
    split_ifs <;> rfl
  have hnum : (if (s.nvme_fgs idx).rw_ratio_SLO < 100
        then ({ s with global_readonly_flag := false } : State) else s).global_num_lc_tenants
      = s.global_num_lc_tenants := by
    split_ifs <;> rfl
  have hmin : ∀ x y : Nat, (if x > y then y else x) = min y x := by
    intro x y
    rw [Nat.min_def]
    split_ifs <;> omega
  unfold recalculate_weights_add
  simp only [hlc, if_true, hflag, hrate, hnum, hmin]
  constructor
  · by_cases h : u64 ((s.global_LC_sum_token_rate : Int) + (s.nvme_fgs idx).scaled_IOPS_limit)
        > min s.global_token_rate
            (lookup_device_token_rate cfg
              (s.global_readonly_flag && decide (¬ (s.nvme_fgs idx).rw_ratio_SLO < 100))
              (s.nvme_fgs idx).latency_us_SLO)
    · rw [if_pos h]
      exact ⟨fun _ => h, fun _ => rfl⟩
    · rw [if_neg h]
      exact ⟨fun hh => (by cases hh), fun hh => absurd hh h⟩
  · intro hno
    rw [if_neg hno]
    refine ⟨rfl, ?_, ?_, ?_⟩
    · rw [(recalculate_weights_add_tail_frame cfg _).2.1]
    · rw [(recalculate_weights_add_tail_frame cfg _).2.2.1]
    · rw [(recalculate_weights_add_tail_frame cfg _).2.2.2.2.1]

/-- C1. For every state and every slot holding a latency-critical tenant `t` for which
`global_LC_sum_token_rate + t.scaled_IOPS_limit` and `global_num_lc_tenants + 1` are below
`2 ^ 64` (the `unsigned long` sums of the code do not wrap), `recalculate_weights_add`
returns `-RET_CANTMEETSLO` exactly when `global_LC_sum_token_rate + t.scaled_IOPS_limit`
exceeds the minimum of `global_token_rate` and
`lookup_device_token_rate(t.latency_us_SLO)` (looked up with the read-only flag the add
leaves: cleared when `t.rw_ratio_SLO < 100`); otherwise it returns 1 and commits that
minimum, that sum and `global_num_lc_tenants + 1`. -/
theorem recalculate_weights_add_lc (cfg : Cfg) (s : State) (idx : Nat)
    (hlc : (s.nvme_fgs idx).latency_critical_flag = true)
    (hsum : s.global_LC_sum_token_rate + (s.nvme_fgs idx).scaled_IOPS_limit < 2 ^ 64)
    (hnum : s.global_num_lc_tenants + 1 < 2 ^ 64) :
    ((recalculate_weights_add cfg s idx).1 = weights_ret.neg_RET_CANTMEETSLO ↔
      s.global_LC_sum_token_rate + (s.nvme_fgs idx).scaled_IOPS_limit
        > min s.global_token_rate
            (lookup_device_token_rate cfg
              (s.global_readonly_flag && decide (¬ (s.nvme_fgs idx).rw_ratio_SLO < 100))
              (s.nvme_fgs idx).latency_us_SLO)) ∧
    (¬ s.global_LC_sum_token_rate + (s.nvme_fgs idx).scaled_IOPS_limit
        > min s.global_token_rate
            (lookup_device_token_rate cfg
              (s.global_readonly_flag && decide (¬ (s.nvme_fgs idx).rw_ratio_SLO < 100))
              (s.nvme_fgs idx).latency_us_SLO) →
      (recalculate_weights_add cfg s idx).1 = weights_ret.one ∧
      (recalculate_weights_add cfg s idx).2.global_token_rate
        = min s.global_token_rate
            (lookup_device_token_rate cfg
              (s.global_readonly_flag && decide (¬ (s.nvme_fgs idx).rw_ratio_SLO < 100))
              (s.nvme_fgs idx).latency_us_SLO) ∧
      (recalculate_weights_add cfg s idx).2.global_LC_sum_token_rate
        = s.global_LC_sum_token_rate + (s.nvme_fgs idx).scaled_IOPS_limit ∧
      (recalculate_weights_add cfg s idx).2.global_num_lc_tenants
        = s.global_num_lc_tenants + 1) := by
  have e1 : u64 ((s.global_LC_sum_token_rate : Int) + (s.nvme_fgs idx).scaled_IOPS_limit)
      = s.global_LC_sum_token_rate + (s.nvme_fgs idx).scaled_IOPS_limit := by
    have := u64_of_lt (s.global_LC_sum_token_rate + (s.nvme_fgs idx).scaled_IOPS_limit) hsum
    rw [← this]
    push_cast
    rfl
  have e2 : u64 ((s.global_num_lc_tenants : Int) + 1) = s.global_num_lc_tenants + 1 := by
    have := u64_of_lt (s.global_num_lc_tenants + 1) hnum
    rw [← this]
    push_cast
    rfl
  have h := recalculate_weights_add_lc_u64 cfg s idx hlc
  rw [e1, e2] at h
  exact h

/-! ## What admission does guarantee -/

theorem recalculate_weights_add_be (cfg : Cfg) (s : State) (idx : Nat)
    (hbe : (s.nvme_fgs idx).latency_critical_flag = false) :
    recalculate_weights_add cfg s idx
      = (weights_ret.one, recalculate_weights_add_tail cfg
          { s with
            global_num_best_effort_tenants := u64 ((s.global_num_best_effort_tenants : Int) + 1)
            global_readonly_flag := false }) := by
  unfold recalculate_weights_add
  simp [hbe]

/-- A rejected add changes nothing but `global_readonly_flag`, which it clears when the
tenant has `rw_ratio_SLO < 100`. -/
theorem recalculate_weights_add_rejected (cfg : Cfg) (s : State) (idx : Nat)
    (h : (recalculate_weights_add cfg s idx).1 = weights_ret.neg_RET_CANTMEETSLO) :
    (recalculate_weights_add cfg s idx).2
      = { s with global_readonly_flag :=
            s.global_readonly_flag && decide (¬ (s.nvme_fgs idx).rw_ratio_SLO < 100) } := by
  by_cases hlc : (s.nvme_fgs idx).latency_critical_flag = true
  · unfold recalculate_weights_add at h ⊢
    by_cases hrw : (s.nvme_fgs idx).rw_ratio_SLO < 100
    · simp only [hlc, hrw, if_true] at h ⊢
      split_ifs at h ⊢ with h1
      all_goals first
        | (cases h; done)
        | (cases s; simp)
    · simp only [hlc, hrw, if_true, if_false] at h ⊢
      split_ifs at h ⊢ with h1
      all_goals first
        | (cases h; done)
        | (cases s; simp)
  · rw [recalculate_weights_add_be cfg s idx (by simpa using hlc)] at h
    cases h

/-- Every add leaves `global_LC_sum_token_rate ≤ global_token_rate` if it held before;
an accepted latency-critical add establishes it. -/
theorem recalculate_weights_add_bound (cfg : Cfg) (s : State) (idx : Nat)
    (h : s.global_LC_sum_token_rate ≤ s.global_token_rate) :
    (recalculate_weights_add cfg s idx).2.global_LC_sum_token_rate
      ≤ (recalculate_weights_add cfg s idx).2.global_token_rate := by
  by_cases hlc : (s.nvme_fgs idx).latency_critical_flag = true
  · obtain ⟨h1, h2⟩ := recalculate_weights_add_lc_u64 cfg s idx hlc
    by_cases hrej : (recalculate_weights_add cfg s idx).1 = weights_ret.neg_RET_CANTMEETSLO
    · rw [recalculate_weights_add_rejected cfg s idx hrej]
      exact h
    · obtain ⟨_, h3, h4, _⟩ := h2 (fun hh => hrej (h1.mpr hh))
      rw [h3, h4]
      exact not_lt.mp (fun hh => hrej (h1.mpr hh))
  · rw [recalculate_weights_add_be cfg s idx (by simpa using hlc)]
    rw [(recalculate_weights_add_tail_frame cfg _).2.1,
      (recalculate_weights_add_tail_frame cfg _).2.2.1]
    exact h

theorem set_nvme_flow_group_id_globals (cfg : Cfg) (s : State) (cpu_nr : Nat)
    (flow_group_id : Int) (fg_handle : Nat) :
    (set_nvme_flow_group_id cfg s cpu_nr flow_group_id fg_handle).2.2.global_token_rate
      = s.global_token_rate ∧
    (set_nvme_flow_group_id cfg s cpu_nr flow_group_id fg_handle).2.2.global_LC_sum_token_rate
      = s.global_LC_sum_token_rate := by
  unfold set_nvme_flow_group_id
  split
  · exact ⟨rfl, rfl⟩
  · split_ifs <;> exact ⟨rfl, rfl⟩

/-- A registration leaves `global_LC_sum_token_rate ≤ global_token_rate` if it held
before the call. -/
theorem bsys_nvme_register_flow_bound (cfg : Cfg) (s : State) (cpu_nr : Nat)
    (flow_group_id : Int) (cookie latency_us_SLO IOPS_SLO : Nat) (rw_ratio_SLO : Int)
    (swq_alloc : Bool) (h : s.global_LC_sum_token_rate ≤ s.global_token_rate) :
    (bsys_nvme_register_flow cfg s cpu_nr flow_group_id cookie latency_us_SLO IOPS_SLO
        rw_ratio_SLO swq_alloc).2.global_LC_sum_token_rate
      ≤ (bsys_nvme_register_flow cfg s cpu_nr flow_group_id cookie latency_us_SLO IOPS_SLO
        rw_ratio_SLO swq_alloc).2.global_token_rate := by
  obtain ⟨h1, h2⟩ := set_nvme_flow_group_id_globals cfg s cpu_nr flow_group_id 0
  unfold bsys_nvme_register_flow
  rcases hset : set_nvme_flow_group_id cfg s cpu_nr flow_group_id 0 with ⟨already, fg_handle, s1⟩
  rw [hset] at h1 h2
  simp only at h1 h2 ⊢
  have hs1 : s1.global_LC_sum_token_rate ≤ s1.global_token_rate := by rw [h1, h2]; exact h
  by_cases ha : already = 0
  · rw [if_pos ha]
    generalize (Function.update s1.nvme_fgs fg_handle _) = fgs
    have hb := recalculate_weights_add_bound cfg { s1 with nvme_fgs := fgs } fg_handle hs1
    rcases hadd : recalculate_weights_add cfg { s1 with nvme_fgs := fgs } fg_handle with ⟨r, s3⟩
    rw [hadd] at hb
    cases r
    · simp only
      by_cases hq : swq_alloc = false
      · rw [if_pos hq]
        exact hb
      · rw [if_neg hq]
        exact hb
    · exact hb
  · rw [if_neg ha]
    exact hs1

/-- After any list of registrations `(core, flow id, cookie, latency SLO, IOPS SLO, r/w
ratio, queue allocation succeeds)` from the initial state,
`global_LC_sum_token_rate ≤ global_token_rate`. -/
theorem registrations_keep_bound (cfg : Cfg)
    (calls : List (Nat × Int × Nat × Nat × Nat × Int × Bool)) :
    (calls.foldl (fun s c =>
        (bsys_nvme_register_flow cfg s c.1 c.2.1 c.2.2.1 c.2.2.2.1 c.2.2.2.2.1 c.2.2.2.2.2.1
          c.2.2.2.2.2.2).2) State.init).global_LC_sum_token_rate
      ≤ (calls.foldl (fun s c =>
        (bsys_nvme_register_flow cfg s c.1 c.2.1 c.2.2.1 c.2.2.2.1 c.2.2.2.2.1 c.2.2.2.2.2.1
          c.2.2.2.2.2.2).2) State.init).global_token_rate := by
  have key : ∀ (l : List (Nat × Int × Nat × Nat × Nat × Int × Bool)) (s : State),
      s.global_LC_sum_token_rate ≤ s.global_token_rate →
      (l.foldl (fun s c =>
        (bsys_nvme_register_flow cfg s c.1 c.2.1 c.2.2.1 c.2.2.2.1 c.2.2.2.2.1 c.2.2.2.2.2.1
          c.2.2.2.2.2.2).2) s).global_LC_sum_token_rate
      ≤ (l.foldl (fun s c =>
        (bsys_nvme_register_flow cfg s c.1 c.2.1 c.2.2.1 c.2.2.2.1 c.2.2.2.2.1 c.2.2.2.2.2.1
          c.2.2.2.2.2.2).2) s).global_token_rate := by
    intro l
    induction l with
    | nil => intro s hs; exact hs
    | cons c rest ih =>
      intro s hs
      simp only [List.foldl_cons]
      exact ih _ (bsys_nvme_register_flow_bound cfg s _ _ _ _ _ _ _ hs)
  exact key calls State.init (by decide)

/-- Both tails store the two shares they compute. -/
theorem recalculate_weights_tails_store (cfg : Cfg) (s : State) :
    ((recalculate_weights_add_tail cfg s).global_be_token_rate_per_tenant
        = be_token_rate_per_tenant s ∧
      (recalculate_weights_add_tail cfg s).global_lc_boost_no_BE
        = lc_token_rate_boost_when_no_BE s) ∧
    ((recalculate_weights_remove_tail cfg s).global_be_token_rate_per_tenant
        = be_token_rate_per_tenant s ∧
      (recalculate_weights_remove_tail cfg s).global_lc_boost_no_BE
        = lc_token_rate_boost_when_no_BE s) := by
  unfold recalculate_weights_add_tail recalculate_weights_remove_tail
    readjust_lc_tenant_token_limits
  simp only
  refine ⟨?_, ?_⟩
  · by_cases hb : lc_token_rate_boost_when_no_BE s ≠ s.global_lc_boost_no_BE
    · rw [if_pos hb]
      obtain ⟨_, _, _, _, _, h6, h7, _, _⟩ := readjust_loop_frame
        (List.range cfg.MAX_NVME_FLOW_GROUPS)
        { s with
          global_be_token_rate_per_tenant := be_token_rate_per_tenant s
          global_lc_boost_no_BE := lc_token_rate_boost_when_no_BE s } 0
      exact ⟨h6, h7⟩
    · rw [if_neg hb]
      exact ⟨rfl, (not_not.mp hb).symm⟩
  · have hboost : (if s.global_num_best_effort_tenants ≠ 0
          then ({ s with global_readonly_flag := false } : State) else s).global_lc_boost_no_BE
        = s.global_lc_boost_no_BE := by
      split_ifs <;> rfl
    by_cases hb : lc_token_rate_boost_when_no_BE s ≠ s.global_lc_boost_no_BE
    · rw [if_pos (by rw [hboost]; exact hb)]
      obtain ⟨_, _, _, _, _, h6, h7, _, _⟩ := readjust_loop_frame
        (List.range cfg.MAX_NVME_FLOW_GROUPS)
        { (if s.global_num_best_effort_tenants ≠ 0
            then ({ s with global_readonly_flag := false } : State) else s) with
          global_be_token_rate_per_tenant := be_token_rate_per_tenant s
          global_lc_boost_no_BE := lc_token_rate_boost_when_no_BE s } 0
      exact ⟨h6, h7⟩
    · rw [if_neg (by rw [hboost]; exact hb)]
      exact ⟨rfl, by rw [hboost]; exact (not_not.mp hb).symm⟩

/-- While `global_LC_sum_token_rate ≤ global_token_rate < 2 ^ 32` the two shares are the
quotients of the natural-number difference. -/
theorem shares_of_bound (s : State) (h : s.global_LC_sum_token_rate ≤ s.global_token_rate)
    (hr : s.global_token_rate < 4294967296) :
    be_token_rate_per_tenant s
      = (if s.global_num_best_effort_tenants ≠ 0
          then (s.global_token_rate - s.global_LC_sum_token_rate) / s.global_num_best_effort_tenants
          else 0) ∧
    lc_token_rate_boost_when_no_BE s
      = (if s.global_num_best_effort_tenants = 0 ∧ s.global_num_lc_tenants ≠ 0
          then (s.global_token_rate - s.global_LC_sum_token_rate) / s.global_num_lc_tenants
          else 0) := by
  have hsub : u64 ((s.global_token_rate : Int) - s.global_LC_sum_token_rate)
      = s.global_token_rate - s.global_LC_sum_token_rate := by
    unfold u64
    omega
  unfold be_token_rate_per_tenant lc_token_rate_boost_when_no_BE
  rw [hsub]
  constructor
  · split_ifs with hb
    · have hle : (s.global_token_rate - s.global_LC_sum_token_rate)
          / s.global_num_best_effort_tenants ≤ s.global_token_rate :=
        le_trans (Nat.div_le_self _ _) (Nat.sub_le _ _)
      generalize (s.global_token_rate - s.global_LC_sum_token_rate)
        / s.global_num_best_effort_tenants = q at hle ⊢
      unfold u32
      omega
    · rfl
  · by_cases hb : s.global_num_best_effort_tenants = 0
    · by_cases hl : s.global_num_lc_tenants = 0
      · simp [hb, hl]
      · simp [hb, hl]
    · simp [hb]

/-! ## Admission control evaluated on concrete histories -/

set_option maxRecDepth 1000000

/-- C2 (the code at the failing input). With `Scenario.one_lc` registered, registering
flow 2 (50 us, 80000 IOPS, 90% reads) is rejected with `CANTMEETSLO`; the global
rate, reservation sum, tenant counts, best-effort share and boost are unchanged, but the
bitmap bit of slot 2 is now set and `global_readonly_flag` is now false. -/
theorem register_flow_rejected_changes_state :
    (bsys_nvme_register_flow Scenario.cfg_cost3 Scenario.one_lc 0 2 0 50 80000 90 true).1
      = Status.RET_CANTMEETSLO ∧
    (Scenario.one_lc.nvme_fgs_bitmap 2 = false ∧
      (bsys_nvme_register_flow Scenario.cfg_cost3 Scenario.one_lc 0 2 0 50 80000 90 true).2.nvme_fgs_bitmap
        2 = true) ∧
    (Scenario.one_lc.global_readonly_flag = true ∧
      (bsys_nvme_register_flow Scenario.cfg_cost3 Scenario.one_lc 0 2 0 50 80000 90
        true).2.global_readonly_flag = false) := by
  decide

/-- C3 (the code at the failing input). After three accepted latency-critical
registrations and the removal of the second tenant, `global_token_rate` is 300000 while
`global_LC_sum_token_rate` is 400000. -/
theorem remove_breaks_reservation_bound :
    Scenario.three_lc.global_num_lc_tenants = 3 ∧
    Scenario.three_lc_minus_one.global_token_rate = 300000 ∧
    Scenario.three_lc_minus_one.global_LC_sum_token_rate = 400000 ∧
    ¬ Scenario.three_lc_minus_one.global_LC_sum_token_rate
      ≤ Scenario.three_lc_minus_one.global_token_rate := by
  decide

/-- C6 (the code at the failing input). After the history of
`Scenario.three_lc_be_minus_one` one best-effort tenant is registered, the rate is 300000
and the reservation sum 400000; the best-effort share is 4294867296 (the wrapped difference
reduced to 32 bits), not the 0 that subtraction over the naturals gives. -/
theorem be_share_wraps :
    Scenario.three_lc_be_minus_one.global_num_best_effort_tenants = 1 ∧
    Scenario.three_lc_be_minus_one.global_token_rate = 300000 ∧
    Scenario.three_lc_be_minus_one.global_LC_sum_token_rate = 400000 ∧
    Scenario.three_lc_be_minus_one.global_be_token_rate_per_tenant = 4294867296 ∧
    (Scenario.three_lc_be_minus_one.global_token_rate
      - Scenario.three_lc_be_minus_one.global_LC_sum_token_rate)
        / Scenario.three_lc_be_minus_one.global_num_best_effort_tenants = 0 := by
  decide

/-- C7 (the code at the failing input). After the first of two latency-critical tenants
is removed the boost has changed (from 2147482147 to 4294965295), the tenant in slot 2 is
still registered, and its `scaled_IOPuS_limit` is not
`(scaled_IOPS_limit + global_lc_boost_no_BE) / 1E6`. -/
theorem remove_leaves_stale_rate :
    Scenario.two_lc.global_lc_boost_no_BE = 2147482147 ∧
    Scenario.two_lc_minus_first.global_lc_boost_no_BE = 4294965295 ∧
    Scenario.two_lc_minus_first.nvme_fgs_bitmap 2 = true ∧
    (Scenario.two_lc_minus_first.nvme_fgs 2).latency_critical_flag = true ∧
    (Scenario.two_lc_minus_first.nvme_fgs 2).scaled_IOPuS_limit
      ≠ F64.div (F64.ofInt (u64 (((Scenario.two_lc_minus_first.nvme_fgs 2).scaled_IOPS_limit : Int)
          + Scenario.two_lc_minus_first.global_lc_boost_no_BE))) F64.million := by
  decide

/-- C8 (the code at the failing input). After a best-effort tenant is registered and
unregistered no slot is occupied and no best-effort tenant is counted, yet
`global_readonly_flag` is false. -/
theorem readonly_flag_stays_false :
    (∀ i, i < Scenario.cfg_flat.MAX_NVME_FLOW_GROUPS →
      Scenario.be_in_out.nvme_fgs_bitmap i = false) ∧
    Scenario.be_in_out.global_num_best_effort_tenants = 0 ∧
    Scenario.be_in_out.global_readonly_flag = false := by
  decide

/-- C9 (the code at the failing input). After flow 1 registers twice on core 0, with 1000
and then 2000 IOPS, slot 1 is the only occupied slot, its tenant is latency-critical with
`scaled_IOPS_limit = 2000`, and `global_LC_sum_token_rate` is 1000. -/
theorem reregistration_desynchronises_sum :
    (∀ i, i < Scenario.cfg_flat.MAX_NVME_FLOW_GROUPS →
      (Scenario.registered_twice.nvme_fgs_bitmap i = true ↔ i = 1)) ∧
    (Scenario.registered_twice.nvme_fgs 1).latency_critical_flag = true ∧
    (Scenario.registered_twice.nvme_fgs 1).scaled_IOPS_limit = 2000 ∧
    Scenario.registered_twice.global_LC_sum_token_rate = 1000 := by
  decide

/-- C10 (the code at the failing input). After a latency-critical tenant is removed while
a read-only latency-critical tenant (slot 2, 50 us) and a best-effort tenant (slot 3)
remain, `global_token_rate` is 500000, the read-only rate at 50 us, not the mixed rate
300000 that the lookup with `readonly = false` gives. -/
theorem remove_looks_up_readonly_rate :
    (Scenario.lc_removed_beside_be.nvme_fgs_bitmap 2 = true ∧
      (Scenario.lc_removed_beside_be.nvme_fgs 2).latency_critical_flag = true ∧
      (Scenario.lc_removed_beside_be.nvme_fgs 2).latency_us_SLO = 50) ∧
    (Scenario.lc_removed_beside_be.nvme_fgs_bitmap 3 = true ∧
      (Scenario.lc_removed_beside_be.nvme_fgs 3).latency_critical_flag = false) ∧
    Scenario.lc_removed_beside_be.global_num_best_effort_tenants = 1 ∧
    Scenario.lc_removed_beside_be.global_token_rate = 500000 ∧
    lookup_device_token_rate Scenario.cfg_table false 50 = 300000 ∧
    lookup_device_token_rate Scenario.cfg_table true 50 = 500000 := by
  decide

/-! ## Registration: slots and reference counts -/

theorem set_nvme_flow_group_id_scan_finds (s : State) (cpu_nr : Nat) (flow_group_id : Int)
    (i : Nat) (hbit : s.nvme_fgs_bitmap i = true)
    (hid : (s.nvme_fgs i).flow_group_id = flow_group_id) (htid : (s.nvme_fgs i).tid = cpu_nr) :
    ∀ (l : List Nat) (next_avail : Nat), i ∈ l → l.Pairwise (fun a b => a < b) →
      (∀ j ∈ l, j < i → ¬ (s.nvme_fgs_bitmap j = true ∧
        (s.nvme_fgs j).flow_group_id = flow_group_id ∧ (s.nvme_fgs j).tid = cpu_nr)) →
      (set_nvme_flow_group_id_scan s cpu_nr flow_group_id l next_avail).1 = some i := by
  intro l
  induction l with
  | nil => intro _ h; simp at h
  | cons j rest ih =>
    intro next_avail hmem hsorted hfirst
    rw [List.pairwise_cons] at hsorted
    unfold set_nvme_flow_group_id_scan
    by_cases hji : j = i
    · subst hji
      simp [hbit, hid, htid]
    · have hmem2 : i ∈ rest := by
        rcases List.mem_cons.1 hmem with h | h
        · exact absurd h.symm hji
        · exact h
      have hlt : j < i := hsorted.1 i hmem2
      have hno := hfirst j (List.mem_cons_self _ _) hlt
      have hrest : ∀ k ∈ rest, k < i → ¬ (s.nvme_fgs_bitmap k = true ∧
          (s.nvme_fgs k).flow_group_id = flow_group_id ∧ (s.nvme_fgs k).tid = cpu_nr) :=
        fun k hk => hfirst k (List.mem_cons_of_mem _ hk)
      by_cases hb : s.nvme_fgs_bitmap j = true
      · rw [if_pos hb]
        have hno2 : ¬ ((s.nvme_fgs j).flow_group_id = flow_group_id ∧ (s.nvme_fgs j).tid = cpu_nr) :=
          fun h => hno ⟨hb, h⟩
        rw [if_neg hno2]
        exact ih _ hmem2 hsorted.2 hrest
      · rw [if_neg hb]
        exact ih _ hmem2 hsorted.2 hrest

theorem set_nvme_flow_group_id_found (cfg : Cfg) (s : State) (cpu_nr : Nat)
    (flow_group_id : Int) (fg_handle : Nat) (i : Nat)
    (hi1 : 1 ≤ i) (hi2 : i < cfg.MAX_NVME_FLOW_GROUPS)
    (hbit : s.nvme_fgs_bitmap i = true)
    (hid : (s.nvme_fgs i).flow_group_id = flow_group_id) (htid : (s.nvme_fgs i).tid = cpu_nr)
    (hfirst : ∀ j, 1 ≤ j → j < i → ¬ (s.nvme_fgs_bitmap j = true ∧
      (s.nvme_fgs j).flow_group_id = flow_group_id ∧ (s.nvme_fgs j).tid = cpu_nr)) :
    set_nvme_flow_group_id cfg s cpu_nr flow_group_id fg_handle = (1, i, s) := by
  have h := set_nvme_flow_group_id_scan_finds s cpu_nr flow_group_id i hbit hid htid
    (List.range' 1 (cfg.MAX_NVME_FLOW_GROUPS - 1)) 0
    (by rw [List.mem_range']; exact ⟨i - 1, by omega, by omega⟩)
    (List.pairwise_lt_range' 1 _)
    (fun j hj hlt => hfirst j (by
      rw [List.mem_range'] at hj
      obtain ⟨k, _, hk⟩ := hj
      omega) hlt)
  unfold set_nvme_flow_group_id
  generalize set_nvme_flow_group_id_scan s cpu_nr flow_group_id
    (List.range' 1 (cfg.MAX_NVME_FLOW_GROUPS - 1)) 0 = r at h
  obtain ⟨r1, r2⟩ := r
  simp only at h
  subst h
  rfl

theorem recalculate_weights_remove_tail_frame (cfg : Cfg) (s : State) :
    (recalculate_weights_remove_tail cfg s).nvme_fgs_bitmap = s.nvme_fgs_bitmap ∧
    (recalculate_weights_remove_tail cfg s).global_token_rate = s.global_token_rate ∧
    (recalculate_weights_remove_tail cfg s).global_LC_sum_token_rate = s.global_LC_sum_token_rate ∧
    (recalculate_weights_remove_tail cfg s).global_num_best_effort_tenants
      = s.global_num_best_effort_tenants ∧
    (recalculate_weights_remove_tail cfg s).global_num_lc_tenants = s.global_num_lc_tenants ∧
    (recalculate_weights_remove_tail cfg s).percpu = s.percpu := by
  unfold recalculate_weights_remove_tail readjust_lc_tenant_token_limits
  simp only
  by_cases hbe : s.global_num_best_effort_tenants ≠ 0
  · rw [if_pos hbe]
    split_ifs with h
    · obtain ⟨h1, h2, h3, h4, h5, _, _, _, h9⟩ := readjust_loop_frame
        (List.range cfg.MAX_NVME_FLOW_GROUPS)
        { s with
          global_readonly_flag := false
          global_be_token_rate_per_tenant := be_token_rate_per_tenant s
          global_lc_boost_no_BE := lc_token_rate_boost_when_no_BE s } 0
      exact ⟨h1, h2, h3, h4, h5, h9⟩
    · simp
  · rw [if_neg hbe]
    split_ifs with h
    · obtain ⟨h1, h2, h3, h4, h5, _, _, _, h9⟩ := readjust_loop_frame
        (List.range cfg.MAX_NVME_FLOW_GROUPS)
        { s with
          global_be_token_rate_per_tenant := be_token_rate_per_tenant s
          global_lc_boost_no_BE := lc_token_rate_boost_when_no_BE s } 0
      exact ⟨h1, h2, h3, h4, h5, h9⟩
    · simp


theorem recalculate_weights_remove_frame (cfg : Cfg) (s : State) (h : Nat) :
    (recalculate_weights_remove cfg s h).nvme_fgs_bitmap = s.nvme_fgs_bitmap ∧
    (recalculate_weights_remove cfg s h).percpu = s.percpu ∧
    ((s.nvme_fgs h).latency_critical_flag = true →
      (recalculate_weights_remove cfg s h).global_num_lc_tenants
        = u64 ((s.global_num_lc_tenants : Int) - 1) ∧
      (recalculate_weights_remove cfg s h).global_num_best_effort_tenants
        = s.global_num_best_effort_tenants) ∧
    ((s.nvme_fgs h).latency_critical_flag = false →
      (recalculate_weights_remove cfg s h).global_num_best_effort_tenants
        = u64 ((s.global_num_best_effort_tenants : Int) - 1) ∧
      (recalculate_weights_remove cfg s h).global_num_lc_tenants = s.global_num_lc_tenants) := by
  unfold recalculate_weights_remove
  simp only
  by_cases hlc : (s.nvme_fgs h).latency_critical_flag = true
  · rw [if_pos hlc]
    refine ⟨?_, ?_, ?_, ?_⟩
    · rw [(recalculate_weights_remove_tail_frame cfg _).1]
    · rw [(recalculate_weights_remove_tail_frame cfg _).2.2.2.2.2]
    · intro _
      rw [(recalculate_weights_remove_tail_frame cfg _).2.2.2.2.1,
        (recalculate_weights_remove_tail_frame cfg _).2.2.2.1]
      exact ⟨rfl, rfl⟩
    · intro hh; rw [hlc] at hh; cases hh
  · rw [if_neg hlc]
    refine ⟨?_, ?_, ?_, ?_⟩
    · rw [(recalculate_weights_remove_tail_frame cfg _).1]
    · rw [(recalculate_weights_remove_tail_frame cfg _).2.2.2.2.2]
    · intro hh; exact absurd hh hlc
    · intro _
      rw [(recalculate_weights_remove_tail_frame cfg _).2.2.2.2.1,
        (recalculate_weights_remove_tail_frame cfg _).2.2.2.1]
      exact ⟨rfl, rfl⟩

/-- Let slot `i` (in the searched range `1 .. MAX_NVME_FLOW_GROUPS - 1`) be the first
slot registered under `(flow_group_id, cpu_nr)`, holding the record `fg` that a registration
wrote (`scaled_IOPS_limit` and the latency-critical flag agree with its SLO). A further
`bsys_nvme_register_flow` with the SLO parameters of `fg` returns `RET_OK`, reports the
same handle `i`, and leaves the state as it was except for slot `i`, where
`conn_ref_count` is one higher and `cookie` is the cookie of this call: the globals, the
bitmap, the per-core lists and counts and every other slot are unchanged. -/
theorem bsys_nvme_register_flow_refcount (cfg : Cfg) (s : State) (cpu_nr : Nat)
    (flow_group_id : Int) (cookie : Nat) (swq_alloc : Bool) (i : Nat)
    (hi1 : 1 ≤ i) (hi2 : i < cfg.MAX_NVME_FLOW_GROUPS)
    (hbit : s.nvme_fgs_bitmap i = true)
    (hid : (s.nvme_fgs i).flow_group_id = flow_group_id) (htid : (s.nvme_fgs i).tid = cpu_nr)
    (hfirst : ∀ j, 1 ≤ j → j < i → ¬ (s.nvme_fgs_bitmap j = true ∧
      (s.nvme_fgs j).flow_group_id = flow_group_id ∧ (s.nvme_fgs j).tid = cpu_nr))
    (hlim : (s.nvme_fgs i).scaled_IOPS_limit
      = scaled_IOPS cfg (s.nvme_fgs i).IOPS_SLO (s.nvme_fgs i).rw_ratio_SLO)
    (hflag : (s.nvme_fgs i).latency_critical_flag
      = (if (s.nvme_fgs i).latency_us_SLO = 0 then false else true)) :
    bsys_nvme_register_flow cfg s cpu_nr flow_group_id cookie (s.nvme_fgs i).latency_us_SLO
        (s.nvme_fgs i).IOPS_SLO (s.nvme_fgs i).rw_ratio_SLO swq_alloc
      = (Status.RET_OK,
          { s with
            nvme_fgs := Function.update s.nvme_fgs i
              { s.nvme_fgs i with
                cookie := cookie
                conn_ref_count := (s.nvme_fgs i).conn_ref_count + 1 } }) ∧
    bsys_nvme_register_flow_handle cfg s cpu_nr flow_group_id = i := by
  have hset := set_nvme_flow_group_id_found cfg s cpu_nr flow_group_id 0 i hi1 hi2 hbit hid
    htid hfirst
  refine ⟨?_, ?_⟩
  · unfold bsys_nvme_register_flow
    rw [hset]
    have h10 : ¬ ((1 : Int) = 0) := by decide
    simp only [ne_eq, not_true_eq_false, and_false, if_false, if_neg h10]
    congr 2
    cases hfg : s.nvme_fgs i with
    | mk a1 a2 a3 a4 a5 a6 a7 a8 a9 a10 a11 =>
      rw [hfg] at hid htid hlim hflag
      simp only at hid htid hlim hflag
      rw [hid, hlim, htid, hflag]
  · unfold bsys_nvme_register_flow_handle
    rw [hset]

/-- For every state, core and handle: `bsys_nvme_unregister_flow` on a slot whose
`conn_ref_count` is not 1 returns and only lowers `conn_ref_count` by one. On a slot whose
`conn_ref_count` is 1 it returns exactly when the slot's `nvme_swq` points to a linked
queue; it then clears the bitmap bit, marks the pointer as freed, lowers the calling core's
`num_tenants` by one, and lowers the global and the calling core's count of best-effort
tenants, or the global count of latency-critical tenants, by one. -/
theorem bsys_nvme_unregister_flow_refcount (cfg : Cfg) (t : State) (c h : Nat) :
    ((t.nvme_fgs h).conn_ref_count ≠ 1 →
      bsys_nvme_unregister_flow cfg t c h
        = some { t with
            nvme_fgs := Function.update t.nvme_fgs h
              { t.nvme_fgs h with conn_ref_count := (t.nvme_fgs h).conn_ref_count - 1 } }) ∧
    ((t.nvme_fgs h).conn_ref_count = 1 →
      ((bsys_nvme_unregister_flow cfg t c h).isSome = true ↔
        ∃ cpu, (t.nvme_fgs h).nvme_swq = swq_ptr.linked cpu) ∧
      ∀ t1, bsys_nvme_unregister_flow cfg t c h = some t1 →
        t1.nvme_fgs_bitmap h = false ∧
        ((t1.percpu c).nvme_tenant_manager).num_tenants
          = ((t.percpu c).nvme_tenant_manager).num_tenants - 1 ∧
        ((t.nvme_fgs h).latency_critical_flag = true →
          t1.global_num_lc_tenants = u64 ((t.global_num_lc_tenants : Int) - 1) ∧
          t1.global_num_best_effort_tenants = t.global_num_best_effort_tenants ∧
          ((t1.percpu c).nvme_tenant_manager).num_best_effort_tenants
            = ((t.percpu c).nvme_tenant_manager).num_best_effort_tenants) ∧
        ((t.nvme_fgs h).latency_critical_flag = false →
          t1.global_num_best_effort_tenants
            = u64 ((t.global_num_best_effort_tenants : Int) - 1) ∧
          t1.global_num_lc_tenants = t.global_num_lc_tenants ∧
          ((t1.percpu c).nvme_tenant_manager).num_best_effort_tenants
            = ((t.percpu c).nvme_tenant_manager).num_best_effort_tenants - 1)) := by
  constructor
  · intro hne
    unfold bsys_nvme_unregister_flow
    simp only
    have : ¬ ((t.nvme_fgs h).conn_ref_count - 1 = 0) := by omega
    rw [if_neg this]
  · intro heq
    have h0 : (t.nvme_fgs h).conn_ref_count - 1 = 0 := by omega
    unfold bsys_nvme_unregister_flow
    simp only
    rw [if_pos h0]
    cases hp : (t.nvme_fgs h).nvme_swq with
    | null => simp
    | freed => simp
    | linked cpu =>
      refine ⟨by simp, ?_⟩
      intro t1 ht1
      simp only [Option.some.injEq] at ht1
      subst ht1
      refine ⟨by simp, ?_, ?_, ?_⟩
      · simp only
        rw [(recalculate_weights_remove_frame cfg _ h).2.1]
        by_cases hc : c = cpu
        · subst hc; simp
        · simp [Function.update_noteq hc]
      · intro hlc
        simp only
        refine ⟨?_, ?_, ?_⟩
        · rw [((recalculate_weights_remove_frame cfg _ h).2.2.1 ?_).1]
          simp [hlc]
        · rw [((recalculate_weights_remove_frame cfg _ h).2.2.1 ?_).2]
          simp [hlc]
        · rw [(recalculate_weights_remove_frame cfg _ h).2.1]
          by_cases hc : c = cpu
          · subst hc; simp [hlc]
          · simp [Function.update_noteq hc, hlc]
      · intro hlc
        simp only
        refine ⟨?_, ?_, ?_⟩
        · rw [((recalculate_weights_remove_frame cfg _ h).2.2.2 ?_).1]
          simp [hlc]
        · rw [((recalculate_weights_remove_frame cfg _ h).2.2.2 ?_).2]
          simp [hlc]
        · rw [(recalculate_weights_remove_frame cfg _ h).2.1]
          by_cases hc : c = cpu
          · subst hc; simp [hlc]
          · simp [Function.update_noteq hc, hlc]

/-- In `Scenario.two_lc` flow 1 is registered on core 0 in slot 1; registering it again
with cookie 7 and the same SLO reports handle 1 and returns `RET_OK`, and slot 1 then
has `conn_ref_count = 2`. -/
theorem bsys_nvme_register_flow_refcount_witness :
    (Scenario.two_lc.nvme_fgs_bitmap 1 = true ∧
      (Scenario.two_lc.nvme_fgs 1).flow_group_id = 1 ∧ (Scenario.two_lc.nvme_fgs 1).tid = 0 ∧
      (Scenario.two_lc.nvme_fgs 1).conn_ref_count = 1) ∧
    bsys_nvme_register_flow_handle Scenario.cfg_flat Scenario.two_lc 0 1 = 1 ∧
    bsys_nvme_register_flow Scenario.cfg_flat Scenario.two_lc 0 1 7
        (Scenario.two_lc.nvme_fgs 1).latency_us_SLO (Scenario.two_lc.nvme_fgs 1).IOPS_SLO
        (Scenario.two_lc.nvme_fgs 1).rw_ratio_SLO true
      = (Status.RET_OK,
          { Scenario.two_lc with
            nvme_fgs := Function.update Scenario.two_lc.nvme_fgs 1
              { Scenario.two_lc.nvme_fgs 1 with
                cookie := 7
                conn_ref_count := (Scenario.two_lc.nvme_fgs 1).conn_ref_count + 1 } }) :=
  ⟨by decide,
    (bsys_nvme_register_flow_refcount Scenario.cfg_flat Scenario.two_lc 0 1 7 true 1
      (by decide) (by decide) (by decide) (by decide) (by decide)
      (fun j h1 h2 => absurd h2 (by omega)) (by decide) (by decide)).2,
    (bsys_nvme_register_flow_refcount Scenario.cfg_flat Scenario.two_lc 0 1 7 true 1
      (by decide) (by decide) (by decide) (by decide) (by decide)
      (fun j h1 h2 => absurd h2 (by omega)) (by decide) (by decide)).1⟩

/-- C12 (the code at the failing input). With slots 1 and 2 of a 3-slot table occupied,
`set_nvme_flow_group_id` for the unregistered flow 3 returns 0 (not `-ENOMEM`) with handle
0, a slot outside the searched range, and sets bit 0 of the bitmap;
`bsys_nvme_register_flow` returns `RET_OK` and slot 0 holds flow 3. A registration of flow 4
then returns `RET_OK` with handle 0 again, and slot 0 holds flow 4. -/
theorem set_nvme_flow_group_id_full_table :
    (Scenario.full_table.nvme_fgs_bitmap 1 = true ∧
      Scenario.full_table.nvme_fgs_bitmap 2 = true) ∧
    (set_nvme_flow_group_id Scenario.cfg_small Scenario.full_table 0 3 0).1 = 0 ∧
    (set_nvme_flow_group_id Scenario.cfg_small Scenario.full_table 0 3 0).2.1 = 0 ∧
    (set_nvme_flow_group_id Scenario.cfg_small Scenario.full_table 0 3 0).2.2.nvme_fgs_bitmap 0
      = true ∧
    (bsys_nvme_register_flow Scenario.cfg_small Scenario.full_table 0 3 0 0 0 0 true).1
      = Status.RET_OK ∧
    (Scenario.full_table_plus_one.nvme_fgs 0).flow_group_id = 3 ∧
    (Scenario.full_table_plus_one.nvme_fgs 0).conn_ref_count = 1 ∧
    (bsys_nvme_register_flow Scenario.cfg_small Scenario.full_table_plus_one 0 4 0 0 0 0 true).1
      = Status.RET_OK ∧
    bsys_nvme_register_flow_handle Scenario.cfg_small Scenario.full_table_plus_one 0 4 = 0 ∧
    ((bsys_nvme_register_flow Scenario.cfg_small Scenario.full_table_plus_one 0 4 0 0 0 0
      true).2.nvme_fgs 0).flow_group_id = 4 := by
  decide

/-! ## Completion callbacks -/

/-- C13 (the code at the failing input). For every request context, on a completion that
reports an error `nvme_write_cb` logs a line, calls `usys_nvme_written` with `RET_OK` and
frees the context, and `nvme_read_cb` does the same with `usys_nvme_response`; whatever the
completion reports, neither callback makes an upcall with `-RET_FAULT`. -/
theorem completion_error_reported_ok (n_ctx : nvme_ctx) :
    nvme_write_cb n_ctx true
      = [cb_action.log_info, cb_action.usys_nvme_written n_ctx.cookie upcall_status.RET_OK,
          cb_action.free_local_nvme_ctx n_ctx] ∧
    nvme_read_cb n_ctx true
      = [cb_action.log_info, cb_action.usys_nvme_response n_ctx.cookie upcall_status.RET_OK,
          cb_action.free_local_nvme_ctx n_ctx] ∧
    (∀ (cpl_is_error : Bool) (cookie : Nat),
      cb_action.usys_nvme_written cookie upcall_status.neg_RET_FAULT
        ∉ nvme_write_cb n_ctx cpl_is_error ∧
      cb_action.usys_nvme_response cookie upcall_status.neg_RET_FAULT
        ∉ nvme_read_cb n_ctx cpl_is_error) := by
  refine ⟨rfl, rfl, ?_⟩
  intro b cookie
  cases b <;> simp [nvme_write_cb, nvme_read_cb]

/-! ## The shared bucket -/

theorem try_acquire_global_tokens_min (avail_tokens token_demand : Nat) :
    (try_acquire_global_tokens avail_tokens token_demand).1 = min token_demand avail_tokens ∧
    (try_acquire_global_tokens avail_tokens token_demand).2
      = avail_tokens - (try_acquire_global_tokens avail_tokens token_demand).1 := by
  unfold try_acquire_global_tokens
  split_ifs with h
  · exact ⟨by simp only; omega, by simp only; omega⟩
  · exact ⟨by simp only; omega, by simp only⟩

/-- C19. Read sequentially, `try_acquire_global_tokens(demand)` on a bucket holding `avail`
returns `min(demand, avail)` and leaves `avail` minus the value returned. With
`local_extra_demand` below `2 ^ 64`, `nvme_sched_subround2` goes on to serve the tenants
(source lines 1250-1328) with `be_tokens = local_leftover + try_acquire(local_extra_demand -
local_leftover)` and the bucket as `try_acquire` left it when `local_leftover <
local_extra_demand`, and with `be_tokens = local_leftover` and the bucket untouched when
`local_leftover >= local_extra_demand` and not (`local_leftover > 0` and
`local_extra_demand = 0`); when `local_leftover > 0` and `local_extra_demand = 0` it adds
`local_leftover` to the bucket (an `unsigned long` sum), issues no request and changes
nothing else. -/
theorem nvme_sched_subround2_be_tokens (scfg : SchedCfg) (fuel : Nat) (sc : SchedState)
    (cpu_nr : Nat) (now : Nat)
    (hd : (sc.sched cpu_nr).local_extra_demand < 2 ^ 64) :
    (∀ avail demand : Nat,
      (try_acquire_global_tokens avail demand).1 = min demand avail ∧
      (try_acquire_global_tokens avail demand).2
        = avail - (try_acquire_global_tokens avail demand).1) ∧
    ((sc.sched cpu_nr).local_leftover_tokens < (sc.sched cpu_nr).local_extra_demand →
      nvme_sched_subround2 scfg fuel sc cpu_nr now
        = subround2_serve scfg fuel
            { sc with
              global_leftover_tokens :=
                (try_acquire_global_tokens sc.global_leftover_tokens
                  ((sc.sched cpu_nr).local_extra_demand
                    - (sc.sched cpu_nr).local_leftover_tokens)).2 }
            cpu_nr now
            ((sc.sched cpu_nr).local_leftover_tokens
              + (try_acquire_global_tokens sc.global_leftover_tokens
                  ((sc.sched cpu_nr).local_extra_demand
                    - (sc.sched cpu_nr).local_leftover_tokens)).1)) ∧
    ((sc.sched cpu_nr).local_extra_demand ≤ (sc.sched cpu_nr).local_leftover_tokens →
      ¬ (0 < (sc.sched cpu_nr).local_leftover_tokens ∧ (sc.sched cpu_nr).local_extra_demand = 0) →
      nvme_sched_subround2 scfg fuel sc cpu_nr now
        = subround2_serve scfg fuel sc cpu_nr now (sc.sched cpu_nr).local_leftover_tokens) ∧
    (0 < (sc.sched cpu_nr).local_leftover_tokens → (sc.sched cpu_nr).local_extra_demand = 0 →
      nvme_sched_subround2 scfg fuel sc cpu_nr now
        = some ({ sc with
                  global_leftover_tokens :=
                    u64 ((sc.global_leftover_tokens : Int)
                      + (sc.sched cpu_nr).local_leftover_tokens) }, [])) := by
  refine ⟨try_acquire_global_tokens_min, ?_, ?_, ?_⟩
  · intro hlt
    unfold nvme_sched_subround2
    simp only
    have h1 : ¬ ((sc.sched cpu_nr).local_leftover_tokens > 0
        ∧ (sc.sched cpu_nr).local_extra_demand = 0) := by
      intro h; omega
    rw [if_neg h1, if_pos hlt]
    have hmin := (try_acquire_global_tokens_min sc.global_leftover_tokens
      ((sc.sched cpu_nr).local_extra_demand - (sc.sched cpu_nr).local_leftover_tokens)).1
    have hle : (try_acquire_global_tokens sc.global_leftover_tokens
        ((sc.sched cpu_nr).local_extra_demand - (sc.sched cpu_nr).local_leftover_tokens)).1
          ≤ (sc.sched cpu_nr).local_extra_demand - (sc.sched cpu_nr).local_leftover_tokens := by
      rw [hmin]; exact Nat.min_le_left _ _
    have hu : u64 (((sc.sched cpu_nr).local_leftover_tokens : Int)
        + (try_acquire_global_tokens sc.global_leftover_tokens
            ((sc.sched cpu_nr).local_extra_demand - (sc.sched cpu_nr).local_leftover_tokens)).1)
        = (sc.sched cpu_nr).local_leftover_tokens
          + (try_acquire_global_tokens sc.global_leftover_tokens
            ((sc.sched cpu_nr).local_extra_demand - (sc.sched cpu_nr).local_leftover_tokens)).1 := by
      rw [← Nat.cast_add]
      apply u64_of_lt
      omega
    rw [hu]
  · intro hle hno
    unfold nvme_sched_subround2
    simp only
    have h1 : ¬ ((sc.sched cpu_nr).local_leftover_tokens > 0
        ∧ (sc.sched cpu_nr).local_extra_demand = 0) := hno
    have h2 : ¬ ((sc.sched cpu_nr).local_leftover_tokens < (sc.sched cpu_nr).local_extra_demand) := by
      omega
    rw [if_neg h1, if_neg h2]
  · intro h1 h2
    unfold nvme_sched_subround2
    simp only
    rw [if_pos ⟨h1, h2⟩]

/-- With a recorded demand of 30 tokens and no leftover on core 1, and 900 tokens in the
bucket, `nvme_sched_subround2` serves the tenants of core 1 with the 30 tokens it
acquires, leaving 870 in the bucket. -/
theorem nvme_sched_subround2_be_tokens_witness :
    (Scenario.demand_30.sched 1).local_extra_demand < 2 ^ 64 ∧
    (Scenario.demand_30.sched 1).local_leftover_tokens
      < (Scenario.demand_30.sched 1).local_extra_demand ∧
    nvme_sched_subround2 Scenario.two_cores 8 Scenario.demand_30 1 0
      = subround2_serve Scenario.two_cores 8
          { Scenario.demand_30 with
            global_leftover_tokens :=
              (try_acquire_global_tokens Scenario.demand_30.global_leftover_tokens
                ((Scenario.demand_30.sched 1).local_extra_demand
                  - (Scenario.demand_30.sched 1).local_leftover_tokens)).2 }
          1 0
          ((Scenario.demand_30.sched 1).local_leftover_tokens
            + (try_acquire_global_tokens Scenario.demand_30.global_leftover_tokens
                ((Scenario.demand_30.sched 1).local_extra_demand
                  - (Scenario.demand_30.sched 1).local_leftover_tokens)).1) :=
  ⟨by decide, by decide,
    (nvme_sched_subround2_be_tokens Scenario.two_cores 8 Scenario.demand_30 1 0
      (by decide)).2.1 (by decide)⟩

/-! ## The reset of the shared bucket -/

theorem update_scheduled_bitvector_step (scfg : SchedCfg) (sc : SchedState) (cpu_nr : Nat) :
    ((∀ i, i < scfg.cpus_active →
        Function.update sc.scheduled_bit_vector cpu_nr
          (i32 (sc.scheduled_bit_vector cpu_nr + 1)) i ≠ 0) →
      update_scheduled_bitvector scfg sc cpu_nr
        = { sc with
            global_leftover_tokens := 0
            scheduled_bit_vector := fun i =>
              if i < scfg.cpus_active then 0
              else Function.update sc.scheduled_bit_vector cpu_nr
                (i32 (sc.scheduled_bit_vector cpu_nr + 1)) i }) ∧
    (¬ (∀ i, i < scfg.cpus_active →
        Function.update sc.scheduled_bit_vector cpu_nr
          (i32 (sc.scheduled_bit_vector cpu_nr + 1)) i ≠ 0) →
      update_scheduled_bitvector scfg sc cpu_nr
        = { sc with
            scheduled_bit_vector := Function.update sc.scheduled_bit_vector cpu_nr
              (i32 (sc.scheduled_bit_vector cpu_nr + 1)) }) := by
  have hall : (List.range scfg.cpus_active).all (fun i => decide
      (Function.update sc.scheduled_bit_vector cpu_nr
        (i32 (sc.scheduled_bit_vector cpu_nr + 1)) i ≠ 0)) = true
      ↔ ∀ i, i < scfg.cpus_active →
        Function.update sc.scheduled_bit_vector cpu_nr
          (i32 (sc.scheduled_bit_vector cpu_nr + 1)) i ≠ 0 := by
    rw [List.all_eq_true]
    constructor
    · intro h i hi
      have := h i (List.mem_range.2 hi)
      simpa using this
    · intro h i hi
      have := h i (List.mem_range.1 hi)
      simpa using this
  constructor
  · intro h
    unfold update_scheduled_bitvector
    simp only
    rw [if_pos (hall.2 h)]
  · intro h
    unfold update_scheduled_bitvector
    simp only
    rw [if_neg (fun hh => h (hall.1 hh))]

/-- The state after the calls of `update_scheduled_bitvector` by the cores listed. -/
theorem update_scheduled_bitvector_before_cover (scfg : SchedCfg) (sc : SchedState)
    (h0 : ∀ i, sc.scheduled_bit_vector i = 0) :
    ∀ (calls : List Nat), calls.length < 2147483647 →
      ¬ (∀ i, i < scfg.cpus_active → i ∈ calls) →
      calls.foldl (update_scheduled_bitvector scfg) sc
        = { sc with scheduled_bit_vector := fun i => (calls.count i : Int) } := by
  intro calls
  induction calls using List.reverseRecOn with
  | nil =>
    intro _ _
    simp only [List.foldl_nil, List.count_nil, Nat.cast_zero]
    cases sc
    simp only [SchedState.mk.injEq, true_and]
    simp only at h0
    exact ⟨funext h0, trivial⟩
  | append_singleton cs c ih =>
    intro hlen hnot
    have hlen2 : cs.length < 2147483647 := by
      rw [List.length_append] at hlen; simp at hlen; omega
    have hnot2 : ¬ (∀ i, i < scfg.cpus_active → i ∈ cs) := by
      intro h
      exact hnot (fun i hi => List.mem_append_left _ (h i hi))
    rw [List.foldl_append, ih hlen2 hnot2]
    simp only [List.foldl_cons, List.foldl_nil]
    have hcnt : (cs.count c : Int) < 2147483646 := by
      have := List.count_le_length c cs
      rw [List.length_append] at hlen; simp at hlen; omega
    have hinc : i32 ((cs.count c : Int) + 1) = (cs.count c : Int) + 1 :=
      i32_of_range _ (by omega) (by omega)
    have hupd : Function.update (fun i => (cs.count i : Int)) c (i32 ((cs.count c : Int) + 1))
        = fun i => ((cs ++ [c]).count i : Int) := by
      funext i
      by_cases hic : i = c
      · subst hic
        simp [hinc]
      · rw [Function.update_noteq hic]
        simp [List.count_append, List.count_singleton, hic]
    have hstep := (update_scheduled_bitvector_step scfg
      { sc with scheduled_bit_vector := fun i => (cs.count i : Int) } c).2
    simp only at hstep
    rw [hupd] at hstep
    rw [hstep]
    intro hall
    apply hnot
    intro i hi
    have := hall i hi
    by_contra hmem
    apply this
    simp [List.count_eq_zero_of_not_mem hmem]


/-- C16. For every state and calling core, `update_scheduled_bitvector` increments the
caller's counter (an `int`); if then the counters of all cores below `cpus_active` are
nonzero it sets `global_leftover_tokens` to 0 and the counters of all those cores to 0, and
otherwise it changes nothing but the caller's counter. Consequently, from a state with all
counters zero and for fewer than `2 ^ 31 - 1` calls: as long as some active core has not
called, the bucket is untouched and each counter is the number of calls of its core; and
the call by which every active core has called at least once sets the bucket and the
counters of the active cores to 0. -/
theorem update_scheduled_bitvector_resets_at_cover (scfg : SchedCfg) (sc : SchedState)
    (calls : List Nat) (c : Nat)
    (h0 : ∀ i, sc.scheduled_bit_vector i = 0)
    (hlen : calls.length < 2147483646)
    (hnot : ¬ (∀ i, i < scfg.cpus_active → i ∈ calls)) :
    (∀ (t : SchedState) (cpu_nr : Nat),
      ((∀ i, i < scfg.cpus_active →
          Function.update t.scheduled_bit_vector cpu_nr
            (i32 (t.scheduled_bit_vector cpu_nr + 1)) i ≠ 0) →
        update_scheduled_bitvector scfg t cpu_nr
          = { t with
              global_leftover_tokens := 0
              scheduled_bit_vector := fun i =>
                if i < scfg.cpus_active then 0
                else Function.update t.scheduled_bit_vector cpu_nr
                  (i32 (t.scheduled_bit_vector cpu_nr + 1)) i }) ∧
      (¬ (∀ i, i < scfg.cpus_active →
          Function.update t.scheduled_bit_vector cpu_nr
            (i32 (t.scheduled_bit_vector cpu_nr + 1)) i ≠ 0) →
        update_scheduled_bitvector scfg t cpu_nr
          = { t with
              scheduled_bit_vector := Function.update t.scheduled_bit_vector cpu_nr
                (i32 (t.scheduled_bit_vector cpu_nr + 1)) })) ∧
    calls.foldl (update_scheduled_bitvector scfg) sc
      = { sc with scheduled_bit_vector := fun i => (calls.count i : Int) } ∧
    ((∀ i, i < scfg.cpus_active → i ∈ calls ++ [c]) →
      (calls ++ [c]).foldl (update_scheduled_bitvector scfg) sc
        = { sc with
            global_leftover_tokens := 0
            scheduled_bit_vector := fun i =>
              if i < scfg.cpus_active then 0 else ((calls ++ [c]).count i : Int) }) ∧
    (¬ (∀ i, i < scfg.cpus_active → i ∈ calls ++ [c]) →
      (calls ++ [c]).foldl (update_scheduled_bitvector scfg) sc
        = { sc with scheduled_bit_vector := fun i => ((calls ++ [c]).count i : Int) }) := by
  refine ⟨update_scheduled_bitvector_step scfg, ?_, ?_, ?_⟩
  · exact update_scheduled_bitvector_before_cover scfg sc h0 calls (by omega) hnot
  · intro hall
    rw [List.foldl_append,
      update_scheduled_bitvector_before_cover scfg sc h0 calls (by omega) hnot]
    simp only [List.foldl_cons, List.foldl_nil]
    have hcnt : (calls.count c : Int) < 2147483646 := by
      have := List.count_le_length c calls
      omega
    have hinc : i32 ((calls.count c : Int) + 1) = (calls.count c : Int) + 1 :=
      i32_of_range _ (by omega) (by omega)
    have hupd : Function.update (fun i => (calls.count i : Int)) c
        (i32 ((calls.count c : Int) + 1)) = fun i => ((calls ++ [c]).count i : Int) := by
      funext i
      by_cases hic : i = c
      · subst hic
        simp [hinc]
      · rw [Function.update_noteq hic]
        simp [List.count_append, List.count_singleton, hic]
    have hstep := (update_scheduled_bitvector_step scfg
      { sc with scheduled_bit_vector := fun i => (calls.count i : Int) } c).1
    simp only at hstep
    rw [hupd] at hstep
    rw [hstep]
    intro i hi
    have hmem := hall i hi
    have hpos : 0 < (calls ++ [c]).count i := List.count_pos_iff.2 hmem
    show ((calls ++ [c]).count i : Int) ≠ 0
    omega
  · intro hno
    exact update_scheduled_bitvector_before_cover scfg sc h0 (calls ++ [c])
      (by rw [List.length_append]; simp; omega) hno

/-- From the initial scheduler state with two active cores, the call of core 1 followed by
the call of core 0 completes the round: the bucket and both counters are 0. -/
theorem update_scheduled_bitvector_resets_at_cover_witness :
    (¬ (∀ i, i < Scenario.two_cores.cpus_active → i ∈ [1])) ∧
    ([1] ++ [0]).foldl (update_scheduled_bitvector Scenario.two_cores)
        (SchedState.init Scenario.cfg_flat)
      = { SchedState.init Scenario.cfg_flat with
          global_leftover_tokens := 0
          scheduled_bit_vector := fun i =>
            if i < Scenario.two_cores.cpus_active then 0 else (([1] ++ [0]).count i : Int) } :=
  ⟨by decide,
    (update_scheduled_bitvector_resets_at_cover Scenario.two_cores
      (SchedState.init Scenario.cfg_flat) [1] 0 (fun _ => rfl) (by decide)
      (by decide)).2.2.1 (by decide)⟩

/-! ## Binary64 arithmetic: rounding to nearest -/

theorem F64.round_near (n d : Nat) (hn : 0 < n) (hd : 0 < d) :
    ∃ (e : Int) (k : Nat),
      (F64.round (n : Int) d).toRat = (k : ℚ) * (2 : ℚ) ^ (e - 52) ∧
      0 ≤ (F64.round (n : Int) d).m ∧ (F64.round (n : Int) d).m < 2 ^ 53 ∧
      (2 : ℚ) ^ e ≤ (n : ℚ) / d ∧ (n : ℚ) / d < (2 : ℚ) ^ (e + 1) ∧
      (k : ℚ) - (n : ℚ) / d * (2 : ℚ) ^ (52 - e) ≤ 1 / 2 ∧
      (n : ℚ) / d * (2 : ℚ) ^ (52 - e) - (k : ℚ) ≤ 1 / 2 ∧
      2 ^ 52 ≤ k ∧ k ≤ 2 ^ 53 := by
  have hn0 : ¬ ((n : Int) = 0 ∨ d = 0) := by omega
  have hsign : Int.sign (n : Int) = 1 := Int.sign_eq_one_of_pos (by omega)
  have hdq : (0 : ℚ) < d := by exact_mod_cast hd
  have hnq : (0 : ℚ) < n := by exact_mod_cast hn
  obtain ⟨ha1, ha2⟩ := ilog2_spec n hn
  obtain ⟨hd1, hd2⟩ := ilog2_spec d hd
  -- the exponent
  obtain ⟨e, he, hle, hlt⟩ : ∃ e : Int,
      e = (if d * 2 ^ ((ilog2 n : Int) - (ilog2 d : Int)).toNat
            ≤ n * 2 ^ (-((ilog2 n : Int) - (ilog2 d : Int))).toNat
          then (ilog2 n : Int) - (ilog2 d : Int) else (ilog2 n : Int) - (ilog2 d : Int) - 1) ∧
      (2 : ℚ) ^ e ≤ (n : ℚ) / d ∧ (n : ℚ) / d < (2 : ℚ) ^ (e + 1) := by
    refine ⟨_, rfl, ?_, ?_⟩
    · split_ifs with ht
      · rw [two_zpow_split, div_le_div_iff₀ (by positivity) hdq]
        have : ((d * 2 ^ ((ilog2 n : Int) - (ilog2 d : Int)).toNat : Nat) : ℚ)
            ≤ ((n * 2 ^ (-((ilog2 n : Int) - (ilog2 d : Int))).toNat : Nat) : ℚ) := by
          exact_mod_cast ht
        push_cast at this
        linarith
      · have h1 : (2 : ℚ) ^ (ilog2 n) ≤ n := by exact_mod_cast ha1
        have h2 : (d : ℚ) ≤ 2 ^ (ilog2 d + 1) := by exact_mod_cast hd2.le
        have h3 : (2 : ℚ) ^ ((ilog2 n : Int) - (ilog2 d : Int) - 1)
            = (2 : ℚ) ^ (ilog2 n) / 2 ^ (ilog2 d + 1) := by
          rw [show (ilog2 n : Int) - (ilog2 d : Int) - 1
            = (ilog2 n : Int) - ((ilog2 d + 1 : Nat) : Int) by push_cast; ring]
          rw [zpow_sub₀ (by norm_num), zpow_natCast, zpow_natCast]
        rw [h3]
        exact div_le_div₀ (by positivity) h1 hdq h2
    · split_ifs with ht
      · have h1 : (n : ℚ) < 2 ^ (ilog2 n + 1) := by exact_mod_cast ha2
        have h2 : (2 : ℚ) ^ (ilog2 d) ≤ d := by exact_mod_cast hd1
        have h3 : (2 : ℚ) ^ ((ilog2 n : Int) - (ilog2 d : Int) + 1)
            = (2 : ℚ) ^ (ilog2 n + 1) / 2 ^ (ilog2 d) := by
          rw [show (ilog2 n : Int) - (ilog2 d : Int) + 1
            = ((ilog2 n + 1 : Nat) : Int) - ((ilog2 d : Nat) : Int) by push_cast; ring]
          rw [zpow_sub₀ (by norm_num), zpow_natCast, zpow_natCast]
        rw [h3]
        have hpd : (0 : ℚ) < 2 ^ (ilog2 d) := by positivity
        rw [div_lt_div_iff₀ hdq hpd]
        calc (n : ℚ) * 2 ^ ilog2 d < 2 ^ (ilog2 n + 1) * 2 ^ ilog2 d := by
              exact mul_lt_mul_of_pos_right h1 hpd
          _ ≤ 2 ^ (ilog2 n + 1) * d := by
              exact mul_le_mul_of_nonneg_left h2 (by positivity)
      · rw [show (ilog2 n : Int) - (ilog2 d : Int) - 1 + 1 = (ilog2 n : Int) - (ilog2 d : Int)
          by ring]
        rw [two_zpow_split, div_lt_div_iff₀ hdq (by positivity)]
        have : ((n * 2 ^ (-((ilog2 n : Int) - (ilog2 d : Int))).toNat : Nat) : ℚ)
            < ((d * 2 ^ ((ilog2 n : Int) - (ilog2 d : Int)).toNat : Nat) : ℚ) := by
          exact_mod_cast (Nat.lt_of_not_le ht)
        push_cast at this
        linarith
  -- the significand
  set N := n * 2 ^ (52 - e).toNat with hN
  set D := d * 2 ^ (e - 52).toNat with hD
  have hDpos : 0 < D := by positivity
  have hDq : (0 : ℚ) < (D : ℚ) := by exact_mod_cast hDpos
  have hND : (N : ℚ) / D = (n : ℚ) / d * (2 : ℚ) ^ (52 - e) := by
    rw [two_zpow_split (52 - e), show (-(52 - e)).toNat = (e - 52).toNat by congr 1; ring]
    rw [hN, hD]
    push_cast
    field_simp
  obtain ⟨k, hk, hk1, hk2⟩ : ∃ k : Nat,
      k = (if 2 * (N % D) < D then N / D else if D < 2 * (N % D) then N / D + 1
        else if N / D % 2 = 0 then N / D else N / D + 1) ∧
      2 * ((k : Int) * D - N) ≤ D ∧ 2 * ((N : Int) - k * D) ≤ D := by
    have hdm := Nat.div_add_mod N D
    have hmod := Nat.mod_lt N hDpos
    have hdmz : (D : Int) * ((N / D : Nat) : Int) + ((N % D : Nat) : Int) = (N : Int) := by
      exact_mod_cast hdm
    obtain ⟨P, hP⟩ : ∃ P : Int, P = ((N / D : Nat) : Int) * (D : Int) := ⟨_, rfl⟩
    have hPN : P + ((N % D : Nat) : Int) = (N : Int) := by rw [hP]; linarith
    have hmodz : ((N % D : Nat) : Int) < (D : Int) := by exact_mod_cast hmod
    have hr0 : (0 : Int) ≤ ((N % D : Nat) : Int) := Int.natCast_nonneg _
    refine ⟨_, rfl, ?_, ?_⟩
    · split_ifs with c1 c2 c3
      · rw [← hP]; omega
      · rw [Nat.cast_add, Nat.cast_one, add_mul, one_mul, ← hP]; omega
      · rw [← hP]; omega
      · rw [Nat.cast_add, Nat.cast_one, add_mul, one_mul, ← hP]; omega
    · split_ifs with c1 c2 c3
      · rw [← hP]; omega
      · rw [Nat.cast_add, Nat.cast_one, add_mul, one_mul, ← hP]; omega
      · rw [← hP]; omega
      · rw [Nat.cast_add, Nat.cast_one, add_mul, one_mul, ← hP]; omega
  have hkq1 : (k : ℚ) - (N : ℚ) / D ≤ 1 / 2 := by
    have h : (2 : ℚ) * ((k : ℚ) * D - N) ≤ D := by exact_mod_cast hk1
    rw [sub_le_iff_le_add, ← sub_le_iff_le_add', le_div_iff₀ hDq]
    nlinarith
  have hkq2 : (N : ℚ) / D - (k : ℚ) ≤ 1 / 2 := by
    have h : (2 : ℚ) * ((N : ℚ) - k * D) ≤ D := by exact_mod_cast hk2
    rw [sub_le_iff_le_add, div_le_iff₀ hDq]
    nlinarith
  rw [hND] at hkq1 hkq2
  -- the range of the significand
  have hpow : (2 : ℚ) ^ e * (2 : ℚ) ^ (52 - e) = 2 ^ 52 := by
    rw [← zpow_add₀ (by norm_num)]
    rw [show e + (52 - e) = ((52 : Nat) : Int) by push_cast; ring, zpow_natCast]
  have hpow1 : (2 : ℚ) ^ (e + 1) * (2 : ℚ) ^ (52 - e) = 2 ^ 53 := by
    rw [← zpow_add₀ (by norm_num)]
    rw [show e + 1 + (52 - e) = ((53 : Nat) : Int) by push_cast; ring, zpow_natCast]
  have hp : (0 : ℚ) < (2 : ℚ) ^ (52 - e) := by positivity
  have ht1 : (2 : ℚ) ^ 52 ≤ (n : ℚ) / d * (2 : ℚ) ^ (52 - e) := by
    rw [← hpow]; exact mul_le_mul_of_nonneg_right hle hp.le
  have ht2 : (n : ℚ) / d * (2 : ℚ) ^ (52 - e) < 2 ^ 53 := by
    rw [← hpow1]; exact mul_lt_mul_of_pos_right hlt hp
  have hk52 : 2 ^ 52 ≤ k := by
    have h : ((2 ^ 52 : Nat) : ℚ) - 1 < (k : ℚ) := by push_cast; linarith
    have h2 : ((2 ^ 52 - 1 : Nat) : ℚ) < (k : ℚ) := by
      rw [Nat.cast_sub (by norm_num)]; push_cast; push_cast at h; linarith
    have h3 : 2 ^ 52 - 1 < k := by exact_mod_cast h2
    omega
  have hk53 : k ≤ 2 ^ 53 := by
    have h : (k : ℚ) < ((2 ^ 53 + 1 : Nat) : ℚ) := by push_cast; linarith
    have h3 : k < 2 ^ 53 + 1 := by exact_mod_cast h
    omega
  refine ⟨e, k, ?_, ?_, ?_, hle, hlt, hkq1, hkq2, hk52, hk53⟩
  · unfold F64.round
    rw [if_neg hn0]
    simp only [Int.natAbs_ofNat, hsign, one_mul]
    rw [← he, ← hN, ← hD, ← hk]
    split_ifs with h53
    · rw [F64.toRat_mk, h53]
      rw [show e - 51 = (e - 52) + 1 by ring, zpow_add₀ (by norm_num)]
      push_cast
      ring
    · rw [F64.toRat_mk]
      push_cast
      ring
  · unfold F64.round
    rw [if_neg hn0]
    simp only [Int.natAbs_ofNat, hsign, one_mul]
    rw [← he, ← hN, ← hD, ← hk]
    split_ifs
    · show (0 : Int) ≤ 2 ^ 52
      positivity
    · show (0 : Int) ≤ (k : Int)
      positivity
  · unfold F64.round
    rw [if_neg hn0]
    simp only [Int.natAbs_ofNat, hsign, one_mul]
    rw [← he, ← hN, ← hD, ← hk]
    split_ifs with h53
    · show (2 : Int) ^ 52 < 2 ^ 53
      norm_num
    · show (k : Int) < 2 ^ 53
      have : k < 2 ^ 53 := lt_of_le_of_ne hk53 h53
      exact_mod_cast this


theorem F64.round_zero (d : Nat) : F64.round 0 d = ⟨0, 0⟩ := by
  unfold F64.round
  simp

theorem F64.toRat_eq (x : F64) : x.toRat = (x.m : ℚ) * (2 : ℚ) ^ x.e := by
  cases x with
  | mk m e => exact F64.toRat_mk m e

theorem F64.round_canon (n : Int) (d : Nat) (hn : 0 ≤ n) :
    0 ≤ (F64.round n d).m ∧ (F64.round n d).m < 2 ^ 53 := by
  obtain ⟨a, rfl⟩ := Int.eq_ofNat_of_zero_le hn
  rcases Nat.eq_zero_or_pos a with h0 | ha
  · subst h0
    rw [show ((0 : Nat) : Int) = 0 from rfl, F64.round_zero]
    exact ⟨le_refl _, by norm_num⟩
  rcases Nat.eq_zero_or_pos d with h0 | hd
  · subst h0
    have : F64.round (a : Int) 0 = ⟨0, 0⟩ := by unfold F64.round; simp
    rw [this]
    exact ⟨le_refl _, by norm_num⟩
  obtain ⟨e, k, _, h1, h2, _⟩ := F64.round_near a d ha hd
  exact ⟨h1, h2⟩

theorem F64.round_le (n : Int) (d : Nat) (hn : 0 ≤ n) (hd : 0 < d) (M : Nat) (E : Int)
    (hM : M < 2 ^ 53) (h : (n : ℚ) / d ≤ (M : ℚ) * (2 : ℚ) ^ E) :
    (F64.round n d).toRat ≤ (M : ℚ) * (2 : ℚ) ^ E := by
  obtain ⟨a, rfl⟩ := Int.eq_ofNat_of_zero_le hn
  have hE : (0 : ℚ) < (2 : ℚ) ^ E := by positivity
  rcases Nat.eq_zero_or_pos a with h0 | ha
  · subst h0
    rw [show ((0 : Nat) : Int) = 0 from rfl, F64.round_zero, F64.toRat_mk]
    simp only [Int.cast_zero, zero_mul]
    positivity
  obtain ⟨e, k, hval, _, _, hle, _, hk1, _, _, _⟩ := F64.round_near a d ha hd
  simp only [Int.cast_natCast] at h
  have hMq : (M : ℚ) < 2 ^ 53 := by exact_mod_cast hM
  have he : e < 53 + E := by
    by_contra hcon
    have h1 : 53 + E ≤ e := by omega
    have h2 : (2 : ℚ) ^ (53 + E) ≤ (2 : ℚ) ^ e := zpow_le_zpow_right₀ (by norm_num) h1
    have h3 : (2 : ℚ) ^ (53 + E) = 2 ^ 53 * (2 : ℚ) ^ E := by
      rw [zpow_add₀ (by norm_num)]; norm_cast
    have h4 : (M : ℚ) * (2 : ℚ) ^ E < 2 ^ 53 * (2 : ℚ) ^ E := mul_lt_mul_of_pos_right hMq hE
    linarith
  obtain ⟨s, hs⟩ : ∃ s : Nat, (s : Int) = E - e + 52 := ⟨(E - e + 52).toNat, by omega⟩
  have hu : (0 : ℚ) < (2 : ℚ) ^ (e - 52) := by positivity
  have hw : (0 : ℚ) < (2 : ℚ) ^ (52 - e) := by positivity
  have huw : (2 : ℚ) ^ (e - 52) * (2 : ℚ) ^ (52 - e) = 1 := by
    rw [← zpow_add₀ (by norm_num), show e - 52 + (52 - e) = 0 by ring, zpow_zero]
  have hEs : (2 : ℚ) ^ E * (2 : ℚ) ^ (52 - e) = ((2 ^ s : Nat) : ℚ) := by
    rw [← zpow_add₀ (by norm_num), show E + (52 - e) = (s : Int) by omega, zpow_natCast]
    push_cast; rfl
  have ht : (a : ℚ) / d * (2 : ℚ) ^ (52 - e) ≤ ((M * 2 ^ s : Nat) : ℚ) := by
    have := mul_le_mul_of_nonneg_right h hw.le
    rw [mul_assoc, hEs] at this
    push_cast at this ⊢
    exact this
  have hk : k ≤ M * 2 ^ s := by
    by_contra hcon
    have h1 : M * 2 ^ s + 1 ≤ k := by omega
    have h2 : ((M * 2 ^ s : Nat) : ℚ) + 1 ≤ (k : ℚ) := by exact_mod_cast h1
    linarith
  have hkq : (k : ℚ) ≤ ((M * 2 ^ s : Nat) : ℚ) := by exact_mod_cast hk
  rw [hval]
  calc (k : ℚ) * (2 : ℚ) ^ (e - 52) ≤ ((M * 2 ^ s : Nat) : ℚ) * (2 : ℚ) ^ (e - 52) :=
        mul_le_mul_of_nonneg_right hkq hu.le
    _ = (M : ℚ) * (2 : ℚ) ^ E := by
        rw [Nat.cast_mul, ← hEs]
        calc (M : ℚ) * ((2 : ℚ) ^ E * (2 : ℚ) ^ (52 - e)) * (2 : ℚ) ^ (e - 52)
            = (M : ℚ) * (2 : ℚ) ^ E * ((2 : ℚ) ^ (e - 52) * (2 : ℚ) ^ (52 - e)) := by ring
          _ = (M : ℚ) * (2 : ℚ) ^ E := by rw [huw, mul_one]

theorem F64.round_ge (n : Int) (d : Nat) (hn : 0 ≤ n) (hd : 0 < d) (M : Nat) (E : Int)
    (hM : M < 2 ^ 53) (h : (M : ℚ) * (2 : ℚ) ^ E ≤ (n : ℚ) / d) :
    (M : ℚ) * (2 : ℚ) ^ E ≤ (F64.round n d).toRat := by
  obtain ⟨a, rfl⟩ := Int.eq_ofNat_of_zero_le hn
  have hE : (0 : ℚ) < (2 : ℚ) ^ E := by positivity
  rcases Nat.eq_zero_or_pos a with h0 | ha
  · subst h0
    rw [show ((0 : Nat) : Int) = 0 from rfl, F64.round_zero, F64.toRat_mk]
    simp only [Int.cast_zero, zero_mul]
    simpa using h
  obtain ⟨e, k, hval, _, _, hle, _, _, hk2, hk52, _⟩ := F64.round_near a d ha hd
  simp only [Int.cast_natCast] at h
  have hMq : (M : ℚ) < 2 ^ 53 := by exact_mod_cast hM
  have hu : (0 : ℚ) < (2 : ℚ) ^ (e - 52) := by positivity
  have hw : (0 : ℚ) < (2 : ℚ) ^ (52 - e) := by positivity
  have huw : (2 : ℚ) ^ (e - 52) * (2 : ℚ) ^ (52 - e) = 1 := by
    rw [← zpow_add₀ (by norm_num), show e - 52 + (52 - e) = 0 by ring, zpow_zero]
  rw [hval]
  rcases le_or_lt 0 (E - e + 52) with hs0 | hs0
  · obtain ⟨s, hs⟩ : ∃ s : Nat, (s : Int) = E - e + 52 := ⟨(E - e + 52).toNat, by omega⟩
    have hEs : (2 : ℚ) ^ E * (2 : ℚ) ^ (52 - e) = ((2 ^ s : Nat) : ℚ) := by
      rw [← zpow_add₀ (by norm_num), show E + (52 - e) = (s : Int) by omega, zpow_natCast]
      push_cast; rfl
    have ht : ((M * 2 ^ s : Nat) : ℚ) ≤ (a : ℚ) / d * (2 : ℚ) ^ (52 - e) := by
      have := mul_le_mul_of_nonneg_right h hw.le
      rw [mul_assoc, hEs] at this
      push_cast at this ⊢
      exact this
    have hk : M * 2 ^ s ≤ k := by
      by_contra hcon
      have h1 : k + 1 ≤ M * 2 ^ s := by omega
      have h2 : (k : ℚ) + 1 ≤ ((M * 2 ^ s : Nat) : ℚ) := by exact_mod_cast h1
      linarith
    have hkq : ((M * 2 ^ s : Nat) : ℚ) ≤ (k : ℚ) := by exact_mod_cast hk
    calc (M : ℚ) * (2 : ℚ) ^ E
        = (M : ℚ) * (2 : ℚ) ^ E * ((2 : ℚ) ^ (e - 52) * (2 : ℚ) ^ (52 - e)) := by
          rw [huw, mul_one]
      _ = (M : ℚ) * ((2 : ℚ) ^ E * (2 : ℚ) ^ (52 - e)) * (2 : ℚ) ^ (e - 52) := by ring
      _ = ((M * 2 ^ s : Nat) : ℚ) * (2 : ℚ) ^ (e - 52) := by rw [hEs, Nat.cast_mul]
      _ ≤ (k : ℚ) * (2 : ℚ) ^ (e - 52) := mul_le_mul_of_nonneg_right hkq hu.le
  · have h1 : 53 + E ≤ e := by omega
    have h2 : (2 : ℚ) ^ (53 + E) ≤ (2 : ℚ) ^ e := zpow_le_zpow_right₀ (by norm_num) h1
    have h3 : (2 : ℚ) ^ (53 + E) = 2 ^ 53 * (2 : ℚ) ^ E := by
      rw [zpow_add₀ (by norm_num)]; norm_cast
    have h4 : (M : ℚ) * (2 : ℚ) ^ E ≤ 2 ^ 53 * (2 : ℚ) ^ E :=
      mul_le_mul_of_nonneg_right hMq.le hE.le
    have h5 : (2 : ℚ) ^ e = 2 ^ 52 * (2 : ℚ) ^ (e - 52) := by
      rw [show e = ((52 : Nat) : Int) + (e - 52) by push_cast; ring, zpow_add₀ (by norm_num),
        zpow_natCast]
      congr 2
      push_cast; ring
    have hkq : (2 : ℚ) ^ 52 ≤ (k : ℚ) := by exact_mod_cast hk52
    have h6 : (2 : ℚ) ^ 52 * (2 : ℚ) ^ (e - 52) ≤ (k : ℚ) * (2 : ℚ) ^ (e - 52) :=
      mul_le_mul_of_nonneg_right hkq hu.le
    linarith

theorem F64.round_err (n : Int) (d : Nat) (hn : 0 ≤ n) (hd : 0 < d) :
    (F64.round n d).toRat - (n : ℚ) / d ≤ (n : ℚ) / d / 2 ^ 53 ∧
    (n : ℚ) / d - (F64.round n d).toRat ≤ (n : ℚ) / d / 2 ^ 53 := by
  obtain ⟨a, rfl⟩ := Int.eq_ofNat_of_zero_le hn
  rcases Nat.eq_zero_or_pos a with h0 | ha
  · subst h0
    rw [show ((0 : Nat) : Int) = 0 from rfl, F64.round_zero, F64.toRat_mk]
    simp
  obtain ⟨e, k, hval, _, _, hle, _, hk1, hk2, _, _⟩ := F64.round_near a d ha hd
  simp only [Int.cast_natCast]
  have hu : (0 : ℚ) < (2 : ℚ) ^ (e - 52) := by positivity
  have huw : (2 : ℚ) ^ (e - 52) * (2 : ℚ) ^ (52 - e) = 1 := by
    rw [← zpow_add₀ (by norm_num), show e - 52 + (52 - e) = 0 by ring, zpow_zero]
  have h5 : (2 : ℚ) ^ e = 2 ^ 52 * (2 : ℚ) ^ (e - 52) := by
    rw [show e = ((52 : Nat) : Int) + (e - 52) by push_cast; ring, zpow_add₀ (by norm_num),
      zpow_natCast]
    congr 2
    push_cast; ring
  have hx : (a : ℚ) / d = (a : ℚ) / d * (2 : ℚ) ^ (52 - e) * (2 : ℚ) ^ (e - 52) := by
    rw [mul_assoc, mul_comm ((2 : ℚ) ^ (52 - e)), huw, mul_one]
  rw [hval]
  set t := (a : ℚ) / d * (2 : ℚ) ^ (52 - e) with ht
  set u := (2 : ℚ) ^ (e - 52) with hu'
  have hxu : (a : ℚ) / d = t * u := hx
  rw [hxu]
  have hle2 : 2 ^ 52 * u ≤ t * u := by rw [← h5, ← hxu]; exact hle
  constructor
  · have : (k - t) * u ≤ 1 / 2 * u := mul_le_mul_of_nonneg_right hk1 hu.le
    have h53 : (2 : ℚ) ^ 53 = 2 * 2 ^ 52 := by norm_num
    rw [le_div_iff₀ (by positivity), h53]
    nlinarith
  · have : (t - k) * u ≤ 1 / 2 * u := mul_le_mul_of_nonneg_right hk2 hu.le
    have h53 : (2 : ℚ) ^ 53 = 2 * 2 ^ 52 := by norm_num
    rw [le_div_iff₀ (by positivity), h53]
    nlinarith


theorem F64.round_exact_near (n : Int) (d : Nat) (hn : 0 ≤ n) (hd : 0 < d) (Y : Nat)
    (hY : Y < 2 ^ 53) (h1 : (Y : ℚ) ≤ (n : ℚ) / d)
    (h2 : ((n : ℚ) / d - Y) * 2 ^ 54 < (n : ℚ) / d) :
    (F64.round n d).toRat = (Y : ℚ) := by
  obtain ⟨a, rfl⟩ := Int.eq_ofNat_of_zero_le hn
  rcases Nat.eq_zero_or_pos a with h0 | ha
  · subst h0
    rw [show ((0 : Nat) : Int) = 0 from rfl, F64.round_zero, F64.toRat_mk]
    simp only [Int.cast_zero, zero_mul]
    simp only [Nat.cast_zero, Int.cast_zero, zero_div] at h1
    have : (0 : ℚ) ≤ (Y : ℚ) := Nat.cast_nonneg _
    linarith
  obtain ⟨e, k, hval, _, _, hle, hlt, hk1, hk2, _, _⟩ := F64.round_near a d ha hd
  simp only [Int.cast_natCast] at h1 h2
  have hYq : (Y : ℚ) + 1 ≤ 2 ^ 53 := by
    have : Y + 1 ≤ 2 ^ 53 := hY
    exact_mod_cast this
  have hx53 : (a : ℚ) / d < 2 ^ 53 := by
    by_contra hcon
    push_neg at hcon
    have h54 : (2 : ℚ) ^ 54 = 2 * 2 ^ 53 := by norm_num
    nlinarith
  have he : e ≤ 52 := by
    by_contra hcon
    have h1 : (53 : Int) ≤ e := by omega
    have h2 : (2 : ℚ) ^ (53 : Int) ≤ (2 : ℚ) ^ e := zpow_le_zpow_right₀ (by norm_num) h1
    have h3 : (2 : ℚ) ^ (53 : Int) = 2 ^ 53 := by norm_cast
    linarith
  obtain ⟨s, hs⟩ : ∃ s : Nat, (s : Int) = 52 - e := ⟨(52 - e).toNat, by omega⟩
  have hu : (0 : ℚ) < (2 : ℚ) ^ (e - 52) := by positivity
  have hw : (0 : ℚ) < (2 : ℚ) ^ (52 - e) := by positivity
  have huw : (2 : ℚ) ^ (e - 52) * (2 : ℚ) ^ (52 - e) = 1 := by
    rw [← zpow_add₀ (by norm_num), show e - 52 + (52 - e) = 0 by ring, zpow_zero]
  have hws : (2 : ℚ) ^ (52 - e) = ((2 ^ s : Nat) : ℚ) := by
    rw [← hs, zpow_natCast]; push_cast; rfl
  have h54 : (2 : ℚ) ^ (e + 1) * (2 : ℚ) ^ (52 - e) = 2 ^ 53 := by
    rw [← zpow_add₀ (by norm_num)]
    rw [show e + 1 + (52 - e) = ((53 : Nat) : Int) by push_cast; ring, zpow_natCast]
  -- the scaled value is within one half above the integer Y * 2 ^ s
  have hlo : ((Y * 2 ^ s : Nat) : ℚ) ≤ (a : ℚ) / d * (2 : ℚ) ^ (52 - e) := by
    rw [Nat.cast_mul, ← hws]
    exact mul_le_mul_of_nonneg_right h1 hw.le
  have hhi : (a : ℚ) / d * (2 : ℚ) ^ (52 - e) - ((Y * 2 ^ s : Nat) : ℚ) < 1 / 2 := by
    rw [Nat.cast_mul, ← hws, ← sub_mul]
    have hxw : (a : ℚ) / d * (2 : ℚ) ^ (52 - e) < 2 ^ 53 := by
      rw [← h54]; exact mul_lt_mul_of_pos_right hlt hw
    have h3 : ((a : ℚ) / d - Y) * 2 ^ 54 * (2 : ℚ) ^ (52 - e)
        < (a : ℚ) / d * (2 : ℚ) ^ (52 - e) := mul_lt_mul_of_pos_right h2 hw
    have h54' : (2 : ℚ) ^ 54 = 2 * 2 ^ 53 := by norm_num
    nlinarith
  have hk : k = Y * 2 ^ s := by
    have ha1 : (k : ℚ) < ((Y * 2 ^ s + 1 : Nat) : ℚ) := by push_cast; push_cast at hhi; linarith
    have ha2 : ((Y * 2 ^ s : Nat) : ℚ) < ((k + 1 : Nat) : ℚ) := by
      push_cast; push_cast at hlo; linarith
    have hb1 : k < Y * 2 ^ s + 1 := by exact_mod_cast ha1
    have hb2 : Y * 2 ^ s < k + 1 := by exact_mod_cast ha2
    omega
  rw [hval, hk, Nat.cast_mul, ← hws, mul_assoc, mul_comm ((2 : ℚ) ^ (52 - e)), huw, mul_one]

theorem F64.toRat_nonneg (x : F64) (h : 0 ≤ x.m) : 0 ≤ x.toRat := by
  rw [F64.toRat_eq]
  have : (0 : ℚ) ≤ (x.m : ℚ) := by exact_mod_cast h
  positivity

theorem F64.mul_ratio (x y : F64) :
    ((x.num * y.num : Int) : ℚ) / ((x.den * y.den : Nat) : ℚ) = x.toRat * y.toRat := by
  unfold F64.toRat
  have h1 : ((x.den : Nat) : ℚ) ≠ 0 := by exact_mod_cast (F64.den_pos x).ne'
  have h2 : ((y.den : Nat) : ℚ) ≠ 0 := by exact_mod_cast (F64.den_pos y).ne'
  push_cast
  field_simp
  try ring

theorem F64.add_ratio (x y : F64) :
    ((x.num * y.den + y.num * x.den : Int) : ℚ) / ((x.den * y.den : Nat) : ℚ)
      = x.toRat + y.toRat := by
  unfold F64.toRat
  have h1 : ((x.den : Nat) : ℚ) ≠ 0 := by exact_mod_cast (F64.den_pos x).ne'
  have h2 : ((y.den : Nat) : ℚ) ≠ 0 := by exact_mod_cast (F64.den_pos y).ne'
  push_cast
  field_simp
  try ring

theorem F64.sub_ratio (x y : F64) :
    ((x.num * y.den - y.num * x.den : Int) : ℚ) / ((x.den * y.den : Nat) : ℚ)
      = x.toRat - y.toRat := by
  unfold F64.toRat
  have h1 : ((x.den : Nat) : ℚ) ≠ 0 := by exact_mod_cast (F64.den_pos x).ne'
  have h2 : ((y.den : Nat) : ℚ) ≠ 0 := by exact_mod_cast (F64.den_pos y).ne'
  push_cast
  field_simp
  try ring

theorem F64.sub_num_nonneg (x y : F64) (h : y.toRat ≤ x.toRat) :
    0 ≤ x.num * y.den - y.num * x.den := by
  have h1 : (0 : ℚ) < ((x.den : Nat) : ℚ) := by exact_mod_cast F64.den_pos x
  have h2 : (0 : ℚ) < ((y.den : Nat) : ℚ) := by exact_mod_cast F64.den_pos y
  unfold F64.toRat at h
  rw [div_le_div_iff₀ h2 h1] at h
  have : ((y.num * x.den : Int) : ℚ) ≤ ((x.num * y.den : Int) : ℚ) := by
    push_cast; linarith
  have h3 : y.num * x.den ≤ x.num * y.den := by exact_mod_cast this
  omega

theorem F64.toInt_nonneg (x : F64) (h : 0 ≤ x.m) : 0 ≤ x.toInt := by
  unfold F64.toInt
  have hn := F64.num_nonneg x h
  rcases eq_or_lt_of_le hn with h0 | hpos
  · rw [← h0]; simp
  · rw [Int.sign_eq_one_of_pos hpos, one_mul]
    exact Int.natCast_nonneg _


/-! ## Subround 1: the drain of a latency-critical tenant -/

theorem subround1_drain_spec (L : Int) : ∀ (fuel : Nat) (q : nvme_sw_queue),
    q.queue.length ≤ fuel →
    q.queue = (subround1_drain L fuel q).1 ++ (subround1_drain L fuel q).2.queue ∧
    (subround1_drain L fuel q).2.token_credit
      = q.token_credit - ((subround1_drain L fuel q).1.map (fun c => c.req_cost)).sum ∧
    ((subround1_drain L fuel q).2.queue = [] ∨ (subround1_drain L fuel q).2.token_credit ≤ -L) ∧
    (∀ (p : List nvme_ctx) (x : nvme_ctx) (rest : List nvme_ctx),
      (subround1_drain L fuel q).1 = p ++ x :: rest →
      q.token_credit - (p.map (fun c => c.req_cost)).sum > -L) ∧
    (subround1_drain L fuel q).2.fg_handle = q.fg_handle ∧
    (subround1_drain L fuel q).2.saved_tokens = q.saved_tokens := by
  intro fuel
  induction fuel with
  | zero =>
    intro q hlen
    have hq : q.queue = [] := List.length_eq_zero.1 (Nat.le_zero.1 hlen)
    simp [subround1_drain, hq]
  | succ fuel ih =>
    intro q hlen
    unfold subround1_drain
    cases hq : q.queue with
    | nil =>
      have hemp : ¬ (nvme_sw_queue_isempty q = false ∧ q.token_credit > -L) := by
        simp [nvme_sw_queue_isempty, hq]
      rw [if_neg hemp]
      simp [hq]
    | cons ctx rest =>
      by_cases hc : q.token_credit > -L
      · have hcond : nvme_sw_queue_isempty q = false ∧ q.token_credit > -L := by
          simp [nvme_sw_queue_isempty, hq, hc]
        rw [if_pos hcond]
        have hpop : nvme_sw_queue_pop_front q = some (ctx,
            { q with
              queue := rest
              total_token_demand := u64 ((q.total_token_demand : Int) - ctx.req_cost) }) := by
          simp [nvme_sw_queue_pop_front, hq]
        rw [hpop]
        simp only
        have hlen2 : rest.length ≤ fuel := by
          rw [hq] at hlen; simp at hlen; omega
        obtain ⟨h1, h2, h3, h4, h5, h6⟩ := ih
          { fg_handle := q.fg_handle, queue := rest, token_credit := q.token_credit - ctx.req_cost,
            saved_tokens := q.saved_tokens,
            total_token_demand := u64 ((q.total_token_demand : Int) - ctx.req_cost) } hlen2
        simp only at h1 h2 h3 h4 h5 h6
        refine ⟨?_, ?_, h3, ?_, h5, h6⟩
        · rw [List.cons_append, ← h1]
        · rw [h2, List.map_cons, List.sum_cons]; ring
        · intro p x rest2 hp
          cases p with
          | nil => simpa using hc
          | cons y p2 =>
            rw [List.cons_append, List.cons.injEq] at hp
            have := h4 p2 x rest2 hp.2
            rw [List.map_cons, List.sum_cons, ← hp.1]
            linarith
      · have hcond : ¬ (nvme_sw_queue_isempty q = false ∧ q.token_credit > -L) :=
          fun h => hc h.2
        rw [if_neg hcond]
        refine ⟨by simp [hq], by simp, Or.inr (by simpa using hc), ?_, rfl, rfl⟩
        intro p x rest2 hp
        simp at hp

/-! ## Subround 1: the deficit limit -/

theorem TOKEN_FRAC_GIVEAWAY_eq : TOKEN_FRAC_GIVEAWAY = ⟨8106479329266893, -53⟩ := by
  decide

theorem TOKEN_FRAC_GIVEAWAY_toRat :
    TOKEN_FRAC_GIVEAWAY.toRat = 9 / 10 + 1 / (5 * 2 ^ 53) := by
  rw [TOKEN_FRAC_GIVEAWAY_eq, F64.toRat_mk]
  rw [show (-53 : Int) = -((53 : Nat) : Int) by norm_num, zpow_neg, zpow_natCast]
  norm_num

theorem F64.half_eq : F64.half = ⟨4503599627370496, -53⟩ := by
  decide

theorem subround1_token_increment_nonneg (scaled_IOPuS_limit : F64) (time_delta : Nat)
    (h : 0 ≤ scaled_IOPuS_limit.m) :
    0 ≤ (subround1_token_increment scaled_IOPuS_limit time_delta).m := by
  unfold subround1_token_increment F64.add
  apply (F64.round_canon _ _ _).1
  have h1 : 0 ≤ (F64.mul scaled_IOPuS_limit (F64.ofInt time_delta)).num := by
    apply F64.num_nonneg
    unfold F64.mul
    apply (F64.round_canon _ _ _).1
    have h2 : 0 ≤ (F64.ofInt (time_delta : Int)).num := by
      apply F64.num_nonneg
      unfold F64.ofInt
      exact (F64.round_canon _ _ (Int.natCast_nonneg _)).1
    exact mul_nonneg (F64.num_nonneg _ h) h2
  have h3 : 0 ≤ F64.half.num := by
    apply F64.num_nonneg
    rw [F64.half_eq]
    decide
  have h4 : (0 : Int) ≤ (F64.half.den : Int) := Int.natCast_nonneg _
  have h5 : (0 : Int) ≤ ((F64.mul scaled_IOPuS_limit (F64.ofInt time_delta)).den : Int) :=
    Int.natCast_nonneg _
  positivity

theorem subround1_donate_floor (token_increment : F64) (q : nvme_sw_queue)
    (local_leftover : Nat) (h : 0 ≤ token_increment.m) :
    (subround1_donate token_increment q local_leftover).1.queue = q.queue ∧
    (q.token_credit ≤ 0 → subround1_donate token_increment q local_leftover = (q, local_leftover)) ∧
    (0 ≤ (subround1_donate token_increment q local_leftover).1.token_credit ∨
      (subround1_donate token_increment q local_leftover).1.token_credit = q.token_credit) := by
  have hpos : 0 ≤ (F64.mul (F64.ofInt 3) token_increment).toInt := by
    apply F64.toInt_nonneg
    unfold F64.mul
    apply (F64.round_canon _ _ _).1
    have h2 : 0 ≤ (F64.ofInt 3).num := by
      apply F64.num_nonneg
      unfold F64.ofInt
      exact (F64.round_canon _ _ (by norm_num)).1
    exact mul_nonneg h2 (F64.num_nonneg _ h)
  unfold subround1_donate
  simp only
  by_cases hc : q.token_credit > (F64.mul (F64.ofInt 3) token_increment).toInt
  · rw [if_pos hc]
    refine ⟨rfl, fun h0 => absurd h0 (by omega), Or.inl ?_⟩
    simp only
    have hcpos : 0 ≤ q.token_credit := by omega
    obtain ⟨hC1, hC2⟩ := F64.round_canon q.token_credit 1 hcpos
    have hCnum : 0 ≤ (F64.ofInt q.token_credit).num := F64.num_nonneg _ hC1
    have hG : 0 ≤ TOKEN_FRAC_GIVEAWAY.num := by
      apply F64.num_nonneg
      rw [TOKEN_FRAC_GIVEAWAY_eq]
      decide
    have hGle : TOKEN_FRAC_GIVEAWAY.toRat ≤ 1 := by
      rw [TOKEN_FRAC_GIVEAWAY_toRat]; norm_num
    have hCrat : 0 ≤ (F64.ofInt q.token_credit).toRat := F64.toRat_nonneg _ hC1
    obtain ⟨M, hM⟩ := Int.eq_ofNat_of_zero_le hC1
    have hM53 : M < 2 ^ 53 := by
      have : ((M : Nat) : Int) < 2 ^ 53 := by rw [← hM]; exact hC2
      exact_mod_cast this
    have hCeq : (F64.ofInt q.token_credit).toRat
        = (M : ℚ) * (2 : ℚ) ^ (F64.ofInt q.token_credit).e := by
      rw [F64.toRat_eq]
      have : (F64.ofInt q.token_credit).m = (M : Int) := hM
      rw [this]
      push_cast
      rfl
    have hle : (F64.mul (F64.ofInt q.token_credit) TOKEN_FRAC_GIVEAWAY).toRat
        ≤ (F64.ofInt q.token_credit).toRat := by
      rw [hCeq]
      unfold F64.mul
      apply F64.round_le _ _ (mul_nonneg hCnum hG)
        (Nat.mul_pos (F64.den_pos _) (F64.den_pos _)) M _ hM53
      rw [F64.mul_ratio, ← hCeq]
      nlinarith
    apply F64.toInt_nonneg
    unfold F64.sub
    exact (F64.round_canon _ _ (F64.sub_num_nonneg _ _ hle)).1
  · rw [if_neg hc]
    exact ⟨rfl, fun _ => rfl, Or.inr rfl⟩


theorem subround1_drain_floor (L C : Int) : ∀ (fuel : Nat) (q : nvme_sw_queue),
    (∀ ctx ∈ q.queue, ctx.req_cost ≤ C) → -L - C < q.token_credit →
    -L - C < (subround1_drain L fuel q).2.token_credit ∧
    (∀ ctx ∈ (subround1_drain L fuel q).2.queue, ctx.req_cost ≤ C) := by
  intro fuel
  induction fuel with
  | zero =>
    intro q hcost hstart
    simp only [subround1_drain]
    exact ⟨hstart, hcost⟩
  | succ fuel ih =>
    intro q hcost hstart
    unfold subround1_drain
    by_cases hcond : nvme_sw_queue_isempty q = false ∧ q.token_credit > -L
    · rw [if_pos hcond]
      cases hq : q.queue with
      | nil =>
        simp [nvme_sw_queue_isempty, hq] at hcond
      | cons ctx rest =>
        have hpop : nvme_sw_queue_pop_front q = some (ctx,
            { q with
              queue := rest
              total_token_demand := u64 ((q.total_token_demand : Int) - ctx.req_cost) }) := by
          simp [nvme_sw_queue_pop_front, hq]
        rw [hpop]
        simp only
        have hctx : ctx.req_cost ≤ C := hcost ctx (by rw [hq]; exact List.mem_cons_self _ _)
        apply ih
        · intro c hc
          exact hcost c (by rw [hq]; exact List.mem_cons_of_mem _ hc)
        · simp only
          have := hcond.2
          omega
    · rw [if_neg hcond]
      exact ⟨hstart, hcost⟩

theorem nvme_sw_queue_push_back_foldl (arrivals : List nvme_ctx) : ∀ (q : nvme_sw_queue),
    (arrivals.foldl nvme_sw_queue_push_back q).queue = q.queue ++ arrivals ∧
    (arrivals.foldl nvme_sw_queue_push_back q).token_credit = q.token_credit := by
  induction arrivals with
  | nil => intro q; simp
  | cons a rest ih =>
    intro q
    rw [List.foldl_cons]
    obtain ⟨h1, h2⟩ := ih (nvme_sw_queue_push_back q a)
    rw [h1, h2]
    simp [nvme_sw_queue_push_back]

theorem subround1_lc_floor (L C : Int) (scaled_IOPuS_limit : F64) (time_delta : Nat)
    (q : nvme_sw_queue) (local_leftover : Nat)
    (hrate : 0 ≤ scaled_IOPuS_limit.m) (hL : 0 ≤ L) (hC : 0 < C)
    (hcost : ∀ ctx ∈ q.queue, ctx.req_cost ≤ C) (hstart : -L - C < q.token_credit) :
    -L - C < (subround1_lc L scaled_IOPuS_limit time_delta q local_leftover).2.1.token_credit ∧
    (∀ ctx ∈ (subround1_lc L scaled_IOPuS_limit time_delta q local_leftover).2.1.queue,
      ctx.req_cost ≤ C) ∧
    ((subround1_lc L scaled_IOPuS_limit time_delta q local_leftover).2.1.queue ≠ [] →
      (subround1_lc L scaled_IOPuS_limit time_delta q local_leftover).2.1.token_credit ≤ -L) := by
  have hinc := subround1_token_increment_nonneg scaled_IOPuS_limit time_delta hrate
  have hinc2 := F64.toInt_nonneg _ hinc
  obtain ⟨hd1, hd2⟩ := subround1_drain_floor L C q.queue.length
    { q with token_credit := q.token_credit
        + (subround1_token_increment scaled_IOPuS_limit time_delta).toInt }
    hcost (by simp only; omega)
  obtain ⟨_, _, hs3, _, _, _⟩ := subround1_drain_spec L q.queue.length
    { q with token_credit := q.token_credit
        + (subround1_token_increment scaled_IOPuS_limit time_delta).toInt } (le_refl _)
  obtain ⟨hq, hno, hor⟩ := subround1_donate_floor
    (subround1_token_increment scaled_IOPuS_limit time_delta)
    (subround1_drain L q.queue.length
      { q with token_credit := q.token_credit
          + (subround1_token_increment scaled_IOPuS_limit time_delta).toInt }).2
    local_leftover hinc
  unfold subround1_lc
  simp only
  refine ⟨?_, ?_, ?_⟩
  · rcases hor with h | h
    · omega
    · rw [h]; exact hd1
  · rw [hq]; exact hd2
  · intro hne
    rw [hq] at hne
    rcases hs3 with h | h
    · exact absurd h hne
    · rw [hno (by omega)]
      exact h


theorem subround1_lc_rounds_inv (L C : Int) (hL : 0 ≤ L) (hC : 0 < C) :
    ∀ (rounds : List (F64 × Nat × List nvme_ctx × Nat)) (q : nvme_sw_queue),
    (∀ r ∈ rounds, 0 ≤ r.1.m ∧ ∀ ctx ∈ r.2.2.1, ctx.req_cost ≤ C) →
    (∀ ctx ∈ q.queue, ctx.req_cost ≤ C) → -L - C < q.token_credit →
    -L - C < (subround1_lc_rounds L rounds q).token_credit ∧
    (rounds ≠ [] → (subround1_lc_rounds L rounds q).queue ≠ [] →
      (subround1_lc_rounds L rounds q).token_credit ≤ -L) := by
  intro rounds
  induction rounds with
  | nil =>
    intro q _ _ hstart
    exact ⟨hstart, fun h => absurd rfl h⟩
  | cons r rest ih =>
    intro q hrounds hcost hstart
    obtain ⟨rate, D, arrivals, ll⟩ := r
    have hr := hrounds (rate, D, arrivals, ll) (List.mem_cons_self _ _)
    simp only at hr
    obtain ⟨hp1, hp2⟩ := nvme_sw_queue_push_back_foldl arrivals q
    obtain ⟨h1, h2, h3⟩ := subround1_lc_floor L C rate D
      (arrivals.foldl nvme_sw_queue_push_back q) ll hr.1 hL hC
      (by
        intro ctx hctx
        rw [hp1, List.mem_append] at hctx
        rcases hctx with h | h
        · exact hcost ctx h
        · exact hr.2 ctx h)
      (by rw [hp2]; exact hstart)
    obtain ⟨i1, i2⟩ := ih
      (subround1_lc L rate D (arrivals.foldl nvme_sw_queue_push_back q) ll).2.1
      (fun r hr => hrounds r (List.mem_cons_of_mem _ hr)) h2 h1
    show -L - C < (subround1_lc_rounds L rest
        (subround1_lc L rate D (arrivals.foldl nvme_sw_queue_push_back q) ll).2.1).token_credit ∧
      (_ → (subround1_lc_rounds L rest
        (subround1_lc L rate D (arrivals.foldl nvme_sw_queue_push_back q) ll).2.1).queue ≠ [] →
      (subround1_lc_rounds L rest
        (subround1_lc L rate D (arrivals.foldl nvme_sw_queue_push_back q) ll).2.1).token_credit
          ≤ -L)
    refine ⟨i1, fun _ => ?_⟩
    cases rest with
    | nil => exact h3
    | cons r2 rest2 => exact i2 (List.cons_ne_nil _ _)

/-- C14 (amended). For every latency-critical tenant and every sequence of scheduling
rounds (any non-negative rates, elapsed times and arrivals) in which no request costs more
than `C > 0`, starting from `token_credit >= -TOKEN_DEFICIT_LIMIT` with
`TOKEN_DEFICIT_LIMIT >= 0`: after each round `token_credit > -TOKEN_DEFICIT_LIMIT - C`
(the last request issued can take the credit below the limit by less than its cost), and
whenever requests are left in the queue after a round, `token_credit <=
-TOKEN_DEFICIT_LIMIT`. -/
theorem subround1_lc_rounds_deficit_bound (TOKEN_DEFICIT_LIMIT C : Int)
    (rounds : List (F64 × Nat × List nvme_ctx × Nat)) (q : nvme_sw_queue)
    (hL : 0 ≤ TOKEN_DEFICIT_LIMIT) (hC : 0 < C)
    (hrounds : ∀ r ∈ rounds, 0 ≤ r.1.m ∧ ∀ ctx ∈ r.2.2.1, ctx.req_cost ≤ C)
    (hcost : ∀ ctx ∈ q.queue, ctx.req_cost ≤ C)
    (hstart : -TOKEN_DEFICIT_LIMIT ≤ q.token_credit) :
    -TOKEN_DEFICIT_LIMIT - C < (subround1_lc_rounds TOKEN_DEFICIT_LIMIT rounds q).token_credit ∧
    (rounds ≠ [] → (subround1_lc_rounds TOKEN_DEFICIT_LIMIT rounds q).queue ≠ [] →
      (subround1_lc_rounds TOKEN_DEFICIT_LIMIT rounds q).token_credit ≤ -TOKEN_DEFICIT_LIMIT) :=
  subround1_lc_rounds_inv TOKEN_DEFICIT_LIMIT C hL hC rounds q hrounds hcost (by omega)

/-- C14 (counterexample). With `TOKEN_DEFICIT_LIMIT = 1000`, a latency-critical tenant at
`token_credit = -999` with one request of cost 10 queued: `nvme_sched_subround1` issues the
request and leaves `token_credit = -1009`, below `-TOKEN_DEFICIT_LIMIT`. -/
theorem subround1_credit_below_limit :
    Scenario.near_limit.TOKEN_DEFICIT_LIMIT = 1000 ∧
    ((Scenario.near_limit.adm.percpu 0).nvme_tenant_manager.tenant_swq.map
      (fun q => q.token_credit)) = [-999] ∧
    (nvme_sched_subround1 Scenario.near_limit 0 0).2 = [Scenario.write_req 1] ∧
    (((nvme_sched_subround1 Scenario.near_limit 0 0).1.adm.percpu 0).nvme_tenant_manager.tenant_swq.map
      (fun q => q.token_credit)) = [-1009] ∧
    ¬ (-Scenario.near_limit.TOKEN_DEFICIT_LIMIT ≤ -1009) := by
  decide

/-- One round at rate 0 for the tenant of `Scenario.near_limit_swq`, with limit 1000 and
costs of at most 10: the credit stays above -1010. -/
theorem subround1_lc_rounds_deficit_bound_witness :
    (-1000 ≤ Scenario.near_limit_swq.token_credit) ∧
    -1000 - 10 < (subround1_lc_rounds 1000 [(⟨0, 0⟩, 0, [], 0)]
      Scenario.near_limit_swq).token_credit :=
  ⟨by decide,
    (subround1_lc_rounds_deficit_bound 1000 10 [(⟨0, 0⟩, 0, [], 0)] Scenario.near_limit_swq
      (by decide) (by decide) (by decide) (by decide) (by decide)).1⟩

/-! ## Subround 1: the donation -/

theorem F64.toInt_floor (x : F64) (hx : 0 ≤ x.m) :
    (x.toInt : ℚ) ≤ x.toRat ∧ x.toRat < (x.toInt : ℚ) + 1 := by
  have hxn : 0 ≤ x.num := F64.num_nonneg x hx
  have hd := F64.den_pos x
  have hxd : (0 : ℚ) < (x.den : ℚ) := by exact_mod_cast hd
  obtain ⟨a, ha⟩ : ∃ a : Nat, x.num = (a : Int) := ⟨x.num.toNat, (Int.toNat_of_nonneg hxn).symm⟩
  have hti : x.toInt = ((a / x.den : Nat) : Int) := by
    unfold F64.toInt
    rw [ha, Int.natAbs_ofNat]
    rcases Nat.eq_zero_or_pos a with h0 | hpos
    · subst h0; simp
    · rw [Int.sign_eq_one_of_pos (by exact_mod_cast hpos), one_mul]
  unfold F64.toRat
  rw [hti, ha]
  simp only [Int.cast_natCast]
  have h1 := Nat.div_mul_le_self a x.den
  have h2 := Nat.lt_div_mul_add hd (a := a)
  have h1q : ((a / x.den : Nat) : ℚ) * (x.den : ℚ) ≤ (a : ℚ) := by exact_mod_cast h1
  have h2q : (a : ℚ) < ((a / x.den : Nat) : ℚ) * (x.den : ℚ) + (x.den : ℚ) := by exact_mod_cast h2
  constructor
  · rw [le_div_iff₀ hxd]; exact h1q
  · rw [div_lt_iff₀ hxd]; linarith

theorem giveaway_product (cn : Nat) (h0 : 0 < cn) (hc : cn < 2 ^ 40) :
    0 ≤ (F64.mul (F64.ofInt (cn : Int)) TOKEN_FRAC_GIVEAWAY).m ∧
    (cn % 10 = 0 →
      (F64.mul (F64.ofInt (cn : Int)) TOKEN_FRAC_GIVEAWAY).toRat = ((9 * cn / 10 : Nat) : ℚ)) ∧
    (cn % 10 ≠ 0 →
      ((9 * cn / 10 : Nat) : ℚ) + 1 / 16
        ≤ (F64.mul (F64.ofInt (cn : Int)) TOKEN_FRAC_GIVEAWAY).toRat ∧
      (F64.mul (F64.ofInt (cn : Int)) TOKEN_FRAC_GIVEAWAY).toRat
        ≤ ((9 * cn / 10 : Nat) : ℚ) + 15 / 16) := by
  obtain ⟨hC, hCm⟩ := F64.ofInt_exact cn (by omega)
  have hCnum : 0 ≤ (F64.ofInt (cn : Int)).num := F64.num_nonneg _ hCm
  have hG : 0 ≤ TOKEN_FRAC_GIVEAWAY.num := by
    apply F64.num_nonneg
    rw [TOKEN_FRAC_GIVEAWAY_eq]
    decide
  have hnum := mul_nonneg hCnum hG
  have hden : 0 < (F64.ofInt (cn : Int)).den * TOKEN_FRAC_GIVEAWAY.den :=
    Nat.mul_pos (F64.den_pos _) (F64.den_pos _)
  have hratio := F64.mul_ratio (F64.ofInt (cn : Int)) TOKEN_FRAC_GIVEAWAY
  rw [hC, TOKEN_FRAC_GIVEAWAY_toRat] at hratio
  have hcq : (cn : ℚ) < 2 ^ 40 := by exact_mod_cast hc
  have hcq0 : (0 : ℚ) < (cn : ℚ) := by exact_mod_cast h0
  have hx : (cn : ℚ) * (9 / 10 + 1 / (5 * 2 ^ 53)) = 9 * cn / 10 + cn / (5 * 2 ^ 53) := by ring
  refine ⟨?_, ?_, ?_⟩
  · unfold F64.mul
    exact (F64.round_canon _ _ hnum).1
  · intro hmod
    have hY : 9 * cn / 10 < 2 ^ 53 := by omega
    have hYeq : ((9 * cn / 10 : Nat) : ℚ) = 9 * cn / 10 := by
      have : 9 * cn = 10 * (9 * cn / 10) := by omega
      have hq : (9 : ℚ) * cn = 10 * ((9 * cn / 10 : Nat) : ℚ) := by exact_mod_cast this
      linarith
    unfold F64.mul
    apply F64.round_exact_near _ _ hnum hden _ hY
    · rw [hratio, hYeq, hx]
      have : (0 : ℚ) ≤ cn / (5 * 2 ^ 53) := by positivity
      linarith
    · rw [hratio, hYeq, hx]
      have e1 : (9 * (cn : ℚ) / 10 + cn / (5 * 2 ^ 53) - 9 * cn / 10) * 2 ^ 54 = 2 / 5 * cn := by
        field_simp
        ring
      rw [e1]
      have : (0 : ℚ) ≤ cn / (5 * 2 ^ 53) := by positivity
      linarith
  · intro hmod
    obtain ⟨e1, e2⟩ := F64.round_err _ _ hnum hden
    rw [hratio, hx] at e1 e2
    have hs : ∃ s : Nat, 9 * cn = 10 * (9 * cn / 10) + s ∧ 1 ≤ s ∧ s ≤ 9 := by
      refine ⟨9 * cn % 10, by omega, by omega, by omega⟩
    obtain ⟨s, hs1, hs2, hs3⟩ := hs
    have hsq : (9 : ℚ) * cn = 10 * ((9 * cn / 10 : Nat) : ℚ) + s := by exact_mod_cast hs1
    have hs2q : (1 : ℚ) ≤ s := by exact_mod_cast hs2
    have hs3q : (s : ℚ) ≤ 9 := by exact_mod_cast hs3
    have hsmall : (cn : ℚ) / (5 * 2 ^ 53) ≤ 1 / 2 ^ 13 := by
      rw [div_le_div_iff₀ (by positivity) (by positivity)]
      norm_num
      linarith
    have hsmall0 : (0 : ℚ) ≤ (cn : ℚ) / (5 * 2 ^ 53) := by positivity
    have hxle : 9 * (cn : ℚ) / 10 + cn / (5 * 2 ^ 53) ≤ 2 ^ 40 := by
      have : (1 : ℚ) / 2 ^ 13 ≤ 1 := by norm_num
      linarith
    have herr : (9 * (cn : ℚ) / 10 + cn / (5 * 2 ^ 53)) / 2 ^ 53 ≤ 1 / 2 ^ 13 := by
      rw [div_le_div_iff₀ (by positivity) (by positivity)]
      norm_num
      norm_num at hxle
      linarith
    have h13 : (1 : ℚ) / 2 ^ 13 ≤ 1 / 100 := by norm_num
    show ((9 * cn / 10 : Nat) : ℚ) + 1 / 16
        ≤ (F64.round ((F64.ofInt (cn : Int)).num * TOKEN_FRAC_GIVEAWAY.num)
            ((F64.ofInt (cn : Int)).den * TOKEN_FRAC_GIVEAWAY.den)).toRat ∧
      (F64.round ((F64.ofInt (cn : Int)).num * TOKEN_FRAC_GIVEAWAY.num)
            ((F64.ofInt (cn : Int)).den * TOKEN_FRAC_GIVEAWAY.den)).toRat
        ≤ ((9 * cn / 10 : Nat) : ℚ) + 15 / 16
    constructor
    · linarith
    · linarith


theorem giveaway_leftover (cn ll : Nat) (h0 : 0 < cn) (hc : cn < 2 ^ 40) (hl : ll < 2 ^ 40) :
    (F64.add (F64.ofInt (ll : Int))
      (F64.mul (F64.ofInt (cn : Int)) TOKEN_FRAC_GIVEAWAY)).toU64 = ll + 9 * cn / 10 := by
  obtain ⟨hPm, hP0, hP1⟩ := giveaway_product cn h0 hc
  obtain ⟨hL, hLm⟩ := F64.ofInt_exact ll (by omega)
  have hY : ll + 9 * cn / 10 < 2 ^ 53 := by omega
  have hint : (F64.add (F64.ofInt (ll : Int))
      (F64.mul (F64.ofInt (cn : Int)) TOKEN_FRAC_GIVEAWAY)).toInt
        = ((ll + 9 * cn / 10 : Nat) : Int) := by
    by_cases hmod : cn % 10 = 0
    · have hsum : (F64.ofInt (ll : Int)).toRat
          + (F64.mul (F64.ofInt (cn : Int)) TOKEN_FRAC_GIVEAWAY).toRat
            = ((ll + 9 * cn / 10 : Nat) : ℚ) := by
        rw [hL, hP0 hmod]; push_cast; ring
      obtain ⟨b1, b2, b3⟩ := F64.add_bracket (F64.ofInt (ll : Int))
        (F64.mul (F64.ofInt (cn : Int)) TOKEN_FRAC_GIVEAWAY) hLm hPm 0
        (ll + 9 * cn / 10) (ll + 9 * cn / 10) hY
        (by rw [hsum]; simp) (by rw [hsum]; simp)
      simp only [pow_zero, div_one] at b1 b2
      exact F64.toInt_of_bracket _ b3 _ b1 (by linarith)
    · obtain ⟨p1, p2⟩ := hP1 hmod
      have hnum : 0 ≤ (F64.ofInt (ll : Int)).num
          * ((F64.mul (F64.ofInt (cn : Int)) TOKEN_FRAC_GIVEAWAY).den : Int)
          + (F64.mul (F64.ofInt (cn : Int)) TOKEN_FRAC_GIVEAWAY).num
            * ((F64.ofInt (ll : Int)).den : Int) := by
        have a1 := F64.num_nonneg _ hLm
        have a2 := F64.num_nonneg _ hPm
        have a3 : (0 : Int) ≤ ((F64.mul (F64.ofInt (cn : Int)) TOKEN_FRAC_GIVEAWAY).den : Int) :=
          Int.natCast_nonneg _
        have a4 : (0 : Int) ≤ ((F64.ofInt (ll : Int)).den : Int) := Int.natCast_nonneg _
        positivity
      have hden : 0 < (F64.ofInt (ll : Int)).den
          * (F64.mul (F64.ofInt (cn : Int)) TOKEN_FRAC_GIVEAWAY).den :=
        Nat.mul_pos (F64.den_pos _) (F64.den_pos _)
      obtain ⟨e1, e2⟩ := F64.round_err _ _ hnum hden
      have hm := (F64.round_canon _ ((F64.ofInt (ll : Int)).den
          * (F64.mul (F64.ofInt (cn : Int)) TOKEN_FRAC_GIVEAWAY).den) hnum).1
      rw [F64.add_ratio, hL] at e1 e2
      have hlq : (ll : ℚ) < 2 ^ 40 := by exact_mod_cast hl
      have hll0 : (0 : ℚ) ≤ (ll : ℚ) := Nat.cast_nonneg _
      have hYq : ((9 * cn / 10 : Nat) : ℚ) < 2 ^ 40 := by
        have : 9 * cn / 10 < 2 ^ 40 := by omega
        exact_mod_cast this
      have hY0 : (0 : ℚ) ≤ ((9 * cn / 10 : Nat) : ℚ) := Nat.cast_nonneg _
      have herr : ((ll : ℚ) + (F64.mul (F64.ofInt (cn : Int)) TOKEN_FRAC_GIVEAWAY).toRat) / 2 ^ 53
          ≤ 1 / 2 ^ 11 := by
        have h40 : (2 : ℚ) ^ 40 = 1099511627776 := by norm_num
        rw [h40] at hlq hYq
        rw [div_le_iff₀ (by positivity)]
        norm_num
        linarith
      have h11 : (1 : ℚ) / 2 ^ 11 ≤ 1 / 32 := by norm_num
      apply F64.toInt_of_bracket _ hm
      · show ((ll + 9 * cn / 10 : Nat) : ℚ) ≤ (F64.round _ _).toRat
        push_cast
        linarith
      · show (F64.round _ _).toRat < ((ll + 9 * cn / 10 : Nat) : ℚ) + 1
        push_cast
        linarith
  unfold F64.toU64
  rw [hint]
  exact u64_of_lt _ (by omega)

theorem giveaway_credit (cn : Nat) (h0 : 0 < cn) (hc : cn < 2 ^ 40) :
    (F64.sub (F64.ofInt (cn : Int))
      (F64.mul (F64.ofInt (cn : Int)) TOKEN_FRAC_GIVEAWAY)).toInt = ((cn / 10 : Nat) : Int) := by
  obtain ⟨hPm, hP0, hP1⟩ := giveaway_product cn h0 hc
  obtain ⟨hC, hCm⟩ := F64.ofInt_exact cn (by omega)
  have hden : 0 < (F64.ofInt (cn : Int)).den
      * (F64.mul (F64.ofInt (cn : Int)) TOKEN_FRAC_GIVEAWAY).den :=
    Nat.mul_pos (F64.den_pos _) (F64.den_pos _)
  have hcq : (cn : ℚ) < 2 ^ 40 := by exact_mod_cast hc
  have hZ : cn / 10 < 2 ^ 53 := by omega
  by_cases hmod : cn % 10 = 0
  · have hdiff : (F64.ofInt (cn : Int)).toRat
        - (F64.mul (F64.ofInt (cn : Int)) TOKEN_FRAC_GIVEAWAY).toRat = ((cn / 10 : Nat) : ℚ) := by
      rw [hC, hP0 hmod]
      have h1 : cn = 9 * cn / 10 + cn / 10 := by omega
      have h2 : (cn : ℚ) = ((9 * cn / 10 : Nat) : ℚ) + ((cn / 10 : Nat) : ℚ) := by
        exact_mod_cast h1
      linarith
    have hle : (F64.mul (F64.ofInt (cn : Int)) TOKEN_FRAC_GIVEAWAY).toRat
        ≤ (F64.ofInt (cn : Int)).toRat := by
      have : (0 : ℚ) ≤ ((cn / 10 : Nat) : ℚ) := Nat.cast_nonneg _
      linarith
    have hnum := F64.sub_num_nonneg _ _ hle
    have hm := (F64.round_canon _ ((F64.ofInt (cn : Int)).den
        * (F64.mul (F64.ofInt (cn : Int)) TOKEN_FRAC_GIVEAWAY).den) hnum).1
    have b1 := F64.round_ge _ _ hnum hden (cn / 10) 0 hZ
      (by rw [F64.sub_ratio, hdiff]; simp)
    have b2 := F64.round_le _ _ hnum hden (cn / 10) 0 hZ
      (by rw [F64.sub_ratio, hdiff]; simp)
    simp only [zpow_zero, mul_one] at b1 b2
    apply F64.toInt_of_bracket _ hm
    · exact b1
    · show (F64.round _ _).toRat < _
      linarith
  · obtain ⟨p1, p2⟩ := hP1 hmod
    have hs : cn = 9 * cn / 10 + cn / 10 + 1 := by omega
    have hsq : (cn : ℚ) = ((9 * cn / 10 : Nat) : ℚ) + ((cn / 10 : Nat) : ℚ) + 1 := by
      exact_mod_cast hs
    have hZ0 : (0 : ℚ) ≤ ((cn / 10 : Nat) : ℚ) := Nat.cast_nonneg _
    have hle : (F64.mul (F64.ofInt (cn : Int)) TOKEN_FRAC_GIVEAWAY).toRat
        ≤ (F64.ofInt (cn : Int)).toRat := by
      rw [hC]; linarith
    have hnum := F64.sub_num_nonneg _ _ hle
    have hm := (F64.round_canon _ ((F64.ofInt (cn : Int)).den
        * (F64.mul (F64.ofInt (cn : Int)) TOKEN_FRAC_GIVEAWAY).den) hnum).1
    obtain ⟨e1, e2⟩ := F64.round_err _ _ hnum hden
    rw [F64.sub_ratio, hC] at e1 e2
    have hP0' : (0 : ℚ) ≤ ((9 * cn / 10 : Nat) : ℚ) := Nat.cast_nonneg _
    have herr : ((cn : ℚ) - (F64.mul (F64.ofInt (cn : Int)) TOKEN_FRAC_GIVEAWAY).toRat) / 2 ^ 53
        ≤ 1 / 2 ^ 11 := by
      have h40 : (2 : ℚ) ^ 40 = 1099511627776 := by norm_num
      rw [h40] at hcq
      rw [div_le_iff₀ (by positivity)]
      norm_num
      linarith
    have h11 : (1 : ℚ) / 2 ^ 11 ≤ 1 / 32 := by norm_num
    apply F64.toInt_of_bracket _ hm
    · show ((cn / 10 : Nat) : ℚ) ≤ (F64.round _ _).toRat
      linarith
    · show (F64.round _ _).toRat < ((cn / 10 : Nat) : ℚ) + 1
      linarith


theorem POS_LIMIT_bounds (token_increment : F64) (h : 0 ≤ token_increment.m)
    (hinc : token_increment.toInt < 2 ^ 50) :
    3 * token_increment.toInt ≤ (F64.mul (F64.ofInt 3) token_increment).toInt ∧
    (F64.mul (F64.ofInt 3) token_increment).toInt ≤ 3 * token_increment.toInt + 3 := by
  obtain ⟨f1, f2⟩ := F64.toInt_floor token_increment h
  have hi0 := F64.toInt_nonneg token_increment h
  obtain ⟨n, hn⟩ := Int.eq_ofNat_of_zero_le hi0
  rw [hn] at f1 f2 hinc ⊢
  simp only [Int.cast_natCast] at f1 f2
  have hn50 : n < 2 ^ 50 := by exact_mod_cast hinc
  obtain ⟨h3, h3m⟩ := F64.ofInt_exact 3 (by norm_num)
  have h3' : (F64.ofInt 3).toRat = 3 := by
    have : (F64.ofInt ((3 : Nat) : Int)).toRat = ((3 : Nat) : ℚ) := h3
    simpa using this
  have h3m' : 0 ≤ (F64.ofInt 3).m := h3m
  have hnum : 0 ≤ (F64.ofInt 3).num * token_increment.num :=
    mul_nonneg (F64.num_nonneg _ h3m') (F64.num_nonneg _ h)
  have hden : 0 < (F64.ofInt 3).den * token_increment.den :=
    Nat.mul_pos (F64.den_pos _) (F64.den_pos _)
  have hm := (F64.round_canon _ ((F64.ofInt 3).den * token_increment.den) hnum).1
  have b1 := F64.round_ge _ _ hnum hden (3 * n) 0 (by omega)
    (by rw [F64.mul_ratio, h3']; push_cast; simp only [zpow_zero, mul_one]; linarith)
  have b2 := F64.round_le _ _ hnum hden (3 * n + 3) 0 (by omega)
    (by rw [F64.mul_ratio, h3']; push_cast; simp only [zpow_zero, mul_one]; linarith)
  simp only [zpow_zero, mul_one] at b1 b2
  push_cast at b1 b2
  obtain ⟨g1, g2⟩ := F64.toInt_floor (F64.mul (F64.ofInt 3) token_increment) hm
  have g1' : ((F64.mul (F64.ofInt 3) token_increment).toInt : ℚ)
      ≤ (F64.round ((F64.ofInt 3).num * token_increment.num)
          ((F64.ofInt 3).den * token_increment.den)).toRat := g1
  have g2' : (F64.round ((F64.ofInt 3).num * token_increment.num)
          ((F64.ofInt 3).den * token_increment.den)).toRat
      < ((F64.mul (F64.ofInt 3) token_increment).toInt : ℚ) + 1 := g2
  constructor
  · have : ((3 * (n : Int) : Int) : ℚ) < (((F64.mul (F64.ofInt 3) token_increment).toInt + 1 : Int) : ℚ) := by
      push_cast; linarith
    have h' : 3 * (n : Int) < (F64.mul (F64.ofInt 3) token_increment).toInt + 1 := by
      exact_mod_cast this
    omega
  · have : (((F64.mul (F64.ofInt 3) token_increment).toInt : Int) : ℚ)
        ≤ ((3 * (n : Int) + 3 : Int) : ℚ) := by
      push_cast; linarith
    exact_mod_cast this

/-- C18 (amended). For the queue `q` of a latency-critical tenant at the end of its drain,
with `token_increment = scaled_IOPuS_limit * time_delta + 0.5` the unrounded `double` and
`inc = (long) token_increment` the increment added to the credit: the donation step
compares `token_credit` with `POS_LIMIT = (long) (3 * token_increment)`, which lies between
`3 * inc` and `3 * inc + 3`. If `token_credit > POS_LIMIT` then, for a credit and a
`local_leftover` below `2 ^ 40`, `local_leftover` grows by `floor(0.9 * token_credit)` and
`token_credit` becomes `floor(token_credit / 10)`: it loses `ceil(0.9 * token_credit)`, one
token more than is donated unless `token_credit` is a multiple of 10. Otherwise both are
unchanged. -/
theorem subround1_donate_amounts (scaled_IOPuS_limit : F64) (time_delta : Nat)
    (q : nvme_sw_queue) (local_leftover : Nat)
    (hrate : 0 ≤ scaled_IOPuS_limit.m)
    (hinc : (subround1_token_increment scaled_IOPuS_limit time_delta).toInt < 2 ^ 50)
    (hc : q.token_credit < 2 ^ 40) (hl : local_leftover < 2 ^ 40) :
    3 * (subround1_token_increment scaled_IOPuS_limit time_delta).toInt
      ≤ (F64.mul (F64.ofInt 3)
          (subround1_token_increment scaled_IOPuS_limit time_delta)).toInt ∧
    (F64.mul (F64.ofInt 3) (subround1_token_increment scaled_IOPuS_limit time_delta)).toInt
      ≤ 3 * (subround1_token_increment scaled_IOPuS_limit time_delta).toInt + 3 ∧
    (q.token_credit
        > (F64.mul (F64.ofInt 3)
            (subround1_token_increment scaled_IOPuS_limit time_delta)).toInt →
      subround1_donate (subround1_token_increment scaled_IOPuS_limit time_delta) q
          local_leftover
        = ({ q with token_credit := q.token_credit / 10 },
            local_leftover + 9 * q.token_credit.toNat / 10)) ∧
    (q.token_credit
        ≤ (F64.mul (F64.ofInt 3)
            (subround1_token_increment scaled_IOPuS_limit time_delta)).toInt →
      subround1_donate (subround1_token_increment scaled_IOPuS_limit time_delta) q
          local_leftover = (q, local_leftover)) := by
  have htm := subround1_token_increment_nonneg scaled_IOPuS_limit time_delta hrate
  obtain ⟨b1, b2⟩ := POS_LIMIT_bounds _ htm hinc
  have hi0 := F64.toInt_nonneg _ htm
  refine ⟨b1, b2, ?_, ?_⟩
  · intro hgt
    have hcpos : 0 < q.token_credit := by omega
    obtain ⟨cn, hcn⟩ := Int.eq_ofNat_of_zero_le hcpos.le
    have hcn0 : 0 < cn := by omega
    have hcn40 : cn < 2 ^ 40 := by
      have : ((cn : Nat) : Int) < 2 ^ 40 := by rw [← hcn]; exact hc
      exact_mod_cast this
    unfold subround1_donate
    simp only
    rw [if_pos hgt, hcn, giveaway_leftover cn local_leftover hcn0 hcn40 hl,
      giveaway_credit cn hcn0 hcn40]
    simp only [Int.toNat_ofNat]
    congr 2
  · intro hle
    unfold subround1_donate
    simp only
    rw [if_neg (by omega)]


/-- C18 (counterexample). An idle tenant at rate 0.4 tokens/us after 1 us with 2 tokens of
credit: the rounded increment is 0, so `token_credit > 3 * inc`, yet nothing is donated
(`POS_LIMIT = (long) (3 * 0.9) = 2`). An idle tenant at rate 0 with 15 tokens of credit:
13 tokens are added to `local_leftover` but `token_credit` falls by 14, to 1. -/
theorem subround1_donation_differs :
    (subround1_token_increment (F64.div (F64.ofInt 400000) F64.million) 1).toInt = 0 ∧
    subround1_lc 1000 (F64.div (F64.ofInt 400000) F64.million) 1 ⟨1, [], 2, 0, 0⟩ 0
      = ([], ⟨1, [], 2, 0, 0⟩, 0) ∧
    (subround1_token_increment ⟨0, 0⟩ 0).toInt = 0 ∧
    subround1_lc 1000 ⟨0, 0⟩ 0 ⟨1, [], 15, 0, 0⟩ 0 = ([], ⟨1, [], 1, 0, 0⟩, 13) := by
  decide

/-- The donation step for a tenant at rate 0 with 15 tokens of credit and no leftover so
far: `POS_LIMIT` is 1, 13 tokens are donated and the credit becomes 1. -/
theorem subround1_donate_amounts_witness :
    ((15 : Int) > (F64.mul (F64.ofInt 3) (subround1_token_increment ⟨0, 0⟩ 0)).toInt) ∧
    subround1_donate (subround1_token_increment ⟨0, 0⟩ 0) ⟨1, [], 15, 0, 0⟩ 0
      = ({ (⟨1, [], 15, 0, 0⟩ : nvme_sw_queue) with token_credit := (15 : Int) / 10 },
          0 + 9 * (15 : Int).toNat / 10) :=
  ⟨by decide,
    (subround1_donate_amounts ⟨0, 0⟩ 0 ⟨1, [], 15, 0, 0⟩ 0 (by decide) (by decide)
      (by decide) (by decide)).2.2.1 (by decide)⟩

/-! ## Subround 2: token accounting -/

theorem u64_of_nonneg_lt (n : Int) (h0 : 0 ≤ n) (h : n < 18446744073709551616) :
    (u64 n : Int) = n := by
  unfold u64
  rw [Int.emod_eq_of_lt h0 h]
  exact Int.toNat_of_nonneg h0

theorem subround2_drain_spec : ∀ (fuel : Nat) (q : nvme_sw_queue) (be_tokens : Nat),
    q.queue.length ≤ fuel →
    (∀ ctx ∈ q.queue, 0 ≤ ctx.req_cost ∧ ctx.req_cost < 2147483648) →
    be_tokens < 18446744073709551616 →
    ((subround2_drain fuel q be_tokens).2.2 : Int)
        + ((subround2_drain fuel q be_tokens).1.map (fun c => c.req_cost)).sum = be_tokens ∧
    q.queue = (subround2_drain fuel q be_tokens).1 ++ (subround2_drain fuel q be_tokens).2.1.queue ∧
    (subround2_drain fuel q be_tokens).2.1.saved_tokens = q.saved_tokens ∧
    (subround2_drain fuel q be_tokens).2.1.fg_handle = q.fg_handle ∧
    (∀ ctx ∈ (subround2_drain fuel q be_tokens).1, 0 ≤ ctx.req_cost) ∧
    (∀ (p : List nvme_ctx) (x : nvme_ctx) (rest : List nvme_ctx),
      (subround2_drain fuel q be_tokens).1 = p ++ x :: rest →
      x.req_cost ≤ (be_tokens : Int) - (p.map (fun c => c.req_cost)).sum) ∧
    ((subround2_drain fuel q be_tokens).2.1.queue = [] ∨
      ((subround2_drain fuel q be_tokens).2.2 : Int)
        < nvme_sw_queue_peak_head_cost (subround2_drain fuel q be_tokens).2.1) := by
  intro fuel
  induction fuel with
  | zero =>
    intro q b hlen hcost hb
    have hq : q.queue = [] := List.length_eq_zero.1 (Nat.le_zero.1 hlen)
    simp [subround2_drain, hq]
  | succ fuel ih =>
    intro q b hlen hcost hb
    unfold subround2_drain
    cases hq : q.queue with
    | nil =>
      have hemp : ¬ (nvme_sw_queue_isempty q = false
          ∧ u64 (nvme_sw_queue_peak_head_cost q) ≤ b) := by
        simp [nvme_sw_queue_isempty, hq]
      rw [if_neg hemp]
      simp [hq]
    | cons ctx rest =>
      have hctx := hcost ctx (by rw [hq]; exact List.mem_cons_self _ _)
      have hpeak : nvme_sw_queue_peak_head_cost q = ctx.req_cost := by
        simp [nvme_sw_queue_peak_head_cost, hq]
      have hu : (u64 ctx.req_cost : Int) = ctx.req_cost :=
        u64_of_nonneg_lt _ hctx.1 (by omega)
      by_cases hc : u64 ctx.req_cost ≤ b
      · have hcond : nvme_sw_queue_isempty q = false
            ∧ u64 (nvme_sw_queue_peak_head_cost q) ≤ b := by
          rw [hpeak]
          exact ⟨by simp [nvme_sw_queue_isempty, hq], hc⟩
        rw [if_pos hcond]
        have hpop : nvme_sw_queue_pop_front q = some (ctx,
            { q with
              queue := rest
              total_token_demand := u64 ((q.total_token_demand : Int) - ctx.req_cost) }) := by
          simp [nvme_sw_queue_pop_front, hq]
        rw [hpop]
        simp only
        have hle : ctx.req_cost ≤ (b : Int) := by
          have : (u64 ctx.req_cost : Int) ≤ (b : Int) := by exact_mod_cast hc
          omega
        have hb' : ((u64 ((b : Int) - ctx.req_cost) : Nat) : Int) = (b : Int) - ctx.req_cost :=
          u64_of_nonneg_lt _ (by omega) (by omega)
        have hlen2 : rest.length ≤ fuel := by
          rw [hq] at hlen; simp at hlen; omega
        obtain ⟨h1, h2, h3, h4, h5, h6, h7⟩ := ih
          { fg_handle := q.fg_handle, queue := rest, token_credit := q.token_credit,
            saved_tokens := q.saved_tokens,
            total_token_demand := u64 ((q.total_token_demand : Int) - ctx.req_cost) }
          (u64 ((b : Int) - ctx.req_cost)) hlen2
          (fun c hc => hcost c (by rw [hq]; exact List.mem_cons_of_mem _ hc))
          (by omega)
        simp only at h1 h2 h3 h4 h5 h6 h7
        refine ⟨?_, ?_, h3, h4, ?_, ?_, h7⟩
        · rw [List.map_cons, List.sum_cons]
          omega
        · rw [List.cons_append, ← h2]
        · intro c hc
          rcases List.mem_cons.1 hc with h | h
          · rw [h]; exact hctx.1
          · exact h5 c h
        · intro p x rest2 hp
          cases p with
          | nil =>
            simp only [List.nil_append, List.cons.injEq] at hp
            rw [← hp.1]
            simpa using hle
          | cons y p2 =>
            rw [List.cons_append, List.cons.injEq] at hp
            have := h6 p2 x rest2 hp.2
            rw [List.map_cons, List.sum_cons, ← hp.1]
            omega
      · have hcond : ¬ (nvme_sw_queue_isempty q = false
            ∧ u64 (nvme_sw_queue_peak_head_cost q) ≤ b) := by
          rw [hpeak]
          exact fun h => hc h.2
        rw [if_neg hcond]
        refine ⟨by simp, by simp [hq], rfl, rfl, by simp, ?_, Or.inr ?_⟩
        · intro p x rest2 hp
          simp at hp
        · simp only
          rw [hpeak]
          have : ¬ ((u64 ctx.req_cost : Int) ≤ (b : Int)) := by
            intro h; exact hc (by exact_mod_cast h)
          omega

theorem nvme_sw_queue_save_tokens_le (q : nvme_sw_queue) (tokens : Nat) :
    (nvme_sw_queue_save_tokens q tokens).1 ≤ tokens := by
  unfold nvme_sw_queue_save_tokens
  split_ifs
  · exact Nat.zero_le _
  · exact Nat.min_le_left _ _


theorem subround2_be_spec (increment : Int) (q : nvme_sw_queue) (be_tokens : Nat)
    (hinc : 0 ≤ increment)
    (hcost : ∀ ctx ∈ q.queue, 0 ≤ ctx.req_cost ∧ ctx.req_cost < 2147483648)
    (hbudget : (be_tokens : Int) + q.saved_tokens + increment < 18446744073709551616) :
    ((subround2_be increment q be_tokens).2.2 : Int)
        + ((subround2_be increment q be_tokens).1.map (fun c => c.req_cost)).sum
        + (subround2_be increment q be_tokens).2.1.saved_tokens
      = (be_tokens : Int) + q.saved_tokens + increment ∧
    (subround2_be increment q be_tokens).2.1.fg_handle = q.fg_handle ∧
    (∀ ctx ∈ (subround2_be increment q be_tokens).2.1.queue,
      0 ≤ ctx.req_cost ∧ ctx.req_cost < 2147483648) ∧
    (∀ ctx ∈ (subround2_be increment q be_tokens).1, 0 ≤ ctx.req_cost) := by
  have hb1 : ((u64 ((be_tokens : Int) + q.saved_tokens) : Nat) : Int)
      = (be_tokens : Int) + q.saved_tokens := u64_of_nonneg_lt _ (by omega) (by omega)
  have hb2 : ((u64 (((u64 ((be_tokens : Int) + q.saved_tokens) : Nat) : Int) + increment) : Nat)
      : Int) = (be_tokens : Int) + q.saved_tokens + increment := by
    rw [hb1]; exact u64_of_nonneg_lt _ (by omega) (by omega)
  obtain ⟨d1, d2, d3, d4, d5, _, _⟩ := subround2_drain_spec q.queue.length
    { q with saved_tokens := 0 }
    (u64 (((u64 ((be_tokens : Int) + q.saved_tokens) : Nat) : Int) + increment))
    (le_refl _) hcost (by omega)
  simp only at d1 d2 d3 d4 d5
  have hsub : ∀ ctx ∈ (subround2_drain q.queue.length { q with saved_tokens := 0 }
      (u64 (((u64 ((be_tokens : Int) + q.saved_tokens) : Nat) : Int) + increment))).2.1.queue,
      0 ≤ ctx.req_cost ∧ ctx.req_cost < 2147483648 := by
    intro ctx hctx
    apply hcost
    rw [d2]
    exact List.mem_append_right _ hctx
  have hsum0 : 0 ≤ ((subround2_drain q.queue.length { q with saved_tokens := 0 }
      (u64 (((u64 ((be_tokens : Int) + q.saved_tokens) : Nat) : Int) + increment))).1.map
        (fun c => c.req_cost)).sum := by
    apply List.sum_nonneg
    intro x hx
    rw [List.mem_map] at hx
    obtain ⟨c, hc, rfl⟩ := hx
    exact d5 c hc
  have hsave := nvme_sw_queue_save_tokens_le
    (subround2_drain q.queue.length { q with saved_tokens := 0 }
      (u64 (((u64 ((be_tokens : Int) + q.saved_tokens) : Nat) : Int) + increment))).2.1
    (subround2_drain q.queue.length { q with saved_tokens := 0 }
      (u64 (((u64 ((be_tokens : Int) + q.saved_tokens) : Nat) : Int) + increment))).2.2
  have hfin : ∀ (sv : Nat), sv ≤ (subround2_drain q.queue.length { q with saved_tokens := 0 }
      (u64 (((u64 ((be_tokens : Int) + q.saved_tokens) : Nat) : Int) + increment))).2.2 →
      ((u64 (((subround2_drain q.queue.length { q with saved_tokens := 0 }
        (u64 (((u64 ((be_tokens : Int) + q.saved_tokens) : Nat) : Int) + increment))).2.2 : Int)
          - sv) : Nat) : Int)
        = ((subround2_drain q.queue.length { q with saved_tokens := 0 }
          (u64 (((u64 ((be_tokens : Int) + q.saved_tokens) : Nat) : Int) + increment))).2.2 : Int)
          - sv := by
    intro sv hsv
    exact u64_of_nonneg_lt _ (by omega) (by omega)
  unfold subround2_be nvme_sw_queue_take_saved_tokens
  simp only
  generalize hD : subround2_drain q.queue.length { q with saved_tokens := 0 }
      (u64 (((u64 ((be_tokens : Int) + q.saved_tokens) : Nat) : Int) + increment)) = D
    at d1 d2 d3 d4 d5 hsub hsum0 hsave hfin
  unfold nvme_sw_queue_save_tokens at hsave ⊢
  by_cases hemp : nvme_sw_queue_isempty D.2.1 = true
  · rw [if_pos hemp] at hsave ⊢
    simp only at hsave ⊢
    rw [hfin 0 (Nat.zero_le _)]
    refine ⟨?_, d4, hsub, d5⟩
    rw [d3]
    push_cast
    omega
  · rw [if_neg hemp] at hsave ⊢
    simp only at hsave ⊢
    rw [hfin _ hsave]
    refine ⟨?_, d4, hsub, d5⟩
    omega


theorem best_effort_swq_cons (s : State) (q : nvme_sw_queue) (l : List nvme_sw_queue) :
    best_effort_swq s (q :: l)
      = if (s.nvme_fgs q.fg_handle).latency_critical_flag = false
        then q :: best_effort_swq s l else best_effort_swq s l := by
  unfold best_effort_swq
  rw [List.filter_cons]
  by_cases h : (s.nvme_fgs q.fg_handle).latency_critical_flag = false
  · simp [h]
  · simp [h]

theorem subround2_loop_cons (s : State) (increment : Int) (selected : Int → Bool)
    (q : nvme_sw_queue) (rest : List nvme_sw_queue) (i : Int) (be_tokens : Nat) :
    subround2_loop s increment selected (q :: rest) i be_tokens
      = if selected i = true ∧ (s.nvme_fgs q.fg_handle).latency_critical_flag = false then
          ⟨(subround2_be increment q be_tokens).1
              ++ (subround2_loop s increment selected rest (i + 1)
                    (subround2_be increment q be_tokens).2.2).issued,
            (subround2_be increment q be_tokens).2.1
              :: (subround2_loop s increment selected rest (i + 1)
                    (subround2_be increment q be_tokens).2.2).tenant_swq,
            (subround2_loop s increment selected rest (i + 1)
              (subround2_be increment q be_tokens).2.2).be_tokens,
            q.fg_handle :: (subround2_loop s increment selected rest (i + 1)
              (subround2_be increment q be_tokens).2.2).served⟩
        else
          ⟨(subround2_loop s increment selected rest (i + 1) be_tokens).issued,
            q :: (subround2_loop s increment selected rest (i + 1) be_tokens).tenant_swq,
            (subround2_loop s increment selected rest (i + 1) be_tokens).be_tokens,
            (subround2_loop s increment selected rest (i + 1) be_tokens).served⟩ := by
  rw [subround2_loop]

theorem subround2_selected_cons (s : State) (selected : Int → Bool)
    (q : nvme_sw_queue) (rest : List nvme_sw_queue) (i : Int) :
    subround2_selected s selected (q :: rest) i
      = if selected i = true ∧ (s.nvme_fgs q.fg_handle).latency_critical_flag = false then
          q.fg_handle :: subround2_selected s selected rest (i + 1)
        else subround2_selected s selected rest (i + 1) := by
  rw [subround2_selected]

theorem subround2_loop_spec (s : State) (increment : Int) (hinc : 0 ≤ increment)
    (selected : Int → Bool) : ∀ (l : List nvme_sw_queue) (i : Int) (be_tokens : Nat),
    (∀ q ∈ l, ∀ ctx ∈ q.queue, 0 ≤ ctx.req_cost ∧ ctx.req_cost < 2147483648) →
    (be_tokens : Int) + (((best_effort_swq s l).map (fun q => q.saved_tokens)).sum : Nat)
      + increment * ((subround2_selected s selected l i).length : Nat) < 18446744073709551616 →
    (subround2_loop s increment selected l i be_tokens).served
      = subround2_selected s selected l i ∧
    ((subround2_loop s increment selected l i be_tokens).be_tokens : Int)
        + ((subround2_loop s increment selected l i be_tokens).issued.map
            (fun c => c.req_cost)).sum
        + (((best_effort_swq s (subround2_loop s increment selected l i
            be_tokens).tenant_swq).map (fun q => q.saved_tokens)).sum : Nat)
      = (be_tokens : Int) + (((best_effort_swq s l).map (fun q => q.saved_tokens)).sum : Nat)
        + increment * ((subround2_selected s selected l i).length : Nat) ∧
    (subround2_loop s increment selected l i be_tokens).tenant_swq.map (fun q => q.fg_handle)
      = l.map (fun q => q.fg_handle) ∧
    (∀ q ∈ (subround2_loop s increment selected l i be_tokens).tenant_swq, ∀ ctx ∈ q.queue,
      0 ≤ ctx.req_cost ∧ ctx.req_cost < 2147483648) ∧
    (∀ ctx ∈ (subround2_loop s increment selected l i be_tokens).issued, 0 ≤ ctx.req_cost) := by
  intro l
  induction l with
  | nil =>
    intro i b _ _
    simp [subround2_loop, subround2_selected, best_effort_swq]
  | cons q rest ih =>
    intro i b hcost hbudget
    have hcq := hcost q (List.mem_cons_self _ _)
    have hcrest : ∀ p ∈ rest, ∀ ctx ∈ p.queue, 0 ≤ ctx.req_cost ∧ ctx.req_cost < 2147483648 :=
      fun p hp => hcost p (List.mem_cons_of_mem _ hp)
    rw [subround2_loop_cons, subround2_selected_cons]
    rw [subround2_selected_cons] at hbudget
    by_cases hsel : selected i = true ∧ (s.nvme_fgs q.fg_handle).latency_critical_flag = false
    · simp only [if_pos hsel] at hbudget ⊢
      obtain ⟨_, b2', _, _⟩ : True ∧ (subround2_be increment q b).2.1.fg_handle = q.fg_handle
          ∧ True ∧ True := by
        refine ⟨trivial, ?_, trivial, trivial⟩
        unfold subround2_be nvme_sw_queue_take_saved_tokens nvme_sw_queue_save_tokens
        simp only
        have hd : ∀ (fuel : Nat) (p : nvme_sw_queue) (t : Nat),
            (subround2_drain fuel p t).2.1.fg_handle = p.fg_handle := by
          intro fuel
          induction fuel with
          | zero => intro p t; rfl
          | succ n ihn =>
            intro p t
            unfold subround2_drain
            split_ifs with hc
            · cases hp : p.queue with
              | nil => simp [nvme_sw_queue_pop_front, hp]
              | cons c r =>
                simp only [nvme_sw_queue_pop_front, hp]
                rw [ihn]
            · rfl
        split_ifs
        · simp only; rw [hd]
        · simp only; rw [hd]
      have hbe' : (s.nvme_fgs (subround2_be increment q b).2.1.fg_handle).latency_critical_flag
          = false := by rw [b2']; exact hsel.2
      simp only [best_effort_swq_cons, if_pos hsel.2, if_pos hbe', List.map_cons, List.sum_cons,
        List.length_cons, List.map_append, List.sum_append] at hbudget ⊢
      have hK : 0 ≤ increment * ((subround2_selected s selected rest (i + 1)).length : Nat) :=
        mul_nonneg hinc (Int.natCast_nonneg _)
      have hmul : increment * (((subround2_selected s selected rest (i + 1)).length + 1 : Nat) : Int)
          = increment * ((subround2_selected s selected rest (i + 1)).length : Nat) + increment := by
        push_cast; ring
      rw [hmul] at hbudget ⊢
      clear hmul
      obtain ⟨b1, b2, b3, b4⟩ := subround2_be_spec increment q b hinc hcq (by omega)
      have hsum0 : 0 ≤ ((subround2_be increment q b).1.map (fun c => c.req_cost)).sum := by
        apply List.sum_nonneg
        intro x hx
        rw [List.mem_map] at hx
        obtain ⟨c, hc, rfl⟩ := hx
        exact b4 c hc
      obtain ⟨r1, r2, r3, r4, r5⟩ := ih (i + 1) (subround2_be increment q b).2.2 hcrest
        (by omega)
      refine ⟨by rw [r1], by omega, by rw [r3, b2], ?_, ?_⟩
      · intro p hp
        rcases List.mem_cons.1 hp with h | h
        · rw [h]; exact b3
        · exact r4 p h
      · intro c hc
        rcases List.mem_append.1 hc with h | h
        · exact b4 c h
        · exact r5 c h
    · simp only [if_neg hsel] at hbudget ⊢
      by_cases hbe : (s.nvme_fgs q.fg_handle).latency_critical_flag = false
      · simp only [best_effort_swq_cons, if_pos hbe, List.map_cons, List.sum_cons]
          at hbudget ⊢
        obtain ⟨r1, r2, r3, r4, r5⟩ := ih (i + 1) b hcrest (by omega)
        refine ⟨r1, by omega, by rw [r3], ?_, r5⟩
        intro p hp
        rcases List.mem_cons.1 hp with h | h
        · rw [h]; exact hcq
        · exact r4 p h
      · simp only [best_effort_swq_cons, if_neg hbe, List.map_cons] at hbudget ⊢
        obtain ⟨r1, r2, r3, r4, r5⟩ := ih (i + 1) b hcrest hbudget
        refine ⟨r1, r2, by rw [r3], ?_, r5⟩
        intro p hp
        rcases List.mem_cons.1 hp with h | h
        · rw [h]; exact hcq
        · exact r4 p h


theorem subround2_selected_congr (s : State) (selected : Int → Bool) :
    ∀ (l l2 : List nvme_sw_queue) (i : Int),
    l.map (fun q => q.fg_handle) = l2.map (fun q => q.fg_handle) →
    subround2_selected s selected l i = subround2_selected s selected l2 i := by
  intro l
  induction l with
  | nil =>
    intro l2 i h
    cases l2 with
    | nil => rfl
    | cons a b => simp at h
  | cons q rest ih =>
    intro l2 i h
    cases l2 with
    | nil => simp at h
    | cons q2 rest2 =>
      simp only [List.map_cons, List.cons.injEq] at h
      rw [subround2_selected_cons, subround2_selected_cons, h.1, ih rest2 (i + 1) h.2]

theorem subround2_selected_perm (s : State) (roundrobin_start : Int) :
    ∀ (l : List nvme_sw_queue) (i : Int),
    (subround2_selected s (fun i => decide (¬ i < roundrobin_start)) l i
      ++ subround2_selected s (fun j => decide (j < roundrobin_start)) l i).Perm
      ((best_effort_swq s l).map (fun q => q.fg_handle)) := by
  intro l
  induction l with
  | nil => intro i; simp [subround2_selected, best_effort_swq]
  | cons q rest ih =>
    intro i
    rw [subround2_selected_cons, subround2_selected_cons, best_effort_swq_cons]
    by_cases hbe : (s.nvme_fgs q.fg_handle).latency_critical_flag = false
    · by_cases hi : i < roundrobin_start
      · simp only [hi, hbe, not_true_eq_false, decide_False, decide_True, and_true, and_self,
          if_true, if_false, Bool.false_eq_true, false_and, List.map_cons]
        exact List.perm_middle.trans (List.Perm.cons _ (ih (i + 1)))
      · simp only [hi, hbe, not_false_eq_true, decide_False, decide_True, and_true, and_self,
          if_true, if_false, Bool.false_eq_true, false_and, List.map_cons, List.cons_append]
        exact List.Perm.cons _ (ih (i + 1))
    · have hbe2 : (s.nvme_fgs q.fg_handle).latency_critical_flag = true := by
        simpa using hbe
      simpa [hbe2] using ih (i + 1)

theorem subround2_increment_nonneg (scfg : SchedCfg) (sc : SchedState) (cpu_nr : Nat)
    (now : Nat) (hcyc : 0 ≤ scfg.cycles_per_us) :
    0 ≤ subround2_increment scfg sc cpu_nr now := by
  unfold subround2_increment
  apply F64.toInt_nonneg
  unfold F64.add
  apply (F64.round_canon _ _ _).1
  have hA : 0 ≤ (F64.ofInt ((u64 ((sc.adm.global_be_token_rate_per_tenant : Int)
      * (u64 ((now : Int) - (sc.sched cpu_nr).last_sched_time_be) : Nat)) : Nat) : Int)).num := by
    apply F64.num_nonneg
    unfold F64.ofInt
    exact (F64.round_canon _ _ (Int.natCast_nonneg _)).1
  have hB : 0 ≤ (F64.mul (F64.ofInt scfg.cycles_per_us) F64.million).num := by
    apply F64.num_nonneg
    unfold F64.mul
    apply (F64.round_canon _ _ _).1
    have h1 : 0 ≤ (F64.ofInt scfg.cycles_per_us).num := by
      apply F64.num_nonneg
      unfold F64.ofInt
      exact (F64.round_canon _ _ hcyc).1
    have h2 : 0 ≤ F64.million.num := by
      apply F64.num_nonneg
      unfold F64.million F64.ofInt
      exact (F64.round_canon _ _ (by norm_num)).1
    exact mul_nonneg h1 h2
  have hdiv : 0 ≤ (subround2_token_increment scfg sc.adm.global_be_token_rate_per_tenant
      (u64 ((now : Int) - (sc.sched cpu_nr).last_sched_time_be))).num := by
    apply F64.num_nonneg
    unfold subround2_token_increment F64.div
    apply (F64.round_canon _ _ _).1
    have hs : 0 ≤ Int.sign (F64.mul (F64.ofInt scfg.cycles_per_us) F64.million).num :=
      Int.sign_nonneg.2 hB
    have hd : (0 : Int) ≤ ((F64.mul (F64.ofInt scfg.cycles_per_us) F64.million).den : Int) :=
      Int.natCast_nonneg _
    exact mul_nonneg hs (mul_nonneg hA hd)
  have hh : 0 ≤ F64.half.num := by
    apply F64.num_nonneg
    rw [F64.half_eq]
    decide
  have d1 : (0 : Int) ≤ (F64.half.den : Int) := Int.natCast_nonneg _
  have d2 : (0 : Int) ≤ ((subround2_token_increment scfg sc.adm.global_be_token_rate_per_tenant
      (u64 ((now : Int) - (sc.sched cpu_nr).last_sched_time_be))).den : Int) :=
    Int.natCast_nonneg _
  positivity


/-- C20. For the serving part of `nvme_sched_subround2` (source lines 1254-1328) on any core,
entered with any `be_tokens`, any tenant list, any `roundrobin_start` and any queue
contents whose request costs are non-negative `int` values, with a non-negative
`cycles_per_us`, and with a total budget (`be_tokens`, the saved tokens of the best-effort
tenants and one rate increment for each of them) below `2 ^ 64`: the tenants served by the
two loops are the best-effort tenants of the core, each once; in exact integer arithmetic
the initial `be_tokens` plus the saved tokens taken plus the increments equal the costs of
the requests issued plus the tokens saved anew plus the `be_tokens` left; the increment
and the costs issued are non-negative; `nvme_sw_queue_save_tokens` never returns more than
its budget and a request is issued only when its cost is at most the `be_tokens` left at
that point. Whenever the round-robin advance ends, the call issues the requests of the two
loops, leaves their tenant list, and adds the `be_tokens` left, if positive, to the
bucket; it does not return only when the number of best-effort tenants is positive and the
advance does not end. -/
theorem subround2_conserves_tokens (scfg : SchedCfg) (fuel : Nat) (sc : SchedState)
    (cpu_nr : Nat) (now : Nat) (be_tokens : Nat)
    (hcyc : 0 ≤ scfg.cycles_per_us)
    (hcost : ∀ q ∈ ((sc.adm.percpu cpu_nr).nvme_tenant_manager).tenant_swq,
      ∀ ctx ∈ q.queue, 0 ≤ ctx.req_cost ∧ ctx.req_cost < 2147483648)
    (hbudget : (be_tokens : Int)
      + (((best_effort_swq sc.adm ((sc.adm.percpu cpu_nr).nvme_tenant_manager).tenant_swq).map
          (fun q => q.saved_tokens)).sum : Nat)
      + subround2_increment scfg sc cpu_nr now
        * ((best_effort_swq sc.adm
            ((sc.adm.percpu cpu_nr).nvme_tenant_manager).tenant_swq).length : Nat)
      < 18446744073709551616) :
    ((subround2_first_loop scfg sc cpu_nr now be_tokens).served
      ++ (subround2_second_loop scfg sc cpu_nr now be_tokens).served).Perm
      ((best_effort_swq sc.adm ((sc.adm.percpu cpu_nr).nvme_tenant_manager).tenant_swq).map
        (fun q => q.fg_handle)) ∧
    (be_tokens : Int)
      + (((best_effort_swq sc.adm ((sc.adm.percpu cpu_nr).nvme_tenant_manager).tenant_swq).map
          (fun q => q.saved_tokens)).sum : Nat)
      + subround2_increment scfg sc cpu_nr now
        * ((best_effort_swq sc.adm
            ((sc.adm.percpu cpu_nr).nvme_tenant_manager).tenant_swq).length : Nat)
      = (((subround2_first_loop scfg sc cpu_nr now be_tokens).issued
          ++ (subround2_second_loop scfg sc cpu_nr now be_tokens).issued).map
            (fun c => c.req_cost)).sum
        + (((best_effort_swq sc.adm
            (subround2_second_loop scfg sc cpu_nr now be_tokens).tenant_swq).map
              (fun q => q.saved_tokens)).sum : Nat)
        + ((subround2_second_loop scfg sc cpu_nr now be_tokens).be_tokens : Int) ∧
    0 ≤ subround2_increment scfg sc cpu_nr now ∧
    (∀ ctx ∈ (subround2_first_loop scfg sc cpu_nr now be_tokens).issued
        ++ (subround2_second_loop scfg sc cpu_nr now be_tokens).issued, 0 ≤ ctx.req_cost) ∧
    (∀ (q : nvme_sw_queue) (t : Nat), (nvme_sw_queue_save_tokens q t).1 ≤ t) ∧
    (∀ (q : nvme_sw_queue) (t : Nat) (p : List nvme_ctx) (x : nvme_ctx) (rest : List nvme_ctx),
      (∀ ctx ∈ q.queue, 0 ≤ ctx.req_cost ∧ ctx.req_cost < 2147483648) →
      t < 18446744073709551616 →
      (subround2_drain q.queue.length q t).1 = p ++ x :: rest →
      x.req_cost ≤ (t : Int) - (p.map (fun c => c.req_cost)).sum) ∧
    (∀ (sc2 : SchedState) (issued : List nvme_ctx),
      subround2_serve scfg fuel sc cpu_nr now be_tokens = some (sc2, issued) →
      issued = (subround2_first_loop scfg sc cpu_nr now be_tokens).issued
        ++ (subround2_second_loop scfg sc cpu_nr now be_tokens).issued ∧
      ((sc2.adm.percpu cpu_nr).nvme_tenant_manager).tenant_swq
        = (subround2_second_loop scfg sc cpu_nr now be_tokens).tenant_swq ∧
      sc2.global_leftover_tokens
        = if (subround2_second_loop scfg sc cpu_nr now be_tokens).be_tokens > 0 then
            u64 ((sc.global_leftover_tokens : Int)
              + (subround2_second_loop scfg sc cpu_nr now be_tokens).be_tokens)
          else sc.global_leftover_tokens) ∧
    (subround2_serve scfg fuel sc cpu_nr now be_tokens = none ↔
      (((sc.adm.percpu cpu_nr).nvme_tenant_manager).num_best_effort_tenants > 0 ∧
        roundrobin_advance sc.adm
          (subround2_second_loop scfg sc cpu_nr now be_tokens).tenant_swq
          ((sc.adm.percpu cpu_nr).nvme_tenant_manager).num_tenants fuel
          (sc.adm.percpu cpu_nr).roundrobin_start = none)) := by
  have hinc := subround2_increment_nonneg scfg sc cpu_nr now hcyc
  have hperm := subround2_selected_perm sc.adm (sc.adm.percpu cpu_nr).roundrobin_start
    ((sc.adm.percpu cpu_nr).nvme_tenant_manager).tenant_swq 0
  have hlen := hperm.length_eq
  rw [List.length_append, List.length_map] at hlen
  -- abbreviations for the two selections
  generalize hn1 : (subround2_selected sc.adm
    (fun i => decide (¬ i < (sc.adm.percpu cpu_nr).roundrobin_start))
    ((sc.adm.percpu cpu_nr).nvme_tenant_manager).tenant_swq 0).length = n1 at hlen
  generalize hn2 : (subround2_selected sc.adm
    (fun j => decide (j < (sc.adm.percpu cpu_nr).roundrobin_start))
    ((sc.adm.percpu cpu_nr).nvme_tenant_manager).tenant_swq 0).length = n2 at hlen
  have hmul : subround2_increment scfg sc cpu_nr now
      * ((best_effort_swq sc.adm
          ((sc.adm.percpu cpu_nr).nvme_tenant_manager).tenant_swq).length : Nat)
      = subround2_increment scfg sc cpu_nr now * (n1 : Nat)
        + subround2_increment scfg sc cpu_nr now * (n2 : Nat) := by
    rw [← hlen]; push_cast; ring
  have hk1 : 0 ≤ subround2_increment scfg sc cpu_nr now * (n1 : Nat) :=
    mul_nonneg hinc (Int.natCast_nonneg _)
  have hk2 : 0 ≤ subround2_increment scfg sc cpu_nr now * (n2 : Nat) :=
    mul_nonneg hinc (Int.natCast_nonneg _)
  rw [hmul] at hbudget ⊢
  obtain ⟨a1, a2, a3, a4, a5⟩ := subround2_loop_spec sc.adm
    (subround2_increment scfg sc cpu_nr now) hinc
    (fun i => decide (¬ i < (sc.adm.percpu cpu_nr).roundrobin_start))
    ((sc.adm.percpu cpu_nr).nvme_tenant_manager).tenant_swq 0 be_tokens hcost
    (by rw [hn1]; omega)
  rw [hn1] at a2
  have hsum1 : 0 ≤ ((subround2_loop sc.adm (subround2_increment scfg sc cpu_nr now)
      (fun i => decide (¬ i < (sc.adm.percpu cpu_nr).roundrobin_start))
      ((sc.adm.percpu cpu_nr).nvme_tenant_manager).tenant_swq 0 be_tokens).issued.map
        (fun c => c.req_cost)).sum := by
    apply List.sum_nonneg
    intro x hx
    rw [List.mem_map] at hx
    obtain ⟨c, hc, rfl⟩ := hx
    exact a5 c hc
  have hsel2 := subround2_selected_congr sc.adm
    (fun j => decide (j < (sc.adm.percpu cpu_nr).roundrobin_start)) _ _ 0 a3
  obtain ⟨c1, c2, c3, c4, c5⟩ := subround2_loop_spec sc.adm
    (subround2_increment scfg sc cpu_nr now) hinc
    (fun j => decide (j < (sc.adm.percpu cpu_nr).roundrobin_start))
    (subround2_loop sc.adm (subround2_increment scfg sc cpu_nr now)
      (fun i => decide (¬ i < (sc.adm.percpu cpu_nr).roundrobin_start))
      ((sc.adm.percpu cpu_nr).nvme_tenant_manager).tenant_swq 0 be_tokens).tenant_swq 0
    (subround2_loop sc.adm (subround2_increment scfg sc cpu_nr now)
      (fun i => decide (¬ i < (sc.adm.percpu cpu_nr).roundrobin_start))
      ((sc.adm.percpu cpu_nr).nvme_tenant_manager).tenant_swq 0 be_tokens).be_tokens a4
    (by rw [hsel2, hn2]; omega)
  rw [hsel2, hn2] at c2
  rw [hsel2] at c1
  refine ⟨?_, ?_, hinc, ?_, nvme_sw_queue_save_tokens_le, ?_, ?_, ?_⟩
  · show (List.Perm (_ ++ _) _)
    unfold subround2_second_loop subround2_first_loop
    rw [a1, c1]
    exact hperm
  · unfold subround2_second_loop subround2_first_loop
    rw [List.map_append, List.sum_append]
    omega
  · intro ctx hctx
    unfold subround2_second_loop subround2_first_loop at hctx
    rcases List.mem_append.1 hctx with h | h
    · exact a5 ctx h
    · exact c5 ctx h
  · intro q t p x rest hq ht hp
    exact (subround2_drain_spec q.queue.length q t (le_refl _) hq ht).2.2.2.2.2.1 p x rest hp
  · intro sc2 issued hs
    unfold subround2_serve at hs
    simp only at hs
    split at hs
    · cases hs
    · rename_i rr hrr
      simp only [Option.some.injEq, Prod.mk.injEq] at hs
      obtain ⟨h1, h2⟩ := hs
      subst h1
      exact ⟨h2.symm, by simp, rfl⟩
  · unfold subround2_serve
    simp only
    by_cases hbe : ((sc.adm.percpu cpu_nr).nvme_tenant_manager).num_best_effort_tenants > 0
    · rw [if_pos hbe]
      cases hadv : roundrobin_advance sc.adm
          (subround2_second_loop scfg sc cpu_nr now be_tokens).tenant_swq
          ((sc.adm.percpu cpu_nr).nvme_tenant_manager).num_tenants fuel
          (sc.adm.percpu cpu_nr).roundrobin_start with
      | none => simp [hbe]
      | some rr => simp
    · rw [if_neg hbe]
      simp [hbe]


/-- The serving part of subround 2 on core 1 of `Scenario.demand_30`, entered with 30
tokens: the best-effort tenant's three writes of cost 10 are within budget, and the token
accounts balance. -/
theorem subround2_conserves_tokens_witness :
    (0 ≤ Scenario.two_cores.cycles_per_us) ∧
    (30 : Int)
      + (((best_effort_swq Scenario.demand_30.adm
          ((Scenario.demand_30.adm.percpu 1).nvme_tenant_manager).tenant_swq).map
            (fun q => q.saved_tokens)).sum : Nat)
      + subround2_increment Scenario.two_cores Scenario.demand_30 1 0
        * ((best_effort_swq Scenario.demand_30.adm
            ((Scenario.demand_30.adm.percpu 1).nvme_tenant_manager).tenant_swq).length : Nat)
      = (((subround2_first_loop Scenario.two_cores Scenario.demand_30 1 0 30).issued
          ++ (subround2_second_loop Scenario.two_cores Scenario.demand_30 1 0 30).issued).map
            (fun c => c.req_cost)).sum
        + (((best_effort_swq Scenario.demand_30.adm
            (subround2_second_loop Scenario.two_cores Scenario.demand_30 1 0 30).tenant_swq).map
              (fun q => q.saved_tokens)).sum : Nat)
        + ((subround2_second_loop Scenario.two_cores Scenario.demand_30 1 0 30).be_tokens : Int) :=
  ⟨by decide,
    (subround2_conserves_tokens Scenario.two_cores 8 Scenario.demand_30 1 0 30 (by decide)
      (by decide) (by decide)).2.1⟩

/-! ## Donations and the reset of the bucket -/

/-- C15 (the code at the failing input). Two active cores; core 0 holds an idle
latency-critical tenant with 1000 tokens of credit, core 1 a best-effort tenant with three
queued writes of cost 10; `nvme_sched` is called by core 1, core 0, core 1, core 0, ... at
time 0. In its first call core 0 donates 900 tokens (subround 1 leaves them in
`local_leftover_tokens`, subround 2 adds them to the bucket), and the
`update_scheduled_bitvector` of the same call sets the bucket to 0. After seven calls the
latency-critical tenant has donated 999 tokens, the bucket is 0, no call has issued a
request and the three writes are still queued. In the order core 0, core 1 the same
donation is acquired and the three writes are issued. -/
theorem donation_discarded_by_reset :
    ((Scenario.donor_after_be_core.adm.percpu 0).nvme_tenant_manager.tenant_swq.map
      (fun q => q.token_credit) = [1000] ∧
      Scenario.donor_after_be_core.global_leftover_tokens = 0 ∧
      Scenario.donor_after_be_core.scheduled_bit_vector 0 = 0 ∧
      Scenario.donor_after_be_core.scheduled_bit_vector 1 = 1) ∧
    ((nvme_sched_subround1 Scenario.donor_after_be_core 0 0).1.sched 0).local_leftover_tokens
      = 900 ∧
    (nvme_sched_subround2 Scenario.two_cores 8
      (nvme_sched_subround1 Scenario.donor_after_be_core 0 0).1 0 0).map
        (fun p => p.1.global_leftover_tokens) = some 900 ∧
    Scenario.observe (Scenario.run Scenario.donor [1, 0]) = some (0, [100], [3], [0, 0]) ∧
    Scenario.observe (Scenario.run Scenario.donor [1, 0, 1, 0, 1, 0, 1])
      = some (0, [1], [3], [0, 0, 0, 0, 0, 0, 0]) ∧
    Scenario.observe (Scenario.run Scenario.donor [0, 1]) = some (0, [100], [0], [0, 3]) :=
  ⟨⟨by decide, by decide, by decide, by decide⟩, by decide, by decide, by decide, by decide,
    by decide⟩

/-! ## Subround 1: replenishment and drain -/

theorem F64.half_toRat : F64.half.toRat = 1 / 2 := by
  rw [F64.half_eq, F64.toRat_mk]
  rw [show (-53 : Int) = -((53 : Nat) : Int) by norm_num, zpow_neg, zpow_natCast]
  norm_num

theorem subround1_token_increment_nearest (scaled_IOPuS_limit : F64) (time_delta : Nat)
    (h : 0 ≤ scaled_IOPuS_limit.m) :
    (((subround1_token_increment scaled_IOPuS_limit time_delta).toInt : Int) : ℚ)
      ≤ (F64.mul scaled_IOPuS_limit (F64.ofInt time_delta)).toRat + 1 / 2
        + ((F64.mul scaled_IOPuS_limit (F64.ofInt time_delta)).toRat + 1 / 2) / 2 ^ 53 ∧
    (F64.mul scaled_IOPuS_limit (F64.ofInt time_delta)).toRat - 1 / 2
        - ((F64.mul scaled_IOPuS_limit (F64.ofInt time_delta)).toRat + 1 / 2) / 2 ^ 53
      < (((subround1_token_increment scaled_IOPuS_limit time_delta).toInt : Int) : ℚ) := by
  have hm := subround1_token_increment_nonneg scaled_IOPuS_limit time_delta h
  obtain ⟨f1, f2⟩ := F64.toInt_floor _ hm
  have h1 : 0 ≤ (F64.mul scaled_IOPuS_limit (F64.ofInt time_delta)).num := by
    apply F64.num_nonneg
    unfold F64.mul
    apply (F64.round_canon _ _ _).1
    have h2 : 0 ≤ (F64.ofInt (time_delta : Int)).num := by
      apply F64.num_nonneg
      unfold F64.ofInt
      exact (F64.round_canon _ _ (Int.natCast_nonneg _)).1
    exact mul_nonneg (F64.num_nonneg _ h) h2
  have h3 : 0 ≤ F64.half.num := by
    apply F64.num_nonneg
    rw [F64.half_eq]
    decide
  have hnum : 0 ≤ (F64.mul scaled_IOPuS_limit (F64.ofInt time_delta)).num * (F64.half.den : Int)
      + F64.half.num * ((F64.mul scaled_IOPuS_limit (F64.ofInt time_delta)).den : Int) := by
    have h4 : (0 : Int) ≤ (F64.half.den : Int) := Int.natCast_nonneg _
    have h5 : (0 : Int) ≤ ((F64.mul scaled_IOPuS_limit (F64.ofInt time_delta)).den : Int) :=
      Int.natCast_nonneg _
    positivity
  have hden : 0 < (F64.mul scaled_IOPuS_limit (F64.ofInt time_delta)).den * F64.half.den :=
    Nat.mul_pos (F64.den_pos _) (F64.den_pos _)
  obtain ⟨e1, e2⟩ := F64.round_err _ _ hnum hden
  rw [F64.add_ratio, F64.half_toRat] at e1 e2
  have f1' : (((subround1_token_increment scaled_IOPuS_limit time_delta).toInt : Int) : ℚ)
      ≤ (F64.round ((F64.mul scaled_IOPuS_limit (F64.ofInt time_delta)).num * (F64.half.den : Int)
          + F64.half.num * ((F64.mul scaled_IOPuS_limit (F64.ofInt time_delta)).den : Int))
          ((F64.mul scaled_IOPuS_limit (F64.ofInt time_delta)).den * F64.half.den)).toRat := f1
  have f2' : (F64.round ((F64.mul scaled_IOPuS_limit (F64.ofInt time_delta)).num
          * (F64.half.den : Int)
          + F64.half.num * ((F64.mul scaled_IOPuS_limit (F64.ofInt time_delta)).den : Int))
          ((F64.mul scaled_IOPuS_limit (F64.ofInt time_delta)).den * F64.half.den)).toRat
      < (((subround1_token_increment scaled_IOPuS_limit time_delta).toInt : Int) : ℚ) + 1 := f2
  constructor
  · linarith
  · linarith

/-- C17. For every latency-critical tenant with queue `q`, rate `scaled_IOPuS_limit` and
elapsed time `time_delta`, `nvme_sched_subround1` first adds
`(long) (scaled_IOPuS_limit * time_delta + 0.5)` to `token_credit`, then drains the queue,
then runs the donation step. The requests issued are the head of the queue, in queue
order, and the rest stays queued; after the drain the queue is empty or `token_credit <=
-TOKEN_DEFICIT_LIMIT`; before each request issued the credit (the replenished credit minus
the costs of the requests issued before it) was above `-TOKEN_DEFICIT_LIMIT`, so no shorter
head of the queue ends the drain; and the drain lowers `token_credit` by exactly the sum of
the costs of the requests issued. For a non-negative rate the increment added is the
`double` product `scaled_IOPuS_limit * time_delta` rounded to a nearest integer, up to the
rounding error of the addition of 0.5 (a relative `2 ^ -53`). -/
theorem subround1_lc_issues_queue_head (TOKEN_DEFICIT_LIMIT : Int) (scaled_IOPuS_limit : F64)
    (time_delta : Nat) (q : nvme_sw_queue) (local_leftover : Nat) :
    (subround1_lc TOKEN_DEFICIT_LIMIT scaled_IOPuS_limit time_delta q local_leftover).1
      = (subround1_drain TOKEN_DEFICIT_LIMIT q.queue.length
          { q with
            token_credit := q.token_credit
              + (F64.add (F64.mul scaled_IOPuS_limit (F64.ofInt time_delta)) F64.half).toInt }).1 ∧
    (subround1_lc TOKEN_DEFICIT_LIMIT scaled_IOPuS_limit time_delta q local_leftover).2
      = subround1_donate (subround1_token_increment scaled_IOPuS_limit time_delta)
          (subround1_drain TOKEN_DEFICIT_LIMIT q.queue.length
            { q with
              token_credit := q.token_credit
                + (F64.add (F64.mul scaled_IOPuS_limit (F64.ofInt time_delta))
                    F64.half).toInt }).2
          local_leftover ∧
    q.queue
      = (subround1_lc TOKEN_DEFICIT_LIMIT scaled_IOPuS_limit time_delta q local_leftover).1
        ++ (subround1_lc TOKEN_DEFICIT_LIMIT scaled_IOPuS_limit time_delta q
              local_leftover).2.1.queue ∧
    (subround1_drain TOKEN_DEFICIT_LIMIT q.queue.length
        { q with
          token_credit := q.token_credit
            + (F64.add (F64.mul scaled_IOPuS_limit (F64.ofInt time_delta))
                F64.half).toInt }).2.token_credit
      = q.token_credit
        + (F64.add (F64.mul scaled_IOPuS_limit (F64.ofInt time_delta)) F64.half).toInt
        - ((subround1_lc TOKEN_DEFICIT_LIMIT scaled_IOPuS_limit time_delta q
              local_leftover).1.map (fun c => c.req_cost)).sum ∧
    ((subround1_drain TOKEN_DEFICIT_LIMIT q.queue.length
        { q with
          token_credit := q.token_credit
            + (F64.add (F64.mul scaled_IOPuS_limit (F64.ofInt time_delta))
                F64.half).toInt }).2.queue = [] ∨
      (subround1_drain TOKEN_DEFICIT_LIMIT q.queue.length
        { q with
          token_credit := q.token_credit
            + (F64.add (F64.mul scaled_IOPuS_limit (F64.ofInt time_delta))
                F64.half).toInt }).2.token_credit ≤ -TOKEN_DEFICIT_LIMIT) ∧
    (∀ (p : List nvme_ctx) (x : nvme_ctx) (rest : List nvme_ctx),
      (subround1_lc TOKEN_DEFICIT_LIMIT scaled_IOPuS_limit time_delta q local_leftover).1
        = p ++ x :: rest →
      q.token_credit
        + (F64.add (F64.mul scaled_IOPuS_limit (F64.ofInt time_delta)) F64.half).toInt
        - (p.map (fun c => c.req_cost)).sum > -TOKEN_DEFICIT_LIMIT) ∧
    (0 ≤ scaled_IOPuS_limit.m →
      (((F64.add (F64.mul scaled_IOPuS_limit (F64.ofInt time_delta)) F64.half).toInt : Int) : ℚ)
        ≤ (F64.mul scaled_IOPuS_limit (F64.ofInt time_delta)).toRat + 1 / 2
          + ((F64.mul scaled_IOPuS_limit (F64.ofInt time_delta)).toRat + 1 / 2) / 2 ^ 53 ∧
      (F64.mul scaled_IOPuS_limit (F64.ofInt time_delta)).toRat - 1 / 2
          - ((F64.mul scaled_IOPuS_limit (F64.ofInt time_delta)).toRat + 1 / 2) / 2 ^ 53
        < (((F64.add (F64.mul scaled_IOPuS_limit (F64.ofInt time_delta)) F64.half).toInt : Int)
            : ℚ)) := by
  obtain ⟨h1, h2, h3, h4, _, _⟩ := subround1_drain_spec TOKEN_DEFICIT_LIMIT q.queue.length
    { q with
      token_credit := q.token_credit
        + (F64.add (F64.mul scaled_IOPuS_limit (F64.ofInt time_delta)) F64.half).toInt }
    (le_refl _)
  simp only at h1 h2 h3 h4
  have hq : (subround1_lc TOKEN_DEFICIT_LIMIT scaled_IOPuS_limit time_delta q
      local_leftover).2.1.queue
      = (subround1_drain TOKEN_DEFICIT_LIMIT q.queue.length
          { q with
            token_credit := q.token_credit
              + (F64.add (F64.mul scaled_IOPuS_limit (F64.ofInt time_delta))
                  F64.half).toInt }).2.queue := by
    unfold subround1_lc subround1_donate subround1_token_increment
    simp only
    split_ifs <;> rfl
  refine ⟨rfl, rfl, ?_, h2, h3, h4,
    subround1_token_increment_nearest scaled_IOPuS_limit time_delta⟩
  rw [hq]
  exact h1

/-- The bounds on the increment of C17 at the rate of 2 tokens per microsecond, 5
microseconds elapsed and three writes queued. -/
theorem subround1_lc_issues_queue_head_witness :
    (0 : Int) ≤ (F64.ofInt 2).m ∧
    ((((F64.add (F64.mul (F64.ofInt 2) (F64.ofInt (5 : Nat))) F64.half).toInt : Int) : ℚ)
        ≤ (F64.mul (F64.ofInt 2) (F64.ofInt (5 : Nat))).toRat + 1 / 2
          + ((F64.mul (F64.ofInt 2) (F64.ofInt (5 : Nat))).toRat + 1 / 2) / 2 ^ 53 ∧
      (F64.mul (F64.ofInt 2) (F64.ofInt (5 : Nat))).toRat - 1 / 2
          - ((F64.mul (F64.ofInt 2) (F64.ofInt (5 : Nat))).toRat + 1 / 2) / 2 ^ 53
        < (((F64.add (F64.mul (F64.ofInt 2) (F64.ofInt (5 : Nat))) F64.half).toInt : Int)
            : ℚ)) :=
  ⟨by decide,
    (subround1_lc_issues_queue_head 10000 (F64.ofInt 2) 5 Scenario.three_writes 0).2.2.2.2.2.2
      (by decide)⟩

/-! ## Subround 2: the round-robin advance -/

/-- The inner loop of the advance leaves `done` at 0 when every tenant on the list is
flagged latency-critical. -/
theorem roundrobin_scan_all_lc (s : State) (roundrobin_start : Int) :
    ∀ (l : List nvme_sw_queue) (i : Int),
      (∀ q ∈ l, (s.nvme_fgs q.fg_handle).latency_critical_flag = true) →
      roundrobin_scan s roundrobin_start l i = false := by
  intro l
  induction l with
  | nil => intro i _; rfl
  | cons q rest ih =>
    intro i h
    unfold roundrobin_scan
    split_ifs with hi
    · exact ih (i + 1) (fun p hp => h p (List.mem_cons_of_mem _ hp))
    · simp [h q (List.mem_cons_self _ _)]

/-- The `while (1)` loop of the advance does not reach its `break`, whatever the number of
iterations, when every tenant on the list is flagged latency-critical. -/
theorem roundrobin_advance_all_lc (s : State) (l : List nvme_sw_queue) (num_tenants : Int)
    (h : ∀ q ∈ l, (s.nvme_fgs q.fg_handle).latency_critical_flag = true) :
    ∀ (fuel : Nat) (roundrobin_start : Int),
      roundrobin_advance s l num_tenants fuel roundrobin_start = none := by
  intro fuel
  induction fuel with
  | zero => intro _; rfl
  | succ n ih =>
    intro rr
    unfold roundrobin_advance
    split_ifs with h0 hs
    · rfl
    · rw [roundrobin_scan_all_lc s _ l 0 h] at hs
      exact absurd hs (by decide)
    · exact ih _

/-- A loop of `nvme_sched_subround2` serves no tenant and leaves the list and `be_tokens`
as they were when every tenant on the list is flagged latency-critical. -/
theorem subround2_loop_all_lc (s : State) (increment : Int) (selected : Int → Bool) :
    ∀ (l : List nvme_sw_queue) (i : Int) (be_tokens : Nat),
      (∀ q ∈ l, (s.nvme_fgs q.fg_handle).latency_critical_flag = true) →
      subround2_loop s increment selected l i be_tokens = ⟨[], l, be_tokens, []⟩ := by
  intro l
  induction l with
  | nil => intro i b _; rfl
  | cons q rest ih =>
    intro i b h
    have hq := h q (List.mem_cons_self _ _)
    rw [subround2_loop_cons]
    have hn : ¬ (selected i = true
        ∧ (s.nvme_fgs q.fg_handle).latency_critical_flag = false) := by
      rw [hq]; simp
    simp only [if_neg hn]
    rw [ih (i + 1) b (fun p hp => h p (List.mem_cons_of_mem _ hp))]

/-- When the core counts a best-effort tenant but every tenant on its list is flagged
latency-critical, `nvme_sched_subround2` does not return unless it takes the early return
of the donation (`local_leftover > 0 && local_demand == 0`). -/
theorem nvme_sched_subround2_all_lc (scfg : SchedCfg) (fuel : Nat) (sc : SchedState)
    (cpu_nr : Nat) (now : Nat)
    (hret : ¬ ((sc.sched cpu_nr).local_leftover_tokens > 0
      ∧ (sc.sched cpu_nr).local_extra_demand = 0))
    (hbe : ((sc.adm.percpu cpu_nr).nvme_tenant_manager).num_best_effort_tenants > 0)
    (h : ∀ q ∈ ((sc.adm.percpu cpu_nr).nvme_tenant_manager).tenant_swq,
      (sc.adm.nvme_fgs q.fg_handle).latency_critical_flag = true) :
    nvme_sched_subround2 scfg fuel sc cpu_nr now = none := by
  have key : ∀ (g : Nat) (be_tokens : Nat),
      subround2_serve scfg fuel { sc with global_leftover_tokens := g } cpu_nr now be_tokens
        = none := by
    intro g be_tokens
    unfold subround2_serve subround2_second_loop subround2_first_loop
    simp only
    rw [subround2_loop_all_lc _ _ _ _ _ _ h]
    simp only
    rw [subround2_loop_all_lc _ _ _ _ _ _ h]
    simp only [if_pos hbe]
    rw [roundrobin_advance_all_lc _ _ _ h]
  unfold nvme_sched_subround2
  simp only [if_neg hret]
  split_ifs
  · exact key _ _
  · exact key sc.global_leftover_tokens _

/-- The inner loop of the advance sets `done` exactly when the list holds, at the index
`roundrobin_start`, a tenant that is not flagged latency-critical. -/
theorem roundrobin_scan_iff (s : State) (roundrobin_start : Int) :
    ∀ (l : List nvme_sw_queue) (i : Int),
      roundrobin_scan s roundrobin_start l i = true ↔
        ∃ (k : Nat) (q : nvme_sw_queue), roundrobin_start = i + k ∧ l[k]? = some q
          ∧ (s.nvme_fgs q.fg_handle).latency_critical_flag = false := by
  intro l
  induction l with
  | nil =>
    intro i
    simp [roundrobin_scan]
  | cons p rest ih =>
    intro i
    unfold roundrobin_scan
    split_ifs with hi
    · rw [ih (i + 1)]
      constructor
      · rintro ⟨k, q, hk, hq, hf⟩
        exact ⟨k + 1, q, by push_cast; omega, by simpa using hq, hf⟩
      · rintro ⟨k, q, hk, hq, hf⟩
        cases k with
        | zero => exact absurd (by simpa using hk.symm) hi
        | succ k => exact ⟨k, q, by push_cast at hk; omega, by simpa using hq, hf⟩
    · have hi' : i = roundrobin_start := not_not.mp hi
      constructor
      · intro hf
        exact ⟨0, p, by simp [hi'], by simp, by simpa using hf⟩
      · rintro ⟨k, q, hk, hq, hf⟩
        have hk0 : k = 0 := by omega
        subst hk0
        simp only [List.getElem?_cons_zero, Option.some.injEq] at hq
        subst hq
        simp [hf]

/-- The inner loop of the advance started at index 0, for a non-negative
`roundrobin_start`: `done` is set exactly when the list holds at that index a tenant that
is not flagged latency-critical. -/
theorem roundrobin_scan_index (s : State) (l : List nvme_sw_queue) (roundrobin_start : Int)
    (h0 : 0 ≤ roundrobin_start) :
    roundrobin_scan s roundrobin_start l 0 = true ↔
      ∃ q, l[roundrobin_start.toNat]? = some q
        ∧ (s.nvme_fgs q.fg_handle).latency_critical_flag = false := by
  rw [roundrobin_scan_iff]
  constructor
  · rintro ⟨k, q, hk, hq, hf⟩
    have : roundrobin_start.toNat = k := by omega
    exact ⟨q, by rw [this]; exact hq, hf⟩
  · rintro ⟨q, hq, hf⟩
    exact ⟨roundrobin_start.toNat, q, by omega, hq, hf⟩

/-- The advance run from `roundrobin_start`: if the tenant `d + 1` places further on
(cyclically) is the first that is not flagged latency-critical, the loop ends there after
`d + 1` iterations. `num_tenants` is the length of the list. -/
theorem roundrobin_advance_steps (s : State) (l : List nvme_sw_queue) (hn : 0 < l.length) :
    ∀ (d fuel : Nat) (roundrobin_start : Int), 0 ≤ roundrobin_start → d + 1 ≤ fuel →
      roundrobin_scan s ((roundrobin_start + ((d + 1 : Nat) : Int)) % (l.length : Int)) l 0
        = true →
      (∀ k : Nat, 1 ≤ k → k < d + 1 →
        roundrobin_scan s ((roundrobin_start + (k : Int)) % (l.length : Int)) l 0 = false) →
      roundrobin_advance s l l.length fuel roundrobin_start
        = some ((roundrobin_start + ((d + 1 : Nat) : Int)) % (l.length : Int)) := by
  have hnz : ((l.length : Nat) : Int) ≠ 0 := by omega
  have hnpos : (0 : Int) ≤ ((l.length : Nat) : Int) := by omega
  intro d
  induction d with
  | zero =>
    intro fuel rr h0 hf hs _
    obtain ⟨f, rfl⟩ : ∃ f, fuel = f + 1 := ⟨fuel - 1, by omega⟩
    unfold roundrobin_advance
    have ht : Int.tmod (rr + 1) (l.length : Int) = (rr + 1) % (l.length : Int) :=
      Int.tmod_eq_emod (by omega) hnpos
    rw [ht]
    have hs' : roundrobin_scan s ((rr + 1) % (l.length : Int)) l 0 = true := by
      simpa using hs
    simp only [if_neg hnz, hs', if_true]
    simp
  | succ d ih =>
    intro fuel rr h0 hf hs hmin
    obtain ⟨f, rfl⟩ : ∃ f, fuel = f + 1 := ⟨fuel - 1, by omega⟩
    unfold roundrobin_advance
    have ht : Int.tmod (rr + 1) (l.length : Int) = (rr + 1) % (l.length : Int) :=
      Int.tmod_eq_emod (by omega) hnpos
    rw [ht]
    have h1 : roundrobin_scan s ((rr + 1) % (l.length : Int)) l 0 = false := by
      simpa using hmin 1 (le_refl 1) (by omega)
    have hshift : ∀ k : Nat, ((rr + 1) % (l.length : Int) + (k : Int)) % (l.length : Int)
        = (rr + ((k + 1 : Nat) : Int)) % (l.length : Int) := by
      intro k
      rw [Int.emod_add_emod]
      congr 1
      push_cast
      ring
    simp only [if_neg hnz, h1, Bool.false_eq_true, if_false]
    rw [ih f ((rr + 1) % (l.length : Int)) (Int.emod_nonneg _ hnz) (by omega)]
    · rw [hshift]
    · rw [hshift]; exact hs
    · intro k hk1 hk2
      rw [hshift]
      exact hmin (k + 1) (by omega) (by omega)

/-- On a core whose `num_tenants` is the length of its tenant list and whose list holds a
tenant that is not flagged latency-critical, the advance entered with a non-negative
`roundrobin_start` ends within `num_tenants` iterations, and leaves `roundrobin_start` at
`(roundrobin_start + d) % num_tenants` for the least `d >= 1` for which the tenant at that
index is not flagged latency-critical. -/
theorem roundrobin_advance_next_be (s : State) (l : List nvme_sw_queue) (fuel : Nat)
    (roundrobin_start : Int) (h0 : 0 ≤ roundrobin_start) (hfuel : l.length ≤ fuel)
    (hbe : ∃ q ∈ l, (s.nvme_fgs q.fg_handle).latency_critical_flag = false) :
    ∃ d : Nat, 1 ≤ d ∧ d ≤ l.length ∧
      roundrobin_advance s l l.length fuel roundrobin_start
        = some ((roundrobin_start + (d : Int)) % (l.length : Int)) ∧
      (∃ q, l[((roundrobin_start + (d : Int)) % (l.length : Int)).toNat]? = some q
        ∧ (s.nvme_fgs q.fg_handle).latency_critical_flag = false) ∧
      ∀ k : Nat, 1 ≤ k → k < d → ∀ q,
        l[((roundrobin_start + (k : Int)) % (l.length : Int)).toNat]? = some q →
        (s.nvme_fgs q.fg_handle).latency_critical_flag = true := by
  classical
  obtain ⟨q, hq, hf⟩ := hbe
  obtain ⟨j, hj, hjq⟩ := List.getElem_of_mem hq
  have hn : 0 < l.length := by omega
  have hnz : ((l.length : Nat) : Int) ≠ 0 := by omega
  have hmodnn : ∀ x : Int, 0 ≤ x % (l.length : Int) := fun x => Int.emod_nonneg x hnz
  have hmodlt : ∀ x : Int, x % (l.length : Int) < (l.length : Int) :=
    fun x => Int.emod_lt_of_pos x (by omega)
  have hex : ∃ d : Nat,
      roundrobin_scan s ((roundrobin_start + ((d + 1 : Nat) : Int)) % (l.length : Int)) l 0
        = true := by
    refine ⟨(((j : Int) - roundrobin_start - 1) % (l.length : Int)).toNat, ?_⟩
    have hc : ((((((j : Int) - roundrobin_start - 1) % (l.length : Int)).toNat + 1 : Nat)) : Int)
        = ((j : Int) - roundrobin_start - 1) % (l.length : Int) + 1 := by
      have := hmodnn ((j : Int) - roundrobin_start - 1)
      push_cast
      omega
    rw [hc]
    have he : (roundrobin_start + (((j : Int) - roundrobin_start - 1) % (l.length : Int) + 1))
        % (l.length : Int) = (j : Int) := by
      have : roundrobin_start + (((j : Int) - roundrobin_start - 1) % (l.length : Int) + 1)
          = ((j : Int) - roundrobin_start - 1) % (l.length : Int) + (roundrobin_start + 1) := by
        ring
      rw [this, Int.emod_add_emod]
      have : (j : Int) - roundrobin_start - 1 + (roundrobin_start + 1) = (j : Int) := by ring
      rw [this]
      exact Int.emod_eq_of_lt (by omega) (by omega)
    rw [he, roundrobin_scan_index s l _ (by omega)]
    refine ⟨q, ?_, hf⟩
    simp only [Int.toNat_ofNat]
    rw [List.getElem?_eq_getElem hj, hjq]
  have hfind := Nat.find_spec hex
  have hmin : ∀ k : Nat, k < Nat.find hex →
      ¬ roundrobin_scan s ((roundrobin_start + ((k + 1 : Nat) : Int)) % (l.length : Int)) l 0
        = true := fun k hk => Nat.find_min hex hk
  have hle : Nat.find hex + 1 ≤ l.length := by
    have h1 : Nat.find hex
        ≤ (((j : Int) - roundrobin_start - 1) % (l.length : Int)).toNat := by
      apply Nat.find_min'
      have hc : ((((((j : Int) - roundrobin_start - 1) % (l.length : Int)).toNat + 1 : Nat)) : Int)
          = ((j : Int) - roundrobin_start - 1) % (l.length : Int) + 1 := by
        have := hmodnn ((j : Int) - roundrobin_start - 1)
        push_cast
        omega
      rw [hc]
      have he : (roundrobin_start + (((j : Int) - roundrobin_start - 1) % (l.length : Int) + 1))
          % (l.length : Int) = (j : Int) := by
        have : roundrobin_start + (((j : Int) - roundrobin_start - 1) % (l.length : Int) + 1)
            = ((j : Int) - roundrobin_start - 1) % (l.length : Int) + (roundrobin_start + 1) := by
          ring
        rw [this, Int.emod_add_emod]
        have : (j : Int) - roundrobin_start - 1 + (roundrobin_start + 1) = (j : Int) := by ring
        rw [this]
        exact Int.emod_eq_of_lt (by omega) (by omega)
      rw [he, roundrobin_scan_index s l _ (by omega)]
      refine ⟨q, ?_, hf⟩
      simp only [Int.toNat_ofNat]
      rw [List.getElem?_eq_getElem hj, hjq]
    have h2 := hmodlt ((j : Int) - roundrobin_start - 1)
    have h3 := hmodnn ((j : Int) - roundrobin_start - 1)
    omega
  refine ⟨Nat.find hex + 1, by omega, hle, ?_, ?_, ?_⟩
  · refine roundrobin_advance_steps s l hn (Nat.find hex) fuel roundrobin_start h0
      (by omega) hfind ?_
    intro k hk1 hk2
    have := hmin (k - 1) (by omega)
    have hk : k - 1 + 1 = k := by omega
    rw [hk] at this
    simpa using this
  · exact (roundrobin_scan_index s l _ (hmodnn _)).mp hfind
  · intro k hk1 hk2 p hp
    have := hmin (k - 1) (by omega)
    have hk : k - 1 + 1 = k := by omega
    rw [hk] at this
    rw [roundrobin_scan_index s l _ (hmodnn _)] at this
    by_contra hflag
    exact this ⟨p, hp, by simpa using hflag⟩

/-- C21. A repeat registration that turns a best-effort tenant into a latency-critical one
leaves the core with `num_best_effort_tenants = 1` and no tenant that is not flagged
latency-critical. After the first registration alone the advance ends in one iteration
with `roundrobin_start = 0`. After the repeat registration `num_tenants = 1` (no remainder
by zero is taken), the advance is entered (`num_best_effort_tenants > 0`) and its
`while (1)` loop does not reach its `break` within any number of iterations, from any
`roundrobin_start`; so `nvme_sched_subround2` does not return, at any time `now`, and
neither does `nvme_sched`. -/
theorem roundrobin_advance_never_ends :
    roundrobin_advance Scenario.one_be
        ((Scenario.one_be.percpu 0).nvme_tenant_manager).tenant_swq
        ((Scenario.one_be.percpu 0).nvme_tenant_manager).num_tenants 1 0 = some 0 ∧
    ((Scenario.be_registered_as_lc.percpu 0).nvme_tenant_manager).num_best_effort_tenants = 1 ∧
    ((Scenario.be_registered_as_lc.percpu 0).nvme_tenant_manager).num_tenants = 1 ∧
    (((Scenario.be_registered_as_lc.percpu 0).nvme_tenant_manager).tenant_swq.map
      (fun q => q.fg_handle)) = [1] ∧
    (Scenario.be_registered_as_lc.nvme_fgs 1).latency_critical_flag = true ∧
    (Scenario.be_registered_as_lc.nvme_fgs 1).conn_ref_count = 2 ∧
    (Scenario.be_registered_as_lc.percpu 0).roundrobin_start = 0 ∧
    (∀ (fuel : Nat) (roundrobin_start : Int),
      roundrobin_advance Scenario.be_registered_as_lc
        ((Scenario.be_registered_as_lc.percpu 0).nvme_tenant_manager).tenant_swq
        ((Scenario.be_registered_as_lc.percpu 0).nvme_tenant_manager).num_tenants
        fuel roundrobin_start = none) ∧
    (∀ (fuel now : Nat),
      nvme_sched_subround2 Scenario.two_cores fuel Scenario.be_registered_as_lc_sched 0 now
        = none) ∧
    (∀ fuel : Nat,
      nvme_sched Scenario.two_cores fuel Scenario.be_registered_as_lc_sched 0 1000 2400000
        = none) := by
  have hall : ∀ q ∈ ((Scenario.be_registered_as_lc.percpu 0).nvme_tenant_manager).tenant_swq,
      (Scenario.be_registered_as_lc.nvme_fgs q.fg_handle).latency_critical_flag = true := by
    decide
  refine ⟨by decide, by decide, by decide, by decide, by decide, by decide, by decide,
    ?_, ?_, ?_⟩
  · exact roundrobin_advance_all_lc _ _ _ hall
  · intro fuel now
    exact nvme_sched_subround2_all_lc _ _ _ _ _ (by decide) (by decide) hall
  · intro fuel
    have hsub : nvme_sched_subround2 Scenario.two_cores fuel
        (nvme_sched_subround1 Scenario.be_registered_as_lc_sched 0 1000).1 0 2400000 = none :=
      nvme_sched_subround2_all_lc _ _ _ _ _ (by decide) (by decide) (by decide)
    have hnt :
        ¬ ((Scenario.be_registered_as_lc_sched.adm.percpu 0).nvme_tenant_manager).num_tenants
          = 0 := by decide
    unfold nvme_sched
    simp only [if_neg hnt]
    rw [hsub]

/-! ## Where the integer and `double` ranges end -/

/-- A latency-critical tenant of 1000 tokens/s in slot 1 of `Scenario.lc_slots` is
admitted under `DEFAULT_FLASH`: the sum 1000 does not exceed the rate, and the rate, the
sum and the count of latency-critical tenants are committed. -/
theorem recalculate_weights_add_lc_witness :
    ((Scenario.lc_slots.nvme_fgs 1).latency_critical_flag = true ∧
      Scenario.lc_slots.global_LC_sum_token_rate + (Scenario.lc_slots.nvme_fgs 1).scaled_IOPS_limit
        < 2 ^ 64 ∧
      Scenario.lc_slots.global_num_lc_tenants + 1 < 2 ^ 64) ∧
    ((recalculate_weights_add Scenario.cfg_flat Scenario.lc_slots 1).1 = weights_ret.one ∧
      (recalculate_weights_add Scenario.cfg_flat Scenario.lc_slots 1).2.global_token_rate
        = min Scenario.lc_slots.global_token_rate
            (lookup_device_token_rate Scenario.cfg_flat
              (Scenario.lc_slots.global_readonly_flag &&
                decide (¬ (Scenario.lc_slots.nvme_fgs 1).rw_ratio_SLO < 100))
              (Scenario.lc_slots.nvme_fgs 1).latency_us_SLO) ∧
      (recalculate_weights_add Scenario.cfg_flat Scenario.lc_slots 1).2.global_LC_sum_token_rate
        = Scenario.lc_slots.global_LC_sum_token_rate
            + (Scenario.lc_slots.nvme_fgs 1).scaled_IOPS_limit ∧
      (recalculate_weights_add Scenario.cfg_flat Scenario.lc_slots 1).2.global_num_lc_tenants
        = Scenario.lc_slots.global_num_lc_tenants + 1) :=
  ⟨⟨by decide, by decide, by decide⟩,
    (recalculate_weights_add_lc Scenario.cfg_flat Scenario.lc_slots 1 (by decide)
      (by decide) (by decide)).2 (by decide)⟩

/-- C1 (counterexample). With a tenant of 2048 tokens/s admitted
(`Scenario.lc_2048`), a latency-critical tenant with `scaled_IOPS_limit = 2 ^ 64 - 2048` is
admitted by `recalculate_weights_add` although
`global_LC_sum_token_rate + scaled_IOPS_limit = 2 ^ 64` exceeds the minimum 4294967295 of
`global_token_rate` and the looked-up rate: the `unsigned long` sum is 0, which is
committed as the new `global_LC_sum_token_rate`. The state is reached through
`bsys_nvme_register_flow` with `IOPS_SLO = 2 ^ 64 - 2048`, which returns `RET_OK`. -/
theorem recalculate_weights_add_sum_wraps :
    (Scenario.huge_lc_pending.nvme_fgs 2).latency_critical_flag = true ∧
    Scenario.huge_lc_pending.global_LC_sum_token_rate = 2048 ∧
    (Scenario.huge_lc_pending.nvme_fgs 2).scaled_IOPS_limit = 2 ^ 64 - 2048 ∧
    min Scenario.huge_lc_pending.global_token_rate
      (lookup_device_token_rate Scenario.cfg_flat
        (Scenario.huge_lc_pending.global_readonly_flag &&
          decide (¬ (Scenario.huge_lc_pending.nvme_fgs 2).rw_ratio_SLO < 100))
        (Scenario.huge_lc_pending.nvme_fgs 2).latency_us_SLO) = 4294967295 ∧
    Scenario.huge_lc_pending.global_LC_sum_token_rate
        + (Scenario.huge_lc_pending.nvme_fgs 2).scaled_IOPS_limit
      > min Scenario.huge_lc_pending.global_token_rate
          (lookup_device_token_rate Scenario.cfg_flat
            (Scenario.huge_lc_pending.global_readonly_flag &&
              decide (¬ (Scenario.huge_lc_pending.nvme_fgs 2).rw_ratio_SLO < 100))
            (Scenario.huge_lc_pending.nvme_fgs 2).latency_us_SLO) ∧
    (recalculate_weights_add Scenario.cfg_flat Scenario.huge_lc_pending 2).1
      = weights_ret.one ∧
    (recalculate_weights_add Scenario.cfg_flat Scenario.huge_lc_pending 2).2.global_LC_sum_token_rate
      = 0 ∧
    (recalculate_weights_add Scenario.cfg_flat Scenario.huge_lc_pending 2).2.global_num_lc_tenants
      = 2 ∧
    scaled_IOPS Scenario.cfg_flat (2 ^ 64 - 2048) 100 = 2 ^ 64 - 2048 ∧
    (bsys_nvme_register_flow Scenario.cfg_flat Scenario.lc_2048 0 2 0 50 (2 ^ 64 - 2048) 100
      true).1 = Status.RET_OK ∧
    (bsys_nvme_register_flow Scenario.cfg_flat Scenario.lc_2048 0 2 0 50 (2 ^ 64 - 2048) 100
      true).2.global_LC_sum_token_rate = 0 ∧
    (bsys_nvme_register_flow Scenario.cfg_flat Scenario.lc_2048 0 2 0 50 (2 ^ 64 - 2048) 100
      true).2.global_num_lc_tenants = 2 := by
  refine ⟨by decide, by decide, by decide, by decide, by decide, by decide, by decide,
    by decide, by decide, by decide, by decide, by decide⟩

/-- C4 (counterexample). At read cost 1 a read of `2 ^ 43`
bytes has `max 1 ⌈bytes / 4096⌉ = 2 ^ 31`, so the product of the claim is 2147483648;
`len_scale_factor` is an `int`, the quotient narrows to -2147483648, and
`nvme_compute_req_cost` returns -2147483648. -/
theorem nvme_compute_req_cost_narrows :
    Scenario.cfg_flat.NVME_READ_COST = 1 ∧
    Scenario.cfg_flat.NVME_READ_COST
        * ((max 1 ⌈((8796093022208 : Nat) : ℚ) / 4096⌉₊ : Nat) : Int) = 2147483648 ∧
    nvme_compute_req_cost Scenario.cfg_flat nvme_cmd.NVME_CMD_READ 8796093022208
      = -2147483648 := by
  refine ⟨by decide, ?_, by decide⟩
  rw [ceil_div_4096]
  decide

/-- C5 (counterexample). `Scenario.cfg_wide_table` is
non-empty with strictly increasing latencies and non-decreasing rates. At 4194305 us the
index is 1 and the linear interpolation between the two points is exactly 2147483645; the
code forms the product `4294967290 * 4194305` in `unsigned long`, converts it to `double`
(it exceeds `2 ^ 53` and is rounded), divides, and returns 2147483644, in either column. -/
theorem find_token_limit_from_devmodel_rounds :
    (Scenario.cfg_wide_table.dev_model ≠ [] ∧
      Scenario.cfg_wide_table.dev_model.Pairwise
        (fun p q => p.p95_tail_latency < q.p95_tail_latency ∧
          p.token_rate_limit ≤ q.token_rate_limit ∧
          p.token_rdonly_rate_limit ≤ q.token_rdonly_rate_limit)) ∧
    ((Scenario.cfg_wide_table.dev 0).p95_tail_latency ≤ 4194305 ∧
      4194305 < (Scenario.cfg_wide_table.dev 1).p95_tail_latency) ∧
    (Scenario.cfg_wide_table.dev 0).rate true
      + ((Scenario.cfg_wide_table.dev 1).rate true - (Scenario.cfg_wide_table.dev 0).rate true)
        * (4194305 - (Scenario.cfg_wide_table.dev 0).p95_tail_latency)
        / ((Scenario.cfg_wide_table.dev 1).p95_tail_latency
          - (Scenario.cfg_wide_table.dev 0).p95_tail_latency) = 2147483645 ∧
    ((Scenario.cfg_wide_table.dev 1).rate true - (Scenario.cfg_wide_table.dev 0).rate true)
        * (4194305 - (Scenario.cfg_wide_table.dev 0).p95_tail_latency)
      = 2147483645 * ((Scenario.cfg_wide_table.dev 1).p95_tail_latency
          - (Scenario.cfg_wide_table.dev 0).p95_tail_latency) ∧
    find_token_limit_from_devmodel Scenario.cfg_wide_table true 4194305 = 2147483644 ∧
    find_token_limit_from_devmodel Scenario.cfg_wide_table false 4194305 = 2147483644 := by
  refine ⟨⟨by decide, by decide⟩, ⟨by decide, by decide⟩, by decide, by decide, by decide,
    by decide⟩

/-! ## Registration in slot 0 -/

/-- C11 (the code at the failing input). In `Scenario.full_table_plus_one` flow 3 is
registered on core 0 and holds slot 0 with `conn_ref_count = 1`. A further registration of
flow 3 on core 0 with the same parameters returns `RET_OK` with the same handle 0, but it
is treated as a new registration: `conn_ref_count` is 1 again (not 2), a second queue of
handle 0 is linked on the core's list, `num_tenants` and the counts of best-effort tenants
go from 3 to 4 and the best-effort share changes. One `bsys_nvme_unregister_flow(0)` then
brings `conn_ref_count` to 0 and removes the tenant that registered twice: the bit is
cleared, the counts go back to 3, and the other queue of handle 0 stays on the list. In
the same state a further registration of flow 1 (slot 1) only raises `conn_ref_count`
to 2. -/
theorem reregistration_in_slot_zero_is_new :
    (Scenario.full_table_plus_one.nvme_fgs_bitmap 0 = true ∧
      (Scenario.full_table_plus_one.nvme_fgs 0).flow_group_id = 3 ∧
      (Scenario.full_table_plus_one.nvme_fgs 0).tid = 0 ∧
      (Scenario.full_table_plus_one.nvme_fgs 0).conn_ref_count = 1 ∧
      ((Scenario.full_table_plus_one.percpu 0).nvme_tenant_manager).tenant_swq.map
        (fun q => q.fg_handle) = [0, 2, 1] ∧
      ((Scenario.full_table_plus_one.percpu 0).nvme_tenant_manager).num_tenants = 3 ∧
      ((Scenario.full_table_plus_one.percpu 0).nvme_tenant_manager).num_best_effort_tenants
        = 3 ∧
      Scenario.full_table_plus_one.global_num_best_effort_tenants = 3 ∧
      Scenario.full_table_plus_one.global_be_token_rate_per_tenant = 1431655765) ∧
    ((bsys_nvme_register_flow Scenario.cfg_small Scenario.full_table_plus_one 0 3 0 0 0 0
        true).1 = Status.RET_OK ∧
      bsys_nvme_register_flow_handle Scenario.cfg_small Scenario.full_table_plus_one 0 3 = 0 ∧
      (Scenario.slot_zero_twice.nvme_fgs 0).conn_ref_count = 1 ∧
      ((Scenario.slot_zero_twice.percpu 0).nvme_tenant_manager).tenant_swq.map
        (fun q => q.fg_handle) = [0, 0, 2, 1] ∧
      ((Scenario.slot_zero_twice.percpu 0).nvme_tenant_manager).num_tenants = 4 ∧
      ((Scenario.slot_zero_twice.percpu 0).nvme_tenant_manager).num_best_effort_tenants = 4 ∧
      Scenario.slot_zero_twice.global_num_best_effort_tenants = 4 ∧
      Scenario.slot_zero_twice.global_be_token_rate_per_tenant = 1073741823) ∧
    ((bsys_nvme_unregister_flow Scenario.cfg_small Scenario.slot_zero_twice 0 0).map
        (fun s => (s.nvme_fgs_bitmap 0, (s.nvme_fgs 0).conn_ref_count,
          ((s.percpu 0).nvme_tenant_manager).tenant_swq.map (fun q => q.fg_handle),
          ((s.percpu 0).nvme_tenant_manager).num_tenants,
          s.global_num_best_effort_tenants))
      = some (false, 0, [0, 2, 1], 3, 3)) ∧
    ((bsys_nvme_register_flow Scenario.cfg_small Scenario.full_table_plus_one 0 1 0 0 0 0
        true).1 = Status.RET_OK ∧
      bsys_nvme_register_flow_handle Scenario.cfg_small Scenario.full_table_plus_one 0 1 = 1 ∧
      ((bsys_nvme_register_flow Scenario.cfg_small Scenario.full_table_plus_one 0 1 0 0 0 0
        true).2.nvme_fgs 1).conn_ref_count = 2 ∧
      (((bsys_nvme_register_flow Scenario.cfg_small Scenario.full_table_plus_one 0 1 0 0 0 0
        true).2.percpu 0).nvme_tenant_manager).tenant_swq.map (fun q => q.fg_handle)
        = [0, 2, 1] ∧
      (((bsys_nvme_register_flow Scenario.cfg_small Scenario.full_table_plus_one 0 1 0 0 0 0
        true).2.percpu 0).nvme_tenant_manager).num_tenants = 3) := by
  refine ⟨⟨by decide, by decide, by decide, by decide, by decide, by decide, by decide,
    by decide, by decide⟩,
    ⟨by decide, by decide, by decide, by decide, by decide, by decide, by decide, by decide⟩,
    by decide,
    ⟨by decide, by decide, by decide, by decide, by decide⟩⟩

/-- A slot marked by a rejected registration holds no queue. With `Scenario.one_lc`
registered, the registration of flow 2 (50 us, 80000 IOPS, 90% reads) is rejected but
leaves slot 2 marked; the same registration made again finds the slot and returns
`RET_OK` with `conn_ref_count = 1`, and `nvme_swq` still unassigned. The unregistration of
slot 2 then brings `conn_ref_count` to 0 and dereferences the null pointer:
`bsys_nvme_unregister_flow` does not return. -/
theorem unregister_after_rejected_registration :
    (bsys_nvme_register_flow Scenario.cfg_cost3 Scenario.one_lc 0 2 0 50 80000 90 true).1
      = Status.RET_CANTMEETSLO ∧
    (bsys_nvme_register_flow Scenario.cfg_cost3
      (bsys_nvme_register_flow Scenario.cfg_cost3 Scenario.one_lc 0 2 0 50 80000 90 true).2
      0 2 0 50 80000 90 true).1 = Status.RET_OK ∧
    ((bsys_nvme_register_flow Scenario.cfg_cost3
      (bsys_nvme_register_flow Scenario.cfg_cost3 Scenario.one_lc 0 2 0 50 80000 90 true).2
      0 2 0 50 80000 90 true).2.nvme_fgs 2).conn_ref_count = 1 ∧
    ((bsys_nvme_register_flow Scenario.cfg_cost3
      (bsys_nvme_register_flow Scenario.cfg_cost3 Scenario.one_lc 0 2 0 50 80000 90 true).2
      0 2 0 50 80000 90 true).2.nvme_fgs 2).nvme_swq = swq_ptr.null ∧
    (bsys_nvme_unregister_flow Scenario.cfg_cost3
      (bsys_nvme_register_flow Scenario.cfg_cost3
        (bsys_nvme_register_flow Scenario.cfg_cost3 Scenario.one_lc 0 2 0 50 80000 90 true).2
        0 2 0 50 80000 90 true).2 0 2).isSome = false := by
  refine ⟨by decide, by decide, by decide, by decide, by decide⟩

/-- The unregistrations of the scenarios return: each names a slot whose `nvme_swq` points
to a linked queue. -/
theorem scenario_unregistrations_return :
    (bsys_nvme_unregister_flow Scenario.cfg_table Scenario.three_lc 0 2).isSome = true ∧
    (bsys_nvme_unregister_flow Scenario.cfg_table
      (Scenario.register Scenario.cfg_table Scenario.three_lc 4 0 0 0) 0 2).isSome = true ∧
    (bsys_nvme_unregister_flow Scenario.cfg_flat Scenario.two_lc 0 1).isSome = true ∧
    (bsys_nvme_unregister_flow Scenario.cfg_flat
      (Scenario.register Scenario.cfg_flat State.init 1 0 0 0) 0 1).isSome = true ∧
    (bsys_nvme_unregister_flow Scenario.cfg_table
      (Scenario.register Scenario.cfg_table
        (Scenario.register Scenario.cfg_table
          (Scenario.register Scenario.cfg_table State.init 1 50 1000 100) 2 50 1000 100)
        3 0 0 0) 0 1).isSome = true := by
  refine ⟨by decide, by decide, by decide, by decide, by decide⟩

end Reflex
